import Mathlib

/-!
The plugin registry, dynamic loader and instance life cycle of lxpanel `src/plugin.c`.

A shallow embedding of the registry part of `src/plugin.c`.

* A C string is the `String` of its bytes (one `Char` per byte, terminator left out);
  a `char *` that may be `NULL` is an `Option String`.
* Pointers to `PluginClass` objects are addresses (`PcPtr`) into `World.heap`.
* External code reached through function pointers (`init` hooks, constructors,
  `new_instance`) is identified by a number; the only effects of it that are kept are
  the ones this file can observe (the trace of `init` calls, the value a constructor returns).
* Calls into GLib that acquire or release a library handle are recorded in the traces
  `World.opened` and `World.closed`.

The file also embeds the sampling graph (`graph_init`, `graph_reload`, `graph_new_point`
and the read order of `graph_redraw`) and `lxpanel_plugin_popup_set_position_helper`.

* A `float` sample is the rational number it denotes; buffers are lists.
* The `guint` computations of `graph_reload` are taken modulo `2 ^ 32`.
* What GTK and GDK report about widgets and monitors is an input (`PopupQuery`).
-/

namespace LXPanel

/-- Value of a `GModule *` returned by `g_module_open`. -/
abbrev GModule := Nat

/-- Address of a `PluginClass` object. -/
abbrev PcPtr := Nat

/-- Value of a non-null `GtkWidget *`. -/
abbrev Widget := Nat

/-- Address of a piece of external code (a non-null function pointer). -/
abbrev CodeId := Nat

/-- The `PluginClass` record of `private.h`, with the fields `plugin.c` reads or writes.
`count` is a C `int`; the one-bit fields are kept as booleans (zero / non-zero). -/
structure PluginClass where
  structure_size : Nat
  structure_version : Nat
  count : Int
  gmodule : Option GModule
  dynamic : Bool
  not_unloadable : Bool
  one_per_system : Bool
  expand_available : Bool
  expand_default : Bool
  type : String
  name : Option String
  description : Option String
  constructor : CodeId
  destructor : CodeId
  config : Option CodeId
  save : Option CodeId
  panel_configuration_changed : Option CodeId
  deriving DecidableEq, Repr

/-- What a `config` or `reconfigure` slot of an `LXPanelPluginInit` points to: external
code, or one of the two adapters of this file. -/
inductive Callback where
  | ext (code : CodeId)
  | _old_plugin_config
  | _old_plugin_reconfigure
  deriving DecidableEq, Repr

/-- The `LXPanelPluginInit` record of `plugin.h`, with the fields `plugin.c` reads or writes.
A function pointer is `none` when it is `NULL`. -/
structure LXPanelPluginInit where
  init : Option CodeId
  name : Option String
  description : Option String
  new_instance : Option CodeId
  config : Option Callback
  reconfigure : Option Callback
  button_press_event : Option CodeId
  _reserved1 : Option PcPtr
  one_per_system : Bool
  expand_available : Bool
  expand_default : Bool
  deriving DecidableEq, Repr

/-- The record `g_new0 (LXPanelPluginInit, 1)` returns: every field zero. -/
def LXPanelPluginInit.g_new0 : LXPanelPluginInit :=
  { init := none, name := none, description := none, new_instance := none,
    config := none, reconfigure := none, button_press_event := none, _reserved1 := none,
    one_per_system := false, expand_available := false, expand_default := false }

/-- The legacy instance record `Plugin` of `private.h`: the fields `plugin.c` sets. -/
structure Plugin where
  «class» : PcPtr
  pwid : Option Widget
  deriving DecidableEq, Repr

/-- Contents of a `GHashTable` created with `g_str_hash` / `g_str_equal`: at most one
entry per key. The values stored by this file are never `NULL`. -/
abbrev GHashTable := List (String × LXPanelPluginInit)

/-- GLib `g_hash_table_lookup`: the value stored under `key`, `none` for `NULL`. -/
def g_hash_table_lookup : GHashTable → String → Option LXPanelPluginInit
  | [], _ => none
  | (k, v) :: t, key => if k = key then some v else g_hash_table_lookup t key

/-- GLib `g_hash_table_insert`: when `key` is already in the table its value is replaced
by the new one (the old key is kept), otherwise a new entry is added. -/
def g_hash_table_insert : GHashTable → String → LXPanelPluginInit → GHashTable
  | [], key, value => [(key, value)]
  | (k, v) :: t, key, value =>
    if k = key then (k, value) :: t else (k, v) :: g_hash_table_insert t key value

/-- The part of the process state `plugin.c` works on.
`_all_types` is `none` when the static pointer does not point to a live table.
`heap` gives the contents of every `PluginClass` object; `plugins` are the live `Plugin`
records (allocated in `lxpanel_add_plugin`, freed in `_old_plugin_destroy`);
`init_calls`, `opened` and `closed` are the traces of the calls made to `init` hooks,
`g_module_open` (successful ones) and `g_module_close`, most recent first. -/
structure World where
  _all_types : Option GHashTable
  old_plugins_loaded : Bool
  fm_modules_loaded : Bool
  heap : PcPtr → PluginClass
  plugins : List Plugin
  init_calls : List CodeId
  opened : List GModule
  closed : List (Option GModule)

/-- What the build and the file system supply. `g_module_symbol m s` is `none` when the
library has no symbol `s`, and `some v` with `v` its value otherwise; `g_dir_read` is the
listing of the plugins directory, `none` when `g_dir_open` fails; `fm_modules` are the
`(name, init)` pairs libfm hands to `fm_module_callback_lxpanel_gtk` when it loads its
modules. -/
structure Env where
  sizeof_PluginClass : Nat
  PLUGINCLASS_VERSION : Nat
  PACKAGE_LIB_DIR : String
  DISABLE_PLUGINS_LOADING : Bool
  g_module_open : String → Option GModule
  g_module_symbol : GModule → String → Option (Option PcPtr)
  g_dir_read : Option (List String)
  fm_modules : List (Option String × LXPanelPluginInit)

/-- Source `_find_plugin`: `g_hash_table_lookup (_all_types, name)`; GLib returns `NULL`
for a `NULL` table. -/
def _find_plugin (w : World) (name : String) : Option LXPanelPluginInit :=
  match w._all_types with
  | none => none
  | some t => g_hash_table_lookup t name

/-- The call `g_hash_table_insert (_all_types, g_strdup (key), value)`; GLib does nothing
for a `NULL` table. -/
def all_types_insert (w : World) (key : String) (value : LXPanelPluginInit) : World :=
  match w._all_types with
  | none => w
  | some t => { w with _all_types := some (g_hash_table_insert t key value) }

/-- Source `lxpanel_register_plugin_type`: the state after the call and the returned
`gboolean`. The `init` hook is external code; its call is recorded in `init_calls`. -/
def lxpanel_register_plugin_type (w : World) (name : Option String)
    (init : LXPanelPluginInit) : World × Bool :=
  match init.new_instance, name with
  | none, _ => (w, false)
  | some _, none => (w, false)
  | some _, some name =>
    if name = "" then (w, false)
    else
      match _find_plugin w name with
      | some _ => (w, false)
      | none =>
        let w1 : World :=
          match init.init with
          | some hook => { w with init_calls := hook :: w.init_calls }
          | none => w
        (all_types_insert w1 name init, true)

/-- The record `register_plugin_class` builds for the legacy descriptor `c` stored at
`pc`: zeroed, then `_reserved1`, `name`, `description`, the two adapters and the three
flags are filled in. -/
def old_plugin_init (c : PluginClass) (pc : PcPtr) : LXPanelPluginInit :=
  { LXPanelPluginInit.g_new0 with
    _reserved1 := some pc
    name := c.name
    description := c.description
    config := if c.config.isSome then some Callback._old_plugin_config else none
    reconfigure :=
      if c.panel_configuration_changed.isSome then some Callback._old_plugin_reconfigure
      else none
    one_per_system := c.one_per_system
    expand_available := c.expand_available
    expand_default := c.expand_default }

/-- Source `register_plugin_class`: wraps the legacy descriptor at `pc` in a zeroed
`LXPanelPluginInit`, stamps `pc->dynamic`, and inserts the wrapper under `pc->type`. -/
def register_plugin_class (w : World) (pc : PcPtr) (dynamic : Bool) : World :=
  let c := w.heap pc
  let init := old_plugin_init c pc
  let w1 : World := { w with heap := Function.update w.heap pc { c with dynamic := dynamic } }
  all_types_insert w1 c.type init

/-- The buffer `class_name` after `g_snprintf (class_name, 128, "%s_plugin_class", type)`:
the formatted text cut to the 127 bytes the buffer has room for. -/
def class_name (type : String) : String :=
  ⟨(type ++ "_plugin_class").data.take 127⟩

/-- Source `plugin_load_dynamic`: a library that does not open changes nothing; one
that opens is checked in the order symbol, size, version, type name, and either closed
again or stamped with its handle, registered as dynamic and given the count 1. -/
def plugin_load_dynamic (env : Env) (w : World) (type path : String) : World :=
  match env.g_module_open path with
  | none => w
  | some m =>
    let w0 : World := { w with opened := m :: w.opened }
    let rejected : World := { w0 with closed := some m :: w0.closed }
    match env.g_module_symbol m (class_name type) with
    | none => rejected
    | some none => rejected
    | some (some pc) =>
      if (w0.heap pc).structure_size ≠ env.sizeof_PluginClass then rejected
      else if (w0.heap pc).structure_version ≠ env.PLUGINCLASS_VERSION then rejected
      else if type ≠ (w0.heap pc).type then rejected
      else
        let w1 : World :=
          { w0 with heap := Function.update w0.heap pc { w0.heap pc with gmodule := some m } }
        let w2 := register_plugin_class w1 pc true
        { w2 with heap := Function.update w2.heap pc { w2.heap pc with count := 1 } }

/-- Source `plugin_class_unref`: the count is lowered, and the library is closed when the
new count is 0 for a dynamic descriptor that is not marked `not_unloadable`. -/
def plugin_class_unref (w : World) (pc : PcPtr) : World :=
  let c : PluginClass := { w.heap pc with count := (w.heap pc).count - 1 }
  let w1 : World := { w with heap := Function.update w.heap pc c }
  if c.count = 0 ∧ c.dynamic = true ∧ c.not_unloadable = false then
    { w1 with closed := c.gmodule :: w1.closed }
  else w1

/-- The test `g_str_has_suffix (file, ".so")`. -/
def has_so_suffix (file : String) : Bool :=
  ".so".data.isSuffixOf file.data

/-- The type name `g_strndup (file, strlen (file) - 3)`. -/
def strip_so (file : String) : String :=
  ⟨file.data.take (file.data.length - 3)⟩

/-- The path `g_build_filename (PACKAGE_LIB_DIR "/lxpanel/plugins", file, NULL)` for a
directory entry `file` (which holds no separator). -/
def plugin_path (env : Env) (file : String) : String :=
  env.PACKAGE_LIB_DIR ++ "/lxpanel/plugins" ++ "/" ++ file

/-- Body of the directory loop of `plugin_get_available_classes` for one entry. -/
def scan_entry (env : Env) (w : World) (file : String) : World :=
  if has_so_suffix file then
    match _find_plugin w (strip_so file) with
    | none => plugin_load_dynamic env w (strip_so file) (plugin_path env file)
    | some _ => w
  else w

/-- Source `plugin_get_available_classes`: nothing when plugin loading is disabled or
the directory cannot be opened, otherwise every directory entry in turn. -/
def plugin_get_available_classes (env : Env) (w : World) : World :=
  if env.DISABLE_PLUGINS_LOADING then w
  else
    match env.g_dir_read with
    | none => w
    | some files => files.foldl (scan_entry env) w

/-- Source `lxpanel_prepare_modules`: a new empty table (the quarks and the libfm
registration have no part in the state kept here). -/
def lxpanel_prepare_modules (w : World) : World :=
  { w with _all_types := some [] }

/-- Body of the loop of `lxpanel_unload_modules` for one entry. A wrapper without
`new_instance` was made by `register_plugin_class`, so its `_reserved1` is set. -/
def unload_entry (w : World) (e : String × LXPanelPluginInit) : World :=
  match e.2.new_instance, e.2._reserved1 with
  | none, some pc => plugin_class_unref w pc
  | _, _ => w

/-- Source `lxpanel_unload_modules`: the entries are visited in table order; afterwards
the table is destroyed and the scan for old plugins is due again. -/
def lxpanel_unload_modules (w : World) : World :=
  let w1 := (w._all_types.getD []).foldl unload_entry w
  { w1 with _all_types := none, old_plugins_loaded := false }

/-- Source `_old_plugin_destroy`: drops the instance's reference and frees the record. -/
def _old_plugin_destroy (w : World) (pl : Plugin) : World :=
  let w1 := plugin_class_unref w pl.«class»
  { w1 with plugins := w1.plugins.erase pl }

/-- The callback `fm_module_callback_lxpanel_gtk` applied to every pair libfm delivers. -/
def fm_modules_load (w : World) : List (Option String × LXPanelPluginInit) → World
  | [] => w
  | (name, init) :: rest => fm_modules_load (lxpanel_register_plugin_type w name init).1 rest

/-- The libfm statement `CHECK_MODULES ()`: loads the modules once. When plugin loading
is disabled no callback of this file is installed. -/
def CHECK_MODULES (env : Env) (w : World) : World :=
  if w.fm_modules_loaded then w
  else
    let w1 := if env.DISABLE_PLUGINS_LOADING then w else fm_modules_load w env.fm_modules
    { w1 with fm_modules_loaded := true }

/-- What the external creation code does in one call of `lxpanel_add_plugin`:
the widget `init->new_instance` returns, whether `pc->constructor` returns non-zero, and
the value it leaves in `pl->pwid`. -/
structure Outcome where
  new_instance : Option Widget
  constructor : Bool
  pwid : Option Widget
  deriving DecidableEq, Repr

/-- The first part of `lxpanel_add_plugin`, up to the lookup: `CHECK_MODULES ()`, the
one-time scan for old plugins, and the flag. -/
def add_plugin_discovery (env : Env) (w : World) : World :=
  let w1 := CHECK_MODULES env w
  let w2 := if w1.old_plugins_loaded then w1 else plugin_get_available_classes env w1
  { w2 with old_plugins_loaded := true }

/-- The rest of `lxpanel_add_plugin`, from the lookup on, run in the state `w1` the
discovery part left. The configuration settings and the packing of the widget into the
panel are GUI state outside `World`. The new widget carries no earlier plugin data, so
`lxpanel_plugin_set_data` only attaches the record. -/
def add_plugin_create (w1 : World) (name : String) (out : Outcome) :
    World × Option Widget :=
  match _find_plugin w1 name with
  | none => (w1, none)
  | some init =>
    match init.new_instance with
    | some _ => (w1, out.new_instance)
    | none =>
      match init._reserved1 with
      | none => (w1, none)
      | some pc =>
        let widget : Option Widget := if out.constructor then out.pwid else none
        match widget with
        | none => (w1, none)
        | some wid =>
          let c := w1.heap pc
          let pl : Plugin := { «class» := pc, pwid := out.pwid }
          ({ w1 with
              heap := Function.update w1.heap pc { c with count := c.count + 1 }
              plugins := pl :: w1.plugins }, some wid)

/-- Source `lxpanel_add_plugin`: the state after the call and the returned widget (`none`
for `NULL`). -/
def lxpanel_add_plugin (env : Env) (w : World) (name : String) (out : Outcome) :
    World × Option Widget :=
  add_plugin_create (add_plugin_discovery env w) name out

/-! ## Sequences of operations -/

/-- The calls that reach the registry and the descriptors from outside: a directory entry
handled by the scan of `plugin_get_available_classes` (the guarded `plugin_load_dynamic`),
`lxpanel_register_plugin_type`, `lxpanel_add_plugin`, the destroy notification
`_old_plugin_destroy` of an instance record, and `lxpanel_unload_modules`. -/
inductive Op where
  | load (file : String)
  | register (name : Option String) (init : LXPanelPluginInit)
  | add (name : String) (out : Outcome)
  | destroy (pl : Plugin)
  | unload
  deriving DecidableEq, Repr

/-- The state after one operation. -/
def step (env : Env) (w : World) : Op → World
  | Op.load file => scan_entry env w file
  | Op.register name init => (lxpanel_register_plugin_type w name init).1
  | Op.add name out => (lxpanel_add_plugin env w name out).1
  | Op.destroy pl => _old_plugin_destroy w pl
  | Op.unload => lxpanel_unload_modules w

/-- Whether the operation may be issued in `w`: `_old_plugin_destroy` runs for a record
that is live, everything else needs the table `_all_types` to exist. -/
def allowed (w : World) : Op → Bool
  | Op.destroy pl => decide (pl ∈ w.plugins)
  | _ => w._all_types.isSome

/-- The state after a sequence of operations. -/
def run (env : Env) (w : World) : List Op → World
  | [] => w
  | op :: ops => run env (step env w op) ops

/-- Every operation of the sequence is allowed in the state it is issued in. -/
def valid (env : Env) (w : World) : List Op → Bool
  | [] => true
  | op :: ops => allowed w op && valid env (step env w op) ops

/-- The entries of the table (none when there is no table). -/
def entries (w : World) : GHashTable := w._all_types.getD []

/-- Whether a table entry is a legacy wrapper of the descriptor at `p`: the entries
`lxpanel_unload_modules` passes to `plugin_class_unref`. -/
def wraps (p : PcPtr) (e : String × LXPanelPluginInit) : Bool :=
  e.2.new_instance.isNone && decide (e.2._reserved1 = some p)

/-- Number of table entries that wrap the descriptor at `p`. -/
def refs (w : World) (p : PcPtr) : Nat := (entries w).countP (wraps p)

/-- Number of live instance records of the descriptor at `p`. -/
def live (w : World) (p : PcPtr) : Nat := w.plugins.countP fun pl => decide (pl.«class» = p)

/-- The registry invariant, relative to the heap `h0` the process started with: keys are
unique; a legacy entry wraps a descriptor whose type is the entry's key; while the table
exists every live instance belongs to a registered descriptor; and the count of every
descriptor is the number of entries wrapping it plus the number of its live instances,
unless the descriptor has neither and its count is still the initial one. -/
structure Inv (h0 : PcPtr → PluginClass) (w : World) : Prop where
  keys_nodup : ((entries w).map Prod.fst).Nodup
  legacy : ∀ e ∈ entries w, e.2.new_instance = none →
    ∃ p, e.2._reserved1 = some p ∧ (w.heap p).type = e.1
  instances : w._all_types.isSome = true → ∀ pl ∈ w.plugins, 1 ≤ refs w pl.«class»
  counts : ∀ p, (w.heap p).count = (refs w p : Int) + (live w p : Int) ∨
    (refs w p = 0 ∧ live w p = 0 ∧ (w.heap p).count = (h0 p).count)

/-- A run of `lxpanel_register_plugin_type` calls, in order: the final state and the
value each call returned. -/
def register_seq (w : World) : List (Option String × LXPanelPluginInit) → World × List Bool
  | [] => (w, [])
  | (name, init) :: rest =>
    let r := lxpanel_register_plugin_type w name init
    let s := register_seq r.1 rest
    (s.1, r.2 :: s.2)

/-- The descriptor of the first call made under `n` that returned `TRUE`, given the calls
and the values they returned. -/
def first_success (n : String) :
    List (Option String × LXPanelPluginInit) → List Bool → Option LXPanelPluginInit
  | (name, init) :: calls, r :: results =>
    if r = true ∧ name = some n then some init else first_success n calls results
  | _, _ => none

/-- The state `lxpanel_register_plugin_type` leaves when it accepts `init` under `n`. -/
def registered (w : World) (n : String) (init : LXPanelPluginInit) : World :=
  all_types_insert
    (match init.init with
      | some hook => { w with init_calls := hook :: w.init_calls }
      | none => w) n init

/-- The state `lxpanel_add_plugin` leaves when the legacy constructor of the descriptor at
`pc` succeeded: one more reference, one more live record. -/
def created (w1 : World) (pc : PcPtr) (out : Outcome) : World :=
  { w1 with
    heap := Function.update w1.heap pc { w1.heap pc with count := (w1.heap pc).count + 1 }
    plugins := { «class» := pc, pwid := out.pwid } :: w1.plugins }

/-- The descriptors `plugin_class_unref` is applied to by one operation, in order:
the class of the destroyed instance, or, for `lxpanel_unload_modules`, the descriptor of
every legacy entry of the table. -/
def unref_targets (w : World) : Op → List PcPtr
  | Op.destroy pl => [pl.«class»]
  | Op.unload =>
    (entries w).filterMap fun e =>
      match e.2.new_instance, e.2._reserved1 with
      | none, some pc => some pc
      | _, _ => none
  | _ => []

/-- The state `plugin_load_dynamic` leaves when the library `m` passes every check with
its descriptor at `pc`. -/
def load_accepted (w : World) (m : GModule) (pc : PcPtr) : World :=
  { w with
    _all_types := w._all_types.map fun t =>
      g_hash_table_insert t (w.heap pc).type (old_plugin_init (w.heap pc) pc)
    heap := Function.update w.heap pc
      { w.heap pc with gmodule := some m, dynamic := true, count := 1 }
    opened := m :: w.opened }

/-- The state `plugin_load_dynamic` leaves when the library `m` fails a check: the handle
was opened and closed again, nothing else changed. -/
def load_rejected (w : World) (m : GModule) : World :=
  { w with opened := m :: w.opened, closed := some m :: w.closed }

/-! ## Sample data -/

/-- A legacy descriptor as it sits in a plugin library before it is loaded. -/
def netstat_class : PluginClass :=
  { structure_size := 96, structure_version := 1, count := 0, gmodule := none,
    dynamic := false, not_unloadable := false, one_per_system := false,
    expand_available := true, expand_default := false, type := "netstat",
    name := some "Net Status", description := some "Monitor network status",
    constructor := 11, destructor := 12, config := some 13, save := some 14,
    panel_configuration_changed := none }

/-- A process state before `lxpanel_prepare_modules`. -/
def boot : World :=
  { _all_types := none, old_plugins_loaded := false, fm_modules_loaded := false,
    heap := fun _ => netstat_class, plugins := [], init_calls := [], opened := [],
    closed := [] }

/-- The state right after `lxpanel_prepare_modules`. -/
def prepared : World := lxpanel_prepare_modules boot

/-- A modern descriptor with an `init` hook. -/
def clock : LXPanelPluginInit :=
  { LXPanelPluginInit.g_new0 with
    init := some 21, name := some "Clock", new_instance := some 22 }

/-- A modern descriptor without an `init` hook. -/
def battery : LXPanelPluginInit :=
  { LXPanelPluginInit.g_new0 with name := some "Battery", new_instance := some 32 }

/-- A second modern descriptor offered under an already taken name. -/
def clock2 : LXPanelPluginInit :=
  { LXPanelPluginInit.g_new0 with
    init := some 41, name := some "Other clock", new_instance := some 42 }

/-- A modern descriptor registered under the type name of `netstat_class`. -/
def netstat_new : LXPanelPluginInit :=
  { LXPanelPluginInit.g_new0 with name := some "Net", new_instance := some 52 }

/-- The prepared registry with the name "netstat" taken by a modern descriptor. -/
def netstat_taken : World :=
  (lxpanel_register_plugin_type prepared (some "netstat") netstat_new).1

/-- A build and a plugins directory holding one legacy plugin, `netstat.so`, whose
descriptor sits at address 0, and two modules known to libfm. -/
def sample_env : Env :=
  { sizeof_PluginClass := 96
    PLUGINCLASS_VERSION := 1
    PACKAGE_LIB_DIR := "/usr/lib"
    DISABLE_PLUGINS_LOADING := false
    g_module_open := fun path =>
      if path = "/usr/lib/lxpanel/plugins/netstat.so" then some 5 else none
    g_module_symbol := fun m sym =>
      if m = 5 ∧ sym = "netstat_plugin_class" then some (some 0) else none
    g_dir_read := some ["netstat.so", "README"]
    fm_modules := [(some "clock", clock), (some "battery", battery)] }

/-- A type name of 115 bytes. -/
def long_type : String := ⟨List.replicate 115 'a'⟩

/-- A well-formed legacy descriptor whose type name is `long_type`. -/
def long_class : PluginClass := { netstat_class with type := long_type }

/-- A library `long_type.so` that exports the descriptor at address 0 under the full
symbol name `long_type ++ "_plugin_class"`. -/
def long_env : Env :=
  { sample_env with
    g_module_open := fun path => if path = "long.so" then some 6 else none
    g_module_symbol := fun m sym =>
      if m = 6 ∧ sym = long_type ++ "_plugin_class" then some (some 0) else none }

/-- A prepared state in which the object at address 0 is `long_class`. -/
def long_world : World := { prepared with heap := fun _ => long_class }

/-- A constructor call that succeeds and leaves widget 77 in `pwid`. -/
def ok_out : Outcome := { new_instance := none, constructor := true, pwid := some 77 }

/-- A constructor call that succeeds and leaves widget 78 in `pwid`. -/
def ok_out2 : Outcome := { new_instance := none, constructor := true, pwid := some 78 }

/-- The path of the library `netstat.so` in the plugins directory of `sample_env`. -/
def netstat_path : String := "/usr/lib/lxpanel/plugins/netstat.so"

/-- The prepared state after `netstat.so` has been loaded. -/
def netstat_loaded : World := plugin_load_dynamic sample_env prepared "netstat" netstat_path

/-- The state after one successful creation of a "netstat" instance. -/
def netstat_created : World :=
  (lxpanel_add_plugin sample_env netstat_loaded "netstat" ok_out).1

/-- The state after that instance has been destroyed again. -/
def netstat_destroyed : World := _old_plugin_destroy netstat_created ⟨0, some 77⟩

/-- The prepared state after the discovery part of a first `lxpanel_add_plugin` call. -/
def discovered : World := add_plugin_discovery sample_env prepared

/-- A sequence of operations: two instances are created, one is destroyed before the
teardown and one after it. -/
def sample_ops : List Op :=
  [Op.add "netstat" ok_out, Op.register (some "clock") clock2, Op.add "netstat" ok_out2,
    Op.destroy ⟨0, some 77⟩, Op.load "netstat.so", Op.unload, Op.destroy ⟨0, some 78⟩]

/-! ## The graph widget -/

/-- A `GdkRGBA` colour; channel values are kept as rationals. -/
structure GdkRGBA where
  red : ℚ
  green : ℚ
  blue : ℚ
  alpha : ℚ
  deriving DecidableEq

/-- The `PluginGraph` record of `plugin.h`, without the image widget `da`, for buffers
whose samples are all finite: a finite `float` sample is the rational it denotes, and
`graph_new_point` and `graph_reload` only compare samples with constants and copy them,
so no rounding takes place. Samples that are a NaN or an infinity are the subject of
`CFloat` and `FloatGraph`. `samples` is `none` for a `NULL` pointer; `samp_states` is
empty while that buffer is not allocated; `pixmap` holds the size of the cairo surface.
The `unsigned` fields are naturals below `2 ^ 32`. -/
structure PluginGraph where
  samples : Option (List ℚ)
  samp_states : List Int
  ring_cursor : Nat
  pixmap_width : Nat
  pixmap_height : Nat
  pixmap : Option (Nat × Nat)
  background : GdkRGBA
  colours : GdkRGBA × GdkRGBA × GdkRGBA
  deriving DecidableEq

/-- The call `memcpy (&dst[d], &src[s], n * sizeof (element))` for ranges that lie inside the
two buffers: `n` elements of `src` from index `s` replace those of `dst` from index `d`. -/
def memcpy {α : Type} (dst : List α) (d : Nat) (src : List α) (s n : Nat) : List α :=
  dst.take d ++ (src.drop s).take n ++ dst.drop (d + n)

/-- The block of `graph_reload` that runs when the statistics buffer does not exist or
changes size: two zeroed buffers of `new_pixmap_width` elements are allocated and, when
old buffers exist, filled from them by one of the three copy schemes. -/
def graph_realloc (g : PluginGraph) (new_pixmap_width : Nat) : PluginGraph :=
  let new_samples : List ℚ := List.replicate new_pixmap_width 0
  let new_samp_states : List Int := List.replicate new_pixmap_width 0
  match g.samples with
  | none => { g with samples := some new_samples, samp_states := new_samp_states }
  | some samples =>
    if new_pixmap_width > g.pixmap_width then
      { g with
        samples := some
          (memcpy (memcpy new_samples 0 samples 0 g.ring_cursor)
            (new_pixmap_width - g.pixmap_width + g.ring_cursor) samples g.ring_cursor
            (g.pixmap_width - g.ring_cursor))
        samp_states :=
          memcpy (memcpy new_samp_states 0 g.samp_states 0 g.ring_cursor)
            (new_pixmap_width - g.pixmap_width + g.ring_cursor) g.samp_states g.ring_cursor
            (g.pixmap_width - g.ring_cursor) }
    else if g.ring_cursor ≤ new_pixmap_width then
      { g with
        samples := some
          (memcpy (memcpy new_samples 0 samples 0 g.ring_cursor)
            g.ring_cursor samples (g.pixmap_width - new_pixmap_width + g.ring_cursor)
            (new_pixmap_width - g.ring_cursor))
        samp_states :=
          memcpy (memcpy new_samp_states 0 g.samp_states 0 g.ring_cursor)
            g.ring_cursor g.samp_states (g.pixmap_width - new_pixmap_width + g.ring_cursor)
            (new_pixmap_width - g.ring_cursor) }
    else
      { g with
        samples := some
          (memcpy new_samples 0 samples (g.ring_cursor - new_pixmap_width) new_pixmap_width)
        samp_states :=
          memcpy new_samp_states 0 g.samp_states (g.ring_cursor - new_pixmap_width)
            new_pixmap_width
        ring_cursor := 0 }

/-- The value `guint new_pixmap_height = icon_size - (BORDER_SIZE << 1)`: the `int`
difference converted to 32-bit unsigned. -/
def new_pixmap_height (BORDER_SIZE : Nat) (icon_size : Int) : Nat :=
  ((icon_size - ((BORDER_SIZE <<< 1 : Nat) : Int)) % 4294967296).toNat

/-- The value of `new_pixmap_width`: `(new_pixmap_height * 3) >> 1` in 32-bit unsigned
arithmetic, raised to 50 when it is less. -/
def new_pixmap_width (height : Nat) : Nat :=
  if ((height * 3) % 4294967296) >>> 1 < 50 then 50 else ((height * 3) % 4294967296) >>> 1

/-- The stores of source `graph_reload`, with the constant `BORDER_SIZE` of `plugin.h` as
a parameter: the graph as it is when the function reaches its last statement, the call
`graph_redraw (graph, "")`. What that call reads from this graph is
`graph_redraw_cursors`, `redraw_samples` and `redraw_states`; whether it stays inside
the arrays is `graph_redraw_in_bounds`; the function as a whole, that call included, is
`graph_reload_call`. -/
def graph_reload (BORDER_SIZE : Nat) (g : PluginGraph) (icon_size : Int)
    (background foreground throttle1 throttle2 : GdkRGBA) : PluginGraph :=
  let g0 : PluginGraph :=
    { g with background := background, colours := (foreground, throttle1, throttle2) }
  let height := new_pixmap_height BORDER_SIZE icon_size
  let width := new_pixmap_width height
  if width > 0 ∧ height > 0 then
    let g1 :=
      if g0.samples = none ∨ width ≠ g0.pixmap_width then graph_realloc g0 width else g0
    { g1 with pixmap_width := width, pixmap_height := height, pixmap := some (width, height) }
  else g0

/-- A C `float`: a NaN, an infinity, or a finite value, kept as the rational it denotes. -/
inductive CFloat where
  | nan
  | neg_inf
  | finite (q : ℚ)
  | pos_inf
  deriving DecidableEq

/-- The C comparison `a < b` on floats: false as soon as one operand is a NaN. -/
def CFloat.lt : CFloat → CFloat → Bool
  | CFloat.nan, _ => false
  | _, CFloat.nan => false
  | CFloat.neg_inf, CFloat.neg_inf => false
  | CFloat.neg_inf, _ => true
  | CFloat.finite _, CFloat.neg_inf => false
  | CFloat.finite a, CFloat.finite b => decide (a < b)
  | CFloat.finite _, CFloat.pos_inf => true
  | CFloat.pos_inf, _ => false

/-- The two statements at the head of `graph_new_point`, on the `float` itself:
`if (value < 0.0) value = 0.0; else if (value > 1.0) value = 1.0;`. -/
def clamp_float (value : CFloat) : CFloat :=
  if CFloat.lt value (CFloat.finite 0) then CFloat.finite 0
  else if CFloat.lt (CFloat.finite 1) value then CFloat.finite 1
  else value

/-- The fields of a `PluginGraph` that `graph_new_point` works on, the samples being C
floats: a buffer slot can hold a NaN or an infinity. -/
structure FloatGraph where
  samples : Option (List CFloat)
  samp_states : List Int
  ring_cursor : Nat
  pixmap_width : Nat
  deriving DecidableEq

/-- Source `graph_new_point` on C floats: the clamp, the two stores at the cursor, and the
cursor advanced and wrapped. A store through a `NULL` pointer or past the end of a buffer
is undefined in C; here it stores nothing. -/
def graph_new_point_float (g : FloatGraph) (value : CFloat) (state : Int) : FloatGraph :=
  let g1 : FloatGraph :=
    { g with
      samples := g.samples.map fun s => s.set g.ring_cursor (clamp_float value)
      samp_states := g.samp_states.set g.ring_cursor state }
  if g1.ring_cursor + 1 ≥ g1.pixmap_width then { g1 with ring_cursor := 0 }
  else { g1 with ring_cursor := g1.ring_cursor + 1 }

/-- A graph whose samples are all finite, seen as a graph of C floats. -/
def float_graph (g : PluginGraph) : FloatGraph :=
  { samples := g.samples.map fun s => s.map CFloat.finite
    samp_states := g.samp_states
    ring_cursor := g.ring_cursor
    pixmap_width := g.pixmap_width }

/-- The clamp at the head of `graph_new_point`, for a finite value: `clamp_float` on the
rational the value denotes. -/
def clamp_sample (value : ℚ) : ℚ :=
  if value < 0 then 0 else if value > 1 then 1 else value

/-- Source `graph_new_point` for a finite value (the label only goes to the redraw):
`graph_new_point_float` on buffers of finite samples. A store through a `NULL` pointer
or past the end of a buffer is undefined in C; here it stores nothing. -/
def graph_new_point (g : PluginGraph) (value : ℚ) (state : Int) : PluginGraph :=
  let g1 : PluginGraph :=
    { g with
      samples := g.samples.map fun s => s.set g.ring_cursor (clamp_sample value)
      samp_states := g.samp_states.set g.ring_cursor state }
  if g1.ring_cursor + 1 ≥ g1.pixmap_width then { g1 with ring_cursor := 0 }
  else { g1 with ring_cursor := g1.ring_cursor + 1 }

/-- Source `graph_init`: no sample buffer, cursor 0, no surface; the other fields keep what
the caller's storage held. -/
def graph_init (g : PluginGraph) : PluginGraph :=
  { g with samples := none, ring_cursor := 0, pixmap := none }

/-- A sequence of `graph_new_point` calls, in order. -/
def graph_new_points (g : PluginGraph) (pushes : List (ℚ × Int)) : PluginGraph :=
  pushes.foldl (fun acc p => graph_new_point acc p.1 p.2) g

/-- The loop of `graph_redraw`: the values `drawing_cursor` takes in the remaining
iterations, the cursor being advanced and wrapped after each bar. -/
def redraw_cursors (width : Nat) : Nat → Nat → List Nat
  | 0, _ => []
  | n + 1, drawing_cursor =>
    drawing_cursor ::
      redraw_cursors width n (if drawing_cursor + 1 ≥ width then 0 else drawing_cursor + 1)

/-- The slots `graph_redraw` reads, left bar first: `pixmap_width` iterations that start
at `ring_cursor`. -/
def graph_redraw_cursors (g : PluginGraph) : List Nat :=
  redraw_cursors g.pixmap_width g.pixmap_width g.ring_cursor

/-- The samples `graph_redraw` reads, in drawing order; `none` stands for a read outside
the buffer. -/
def redraw_samples (g : PluginGraph) : List (Option ℚ) :=
  (graph_redraw_cursors g).map fun i => (g.samples.getD [])[i]?

/-- The state tags at the slots `graph_redraw` visits, in drawing order. -/
def redraw_states (g : PluginGraph) : List (Option Int) :=
  (graph_redraw_cursors g).map fun i => g.samp_states[i]?

/-- One iteration of the loop of `graph_redraw` reads `samples[drawing_cursor]` and, for a
sample other than 0, `samp_states[drawing_cursor]` and the entry of the three-element
array `colours` with that index. Given what the two buffers hold at the drawing cursor
(`none` for a slot outside the buffer): whether these reads lie inside the arrays. -/
def redraw_read_in_bounds (sample : Option ℚ) (state : Option Int) : Bool :=
  match sample with
  | none => false
  | some value =>
    if value ≠ 0 then
      match state with
      | none => false
      | some index => decide (0 ≤ index ∧ index < 3)
    else true

/-- Source `graph_redraw`, as far as memory goes: whether every read of its loop lies
inside the array it reads from. A read outside is undefined in C. -/
def graph_redraw_in_bounds (g : PluginGraph) : Bool :=
  (graph_redraw_cursors g).all fun drawing_cursor =>
    redraw_read_in_bounds (g.samples.getD [])[drawing_cursor]? g.samp_states[drawing_cursor]?

/-- The whole of source `graph_reload`: the stores of `graph_reload` and then, inside the
guard on the new size, the call `graph_redraw (graph, "")` that ends the function.
The result is `none` when that call reads outside an array: the behaviour is undefined
and the function need not return. -/
def graph_reload_call (BORDER_SIZE : Nat) (g : PluginGraph) (icon_size : Int)
    (background foreground throttle1 throttle2 : GdkRGBA) : Option PluginGraph :=
  let height := new_pixmap_height BORDER_SIZE icon_size
  let width := new_pixmap_width height
  let g1 := graph_reload BORDER_SIZE g icon_size background foreground throttle1 throttle2
  if width > 0 ∧ height > 0 then
    if graph_redraw_in_bounds g1 then some g1 else none
  else some g1

/-- The buffers of `g` are allocated with capacity `C`, which is also `pixmap_width`. -/
def allocated (g : PluginGraph) (C : Nat) (samples : List ℚ) : Prop :=
  g.samples = some samples ∧ samples.length = C ∧ g.samp_states.length = C ∧
    g.pixmap_width = C

/-- The `(sample, state)` pairs in the `n` slots that precede the cursor, oldest first,
with wraparound: slot `(ring_cursor + pixmap_width - n + i) mod pixmap_width` for
`i = 0 .. n - 1`. -/
def recent (g : PluginGraph) (n : Nat) : List (Option ℚ × Option Int) :=
  (List.range n).map fun i =>
    ((g.samples.getD [])[(g.ring_cursor + g.pixmap_width - n + i) % g.pixmap_width]?,
      g.samp_states[(g.ring_cursor + g.pixmap_width - n + i) % g.pixmap_width]?)

/-! ## Popup position -/

/-- The panel edge `p->priv->edge`. -/
inductive Edge where
  | EDGE_NONE
  | EDGE_LEFT
  | EDGE_RIGHT
  | EDGE_TOP
  | EDGE_BOTTOM
  deriving DecidableEq

/-- A `GtkAllocation` / `GdkRectangle`; the `gint` fields are integers. -/
structure GtkAllocation where
  x : Int
  y : Int
  width : Int
  height : Int
  deriving DecidableEq

/-- What GTK and GDK report to `lxpanel_plugin_popup_set_position_helper`: the panel edge,
the allocation of the popup and, for a top-level popup, the frame extents of its window;
the allocation of the widget `near`, the origin of its window and whether it has a
window of its own; and, for every point, the rectangle GDK gives for the monitor at
that point (its work area with GTK 3, its geometry with GTK 2). -/
structure PopupQuery where
  edge : Edge
  popup_allocation : GtkAllocation
  popup_is_toplevel : Bool
  popup_extents : GtkAllocation
  near_allocation : GtkAllocation
  near_origin : Int × Int
  near_has_window : Bool
  monitor_rect : Int → Int → GtkAllocation

/-- The GLib macro `CLAMP (x, low, high)`. -/
def CLAMP (x low high : Int) : Int :=
  if x > high then high else if x < low then low else x

/-- The size of the popup the helper works with: its allocation, or the frame extents
for a top-level window. -/
def popup_req (q : PopupQuery) : GtkAllocation :=
  if q.popup_is_toplevel then
    { q.popup_allocation with width := q.popup_extents.width, height := q.popup_extents.height }
  else q.popup_allocation

/-- The origin of `near` in screen coordinates: the origin of its window, moved by the
allocation offset for a widget without a window. -/
def near_position (q : PopupQuery) : Int × Int :=
  if q.near_has_window then q.near_origin
  else (q.near_origin.1 + q.near_allocation.x, q.near_origin.2 + q.near_allocation.y)

/-- The position after the `switch` on the panel edge: the popup laid out against
`near`. -/
def flush_position (q : PopupQuery) : Int × Int :=
  match q.edge with
  | Edge.EDGE_TOP => ((near_position q).1, (near_position q).2 + q.near_allocation.height)
  | Edge.EDGE_BOTTOM => ((near_position q).1, (near_position q).2 - (popup_req q).height)
  | Edge.EDGE_LEFT => ((near_position q).1 + q.near_allocation.width, (near_position q).2)
  | Edge.EDGE_RIGHT => ((near_position q).1 - (popup_req q).width, (near_position q).2)
  | Edge.EDGE_NONE => near_position q

/-- The rectangle GDK reports for the monitor at the laid-out position. -/
def work_area (q : PopupQuery) : GtkAllocation :=
  q.monitor_rect (flush_position q).1 (flush_position q).2

/-- Source `lxpanel_plugin_popup_set_position_helper`: the pair `(*px, *py)`. -/
def lxpanel_plugin_popup_set_position_helper (q : PopupQuery) : Int × Int :=
  let x := (flush_position q).1
  let y := (flush_position q).2
  let allocation := work_area q
  (CLAMP x allocation.x (allocation.x + allocation.width - (popup_req q).width),
    CLAMP y allocation.y (allocation.y + allocation.height - (popup_req q).height))

/-! ## Sample graphs and popups -/

/-- A colour. -/
def grey : GdkRGBA := { red := 1, green := 1, blue := 1, alpha := 1 }

/-- The storage of a graph before `graph_init`. -/
def blank_graph : PluginGraph :=
  { samples := none, samp_states := [], ring_cursor := 0, pixmap_width := 0,
    pixmap_height := 0, pixmap := none, background := grey, colours := (grey, grey, grey) }

/-- A graph after `graph_init` and a first `graph_reload` with `BORDER_SIZE` 1 and icon
size 42: height 40, capacity 60. -/
def graph60 : PluginGraph := graph_reload 1 (graph_init blank_graph) 42 grey grey grey grey

/-- A graph after `graph_init` and a first `graph_reload` with `BORDER_SIZE` 1 and icon
size 22: height 20, capacity 50. -/
def graph50 : PluginGraph := graph_reload 1 (graph_init blank_graph) 22 grey grey grey grey

/-- Fifty pushes: the values 0.1, 0.2, ..., 5.0 scaled into range by 1/5, the state tag
alternating between 0 and 1. -/
def pushes50 : List (ℚ × Int) :=
  (List.range 50).map fun (n : Nat) => (((n : ℚ) + 1) / 50, Int.ofNat (n % 2))

/-- The same pushes followed by a 51st, outside the range. -/
def pushes51 : List (ℚ × Int) := pushes50 ++ [(17 / 10, 2)]

/-- The capacity-60 graph after the fifty pushes: the cursor is 50. -/
def graph_filled : PluginGraph := graph_new_points graph60 pushes50

/-- The filled graph after a `graph_reload` with icon size 22: the new capacity, 50, is
exactly the old cursor value. -/
def graph_shrunk : PluginGraph := graph_reload 1 graph_filled 22 grey grey grey grey

/-- The filled graph after a `graph_reload` with icon size 82: height 80, capacity 120. -/
def graph_grown : PluginGraph := graph_reload 1 graph_filled 82 grey grey grey grey

/-- A popup of 200 by 120 pixels for a button of 40 by 30 at (1800, 0) on a top panel,
on a monitor of 1920 by 1080. -/
def sample_query : PopupQuery :=
  { edge := Edge.EDGE_TOP
    popup_allocation := { x := 0, y := 0, width := 200, height := 120 }
    popup_is_toplevel := false
    popup_extents := { x := 0, y := 0, width := 0, height := 0 }
    near_allocation := { x := 1800, y := 0, width := 40, height := 30 }
    near_origin := (0, 0)
    near_has_window := false
    monitor_rect := fun _ _ => { x := 0, y := 0, width := 1920, height := 1080 } }

/-! ## The hash table -/

theorem lookup_insert_same (t : GHashTable) (k : String) (v : LXPanelPluginInit) :
    g_hash_table_lookup (g_hash_table_insert t k v) k = some v := by
  induction t with
  | nil => simp [g_hash_table_insert, g_hash_table_lookup]
  | cons e t ih =>
    obtain ⟨k1, v1⟩ := e
    by_cases hk : k1 = k
    · simp [g_hash_table_insert, g_hash_table_lookup, hk]
    · simp [g_hash_table_insert, g_hash_table_lookup, hk, ih]

theorem lookup_insert_other (t : GHashTable) (k n : String) (v : LXPanelPluginInit)
    (hn : k ≠ n) :
    g_hash_table_lookup (g_hash_table_insert t k v) n = g_hash_table_lookup t n := by
  induction t with
  | nil => simp [g_hash_table_insert, g_hash_table_lookup, hn]
  | cons e t ih =>
    obtain ⟨k1, v1⟩ := e
    by_cases hk : k1 = k
    · subst hk
      simp [g_hash_table_insert, g_hash_table_lookup, hn]
    · by_cases hk1 : k1 = n
      · subst hk1
        simp [g_hash_table_insert, g_hash_table_lookup, hk]
      · simp [g_hash_table_insert, g_hash_table_lookup, hk, hk1, ih]

theorem find_insert_same (w : World) (t : GHashTable) (h : w._all_types = some t)
    (k : String) (v : LXPanelPluginInit) :
    _find_plugin (all_types_insert w k v) k = some v := by
  simp [_find_plugin, all_types_insert, h, lookup_insert_same]

theorem find_insert_other (w : World) (k n : String) (v : LXPanelPluginInit) (hn : k ≠ n) :
    _find_plugin (all_types_insert w k v) n = _find_plugin w n := by
  unfold _find_plugin all_types_insert
  cases h : w._all_types with
  | none => simp [h]
  | some t => simp [lookup_insert_other t k n v hn]

/-! ## `lxpanel_register_plugin_type` -/

theorem register_rejected (w : World) (name : Option String) (init : LXPanelPluginInit)
    (h : (lxpanel_register_plugin_type w name init).2 = false) :
    (lxpanel_register_plugin_type w name init).1 = w := by
  unfold lxpanel_register_plugin_type at h ⊢
  cases hi : init.new_instance with
  | none => simp
  | some c =>
    cases name with
    | none => simp
    | some n =>
      by_cases hn : n = ""
      · simp [hn]
      · cases hf : _find_plugin w n with
        | some d => simp [hn, hf]
        | none => simp [hi, hn, hf] at h

theorem register_accepted (w : World) (name : Option String) (init : LXPanelPluginInit)
    (h : (lxpanel_register_plugin_type w name init).2 = true) :
    ∃ n, name = some n ∧ n ≠ "" ∧ init.new_instance ≠ none ∧ _find_plugin w n = none ∧
      (lxpanel_register_plugin_type w name init).1 = registered w n init := by
  unfold lxpanel_register_plugin_type at h ⊢
  cases hi : init.new_instance with
  | none => simp [hi] at h
  | some c =>
    cases name with
    | none => simp [hi] at h
    | some n =>
      by_cases hn : n = ""
      · simp [hi, hn] at h
      · cases hf : _find_plugin w n with
        | some d => simp [hi, hn, hf] at h
        | none => exact ⟨n, rfl, hn, by simp, hf, by simp [hn, hf, registered]⟩

theorem register_returns (w : World) (name : Option String) (init : LXPanelPluginInit) :
    (lxpanel_register_plugin_type w name init).2 = false ↔
      (name = none ∨ name = some "" ∨ init.new_instance = none ∨
        ∃ n, name = some n ∧ (_find_plugin w n).isSome = true) := by
  unfold lxpanel_register_plugin_type
  cases hi : init.new_instance with
  | none => simp
  | some c =>
    cases name with
    | none => simp
    | some n =>
      by_cases hn : n = ""
      · simp [hn]
      · cases hf : _find_plugin w n with
        | some d => simp [hn, hf]
        | none => simp [hn, hf]

theorem registered_table (w : World) (t : GHashTable) (h : w._all_types = some t)
    (n : String) (init : LXPanelPluginInit) :
    (registered w n init)._all_types = some (g_hash_table_insert t n init) := by
  unfold registered all_types_insert
  cases init.init <;> simp [h]

theorem find_registered_same (w : World) (t : GHashTable) (h : w._all_types = some t)
    (n : String) (init : LXPanelPluginInit) :
    _find_plugin (registered w n init) n = some init := by
  simp [_find_plugin, registered_table w t h, lookup_insert_same]

theorem find_registered_other (w : World) (k n : String) (init : LXPanelPluginInit)
    (hn : k ≠ n) :
    _find_plugin (registered w k init) n = _find_plugin w n := by
  unfold registered
  rw [find_insert_other _ k n init hn]
  cases init.init <;> rfl

/-- C1: on a prepared registry `lxpanel_register_plugin_type (name, init)` returns `FALSE`
exactly when `name` is `NULL` or empty, or `init` has no `new_instance`, or a descriptor is
already registered under `name`; in every other case it returns `TRUE` and `find (name)`
afterwards returns `init`. -/
theorem register_plugin_type_contract (w : World) (t : GHashTable)
    (name : Option String) (init : LXPanelPluginInit) (h : w._all_types = some t) :
    ((lxpanel_register_plugin_type w name init).2 = false ↔
      (name = none ∨ name = some "" ∨ init.new_instance = none ∨
        ∃ n, name = some n ∧ (_find_plugin w n).isSome = true)) ∧
    ((lxpanel_register_plugin_type w name init).2 = true →
      ∃ n, name = some n ∧
        _find_plugin (lxpanel_register_plugin_type w name init).1 n = some init) := by
  refine ⟨register_returns w name init, fun hr => ?_⟩
  obtain ⟨n, hname, -, -, -, hw⟩ := register_accepted w name init hr
  exact ⟨n, hname, by rw [hw]; exact find_registered_same w t h n init⟩

theorem register_plugin_type_contract_witness :
    prepared._all_types = some [] ∧
    ((lxpanel_register_plugin_type prepared (some "clock") clock).2 = false ↔
      ((some "clock" : Option String) = none ∨ some "clock" = some "" ∨
        clock.new_instance = none ∨
        ∃ n, some "clock" = some n ∧ (_find_plugin prepared n).isSome = true)) ∧
    ((lxpanel_register_plugin_type prepared (some "clock") clock).2 = true →
      ∃ n, some "clock" = some n ∧
        _find_plugin (lxpanel_register_plugin_type prepared (some "clock") clock).1 n
          = some clock) :=
  ⟨rfl, register_plugin_type_contract prepared [] (some "clock") clock rfl⟩

/-! ## Sequences of registrations -/

theorem register_keeps_table (w : World) (t : GHashTable) (h : w._all_types = some t)
    (name : Option String) (init : LXPanelPluginInit) :
    ∃ t1, (lxpanel_register_plugin_type w name init).1._all_types = some t1 := by
  cases hr : (lxpanel_register_plugin_type w name init).2 with
  | false => exact ⟨t, by rw [register_rejected w name init hr]; exact h⟩
  | true =>
    obtain ⟨n, -, -, -, -, hw⟩ := register_accepted w name init hr
    exact ⟨_, by rw [hw]; exact registered_table w t h n init⟩

theorem find_register_seq (calls : List (Option String × LXPanelPluginInit)) :
    ∀ (w : World) (t : GHashTable), w._all_types = some t → ∀ n : String,
      _find_plugin (register_seq w calls).1 n =
        match _find_plugin w n with
        | some d => some d
        | none => first_success n calls (register_seq w calls).2 := by
  induction calls with
  | nil =>
    intro w t _ n
    cases hf : _find_plugin w n <;> simp [register_seq, first_success, hf]
  | cons c calls ih =>
    obtain ⟨name, init⟩ := c
    intro w t h n
    obtain ⟨t1, h1⟩ := register_keeps_table w t h name init
    have hrec := ih (lxpanel_register_plugin_type w name init).1 t1 h1 n
    simp only [register_seq, first_success]
    rw [hrec]
    cases hr : (lxpanel_register_plugin_type w name init).2 with
    | false =>
      rw [register_rejected w name init hr]
      simp
    | true =>
      obtain ⟨m, hname, -, -, hfree, hw⟩ := register_accepted w name init hr
      rw [hw]
      by_cases hm : m = n
      · subst hm
        rw [find_registered_same w t h, hfree]
        simp [hname]
      · rw [find_registered_other w m n init hm]
        have : ¬ name = some n := by
          rw [hname]
          intro hc
          exact hm (Option.some.inj hc)
        simp [this]

theorem first_success_none (n : String) :
    ∀ (calls : List (Option String × LXPanelPluginInit)) (results : List Bool),
      (∀ c r, (c, r) ∈ calls.zip results → ¬ (r = true ∧ c.1 = some n)) →
      first_success n calls results = none := by
  intro calls
  induction calls with
  | nil => intro results _; cases results <;> rfl
  | cons c calls ih =>
    intro results hall
    cases results with
    | nil => rfl
    | cons r results =>
      obtain ⟨name, init⟩ := c
      have h0 := hall (name, init) r (by simp)
      have hrest := ih results (fun c1 r1 hm => hall c1 r1 (by simp [hm]))
      simp only [first_success]
      rw [if_neg h0, hrest]

/-- C2: for every sequence of `lxpanel_register_plugin_type` calls on a freshly prepared
registry and every name, `find (name)` after the sequence is the descriptor of the first
call that succeeded under that name, and not-found when no call under that name
succeeded; a rejected call leaves the state unchanged; with "clock" and "battery"
registered, `find ("battery")` is non-null, `find ("nonexistent")` is not-found, and
registering "clock" again returns `FALSE` and leaves the first descriptor in place. -/
theorem register_first_wins (w : World) (calls : List (Option String × LXPanelPluginInit))
    (n : String) (h : w._all_types = some []) :
    _find_plugin (register_seq w calls).1 n
      = first_success n calls (register_seq w calls).2 ∧
    ((∀ c r, (c, r) ∈ calls.zip (register_seq w calls).2 → ¬ (r = true ∧ c.1 = some n)) →
      _find_plugin (register_seq w calls).1 n = none) ∧
    (∀ (v : World) (name : Option String) (init : LXPanelPluginInit),
      (lxpanel_register_plugin_type v name init).2 = false →
        (lxpanel_register_plugin_type v name init).1 = v) ∧
    (∀ dc db dn : LXPanelPluginInit, dc.new_instance ≠ none → db.new_instance ≠ none →
      (register_seq w [(some "clock", dc), (some "battery", db)]).2 = [true, true] ∧
      (_find_plugin (register_seq w [(some "clock", dc), (some "battery", db)]).1
        "battery").isSome = true ∧
      _find_plugin (register_seq w [(some "clock", dc), (some "battery", db)]).1
        "nonexistent" = none ∧
      (lxpanel_register_plugin_type
        (register_seq w [(some "clock", dc), (some "battery", db)]).1
        (some "clock") dn).2 = false ∧
      _find_plugin (lxpanel_register_plugin_type
        (register_seq w [(some "clock", dc), (some "battery", db)]).1
        (some "clock") dn).1 "clock" = some dc) := by
  have hfresh : ∀ m : String, _find_plugin w m = none := by
    intro m
    simp [_find_plugin, h, g_hash_table_lookup]
  have hmain : ∀ cs : List (Option String × LXPanelPluginInit), ∀ m : String,
      _find_plugin (register_seq w cs).1 m = first_success m cs (register_seq w cs).2 := by
    intro cs m
    rw [find_register_seq cs w [] h m, hfresh m]
  refine ⟨hmain calls n, ?_, register_rejected, ?_⟩
  · intro hno
    rw [hmain calls n]
    exact first_success_none n calls _ hno
  · intro dc db dn hdc hdb
    have hr1 : (lxpanel_register_plugin_type w (some "clock") dc).2 = true := by
      cases hv : (lxpanel_register_plugin_type w (some "clock") dc).2 with
      | true => rfl
      | false =>
        rcases (register_returns w (some "clock") dc).1 hv with h1 | h1 | h1 | ⟨m, -, h1⟩
        · cases h1
        · simp at h1
        · exact absurd h1 hdc
        · rw [hfresh m] at h1
          cases h1
    obtain ⟨m1, hm1, -, -, -, hw1⟩ := register_accepted w (some "clock") dc hr1
    cases hm1
    have ht1 := registered_table w [] h "clock" dc
    have hfb : _find_plugin (registered w "clock" dc) "battery" = none := by
      rw [find_registered_other w "clock" "battery" dc (by decide)]
      exact hfresh _
    have hr2 : (lxpanel_register_plugin_type (registered w "clock" dc)
        (some "battery") db).2 = true := by
      cases hv : (lxpanel_register_plugin_type (registered w "clock" dc)
          (some "battery") db).2 with
      | true => rfl
      | false =>
        rcases (register_returns _ (some "battery") db).1 hv with h1 | h1 | h1 | ⟨m, hm, h1⟩
        · cases h1
        · simp at h1
        · exact absurd h1 hdb
        · cases hm
          rw [hfb] at h1
          cases h1
    obtain ⟨m2, hm2, -, -, -, hw2⟩ :=
      register_accepted (registered w "clock" dc) (some "battery") db hr2
    cases hm2
    have hseq : (register_seq w [(some "clock", dc), (some "battery", db)]).1
        = registered (registered w "clock" dc) "battery" db := by
      simp only [register_seq]
      rw [hw1, hw2]
    have hres : (register_seq w [(some "clock", dc), (some "battery", db)]).2
        = [true, true] := by
      simp only [register_seq]
      rw [hr1, hw1, hr2]
    have hclock : _find_plugin (registered (registered w "clock" dc) "battery" db) "clock"
        = some dc := by
      rw [find_registered_other _ "battery" "clock" db (by decide)]
      exact find_registered_same w [] h "clock" dc
    have hrej : (lxpanel_register_plugin_type
        (registered (registered w "clock" dc) "battery" db) (some "clock") dn).2 = false :=
      (register_returns _ (some "clock") dn).2
        (Or.inr (Or.inr (Or.inr ⟨"clock", rfl, by rw [hclock]; rfl⟩)))
    refine ⟨hres, ?_, ?_, ?_, ?_⟩
    · rw [hseq, find_registered_same _ _ ht1 "battery" db]
      rfl
    · rw [hseq, find_registered_other _ "battery" "nonexistent" db (by decide),
        find_registered_other _ "clock" "nonexistent" dc (by decide)]
      exact hfresh _
    · rw [hseq]
      exact hrej
    · rw [hseq, register_rejected _ _ _ hrej]
      exact hclock

theorem register_first_wins_witness :
    _find_plugin (register_seq prepared
        [(some "clock", clock), (none, battery), (some "clock", clock2)]).1 "clock"
      = some clock ∧
    (register_seq prepared
        [(some "clock", clock), (none, battery), (some "clock", clock2)]).2
      = [true, false, false] := by
  have hw := (register_first_wins prepared
    [(some "clock", clock), (none, battery), (some "clock", clock2)] "clock" rfl).1
  have hres : (register_seq prepared
      [(some "clock", clock), (none, battery), (some "clock", clock2)]).2
      = [true, false, false] := by
    simp [register_seq, lxpanel_register_plugin_type, clock, clock2, battery,
      LXPanelPluginInit.g_new0, prepared, lxpanel_prepare_modules, boot, _find_plugin,
      all_types_insert, g_hash_table_insert, g_hash_table_lookup]
  refine ⟨?_, hres⟩
  rw [hw, hres]
  simp [first_success]

/-! ## `register_plugin_class` -/

theorem register_plugin_class_find (w : World) (t : GHashTable) (pc : PcPtr)
    (dynamic : Bool) (h : w._all_types = some t) :
    _find_plugin (register_plugin_class w pc dynamic) (w.heap pc).type
      = some (old_plugin_init (w.heap pc) pc) := by
  exact find_insert_same
    { w with heap := Function.update w.heap pc { w.heap pc with dynamic := dynamic } }
    t h _ _

/-- C3, counterexample: with "netstat" held by a modern descriptor, `register_plugin_class`
for a legacy descriptor of type "netstat" makes `find ("netstat")` return the new legacy
wrapper instead of the entry that was there. -/
theorem register_plugin_class_replaces_entry :
    (netstat_taken.heap 0).type = "netstat" ∧
    _find_plugin netstat_taken "netstat" = some netstat_new ∧
    _find_plugin (register_plugin_class netstat_taken 0 false) "netstat"
      = some (old_plugin_init netstat_class 0) ∧
    _find_plugin (register_plugin_class netstat_taken 0 false) "netstat"
      ≠ _find_plugin netstat_taken "netstat" := by
  have h1 : _find_plugin netstat_taken "netstat" = some netstat_new := by
    simp [netstat_taken, lxpanel_register_plugin_type, netstat_new,
      LXPanelPluginInit.g_new0, prepared, lxpanel_prepare_modules, boot, _find_plugin,
      all_types_insert, g_hash_table_insert, g_hash_table_lookup]
  have h2 : _find_plugin (register_plugin_class netstat_taken 0 false) "netstat"
      = some (old_plugin_init netstat_class 0) := by
    simp [register_plugin_class, netstat_taken, lxpanel_register_plugin_type, netstat_new,
      LXPanelPluginInit.g_new0, prepared, lxpanel_prepare_modules, boot, _find_plugin,
      all_types_insert, g_hash_table_insert, g_hash_table_lookup, netstat_class]
  refine ⟨rfl, h1, h2, ?_⟩
  rw [h1, h2]
  simp [old_plugin_init, netstat_new, LXPanelPluginInit.g_new0]

/-- C3, amended: on a prepared registry `register_plugin_class (pc, dynamic)` always leaves
its new wrapper of `pc` as the result of `find (pc->type)`, replacing an entry held there;
the first registration is kept on the legacy route by the directory scan of
`plugin_get_available_classes`, which leaves the state as it is for a file whose type
name is already registered. -/
theorem register_plugin_class_overwrites (w : World) (t : GHashTable) (pc : PcPtr)
    (dynamic : Bool) (h : w._all_types = some t) :
    _find_plugin (register_plugin_class w pc dynamic) (w.heap pc).type
      = some (old_plugin_init (w.heap pc) pc) ∧
    (∀ (env : Env) (file : String) (d : LXPanelPluginInit),
      _find_plugin w (strip_so file) = some d → scan_entry env w file = w) := by
  refine ⟨register_plugin_class_find w t pc dynamic h, ?_⟩
  intro env file d hd
  unfold scan_entry
  cases has_so_suffix file <;> simp [hd]

theorem register_plugin_class_overwrites_witness :
    _find_plugin (register_plugin_class netstat_taken 0 true) (netstat_taken.heap 0).type
      = some (old_plugin_init (netstat_taken.heap 0) 0) ∧
    scan_entry sample_env netstat_taken "netstat.so" = netstat_taken := by
  have h := register_plugin_class_overwrites netstat_taken [("netstat", netstat_new)] 0 true
    (by decide)
  exact ⟨h.1, h.2 sample_env "netstat.so" netstat_new (by decide)⟩

/-! ## The `init` hook -/

theorem all_types_insert_init_calls (w : World) (k : String) (v : LXPanelPluginInit) :
    (all_types_insert w k v).init_calls = w.init_calls := by
  unfold all_types_insert
  cases w._all_types <;> rfl

/-- C4: `lxpanel_register_plugin_type` calls the descriptor's `init` hook once (one new
entry in the trace of hook calls, nothing when the descriptor has no hook) when it
returns `TRUE`, and makes no hook call when it returns `FALSE`, which it does for a `NULL`
or empty name, a missing `new_instance`, and a name already registered. -/
theorem register_plugin_type_init_hook (w : World) (name : Option String)
    (init : LXPanelPluginInit) :
    (lxpanel_register_plugin_type w name init).1.init_calls =
      (if (lxpanel_register_plugin_type w name init).2 = true then
        (match init.init with
          | some hook => hook :: w.init_calls
          | none => w.init_calls)
      else w.init_calls) ∧
    ((name = none ∨ name = some "" ∨ init.new_instance = none ∨
        ∃ n, name = some n ∧ (_find_plugin w n).isSome = true) →
      (lxpanel_register_plugin_type w name init).2 = false ∧
      (lxpanel_register_plugin_type w name init).1.init_calls = w.init_calls) := by
  constructor
  · cases hr : (lxpanel_register_plugin_type w name init).2 with
    | false => rw [register_rejected w name init hr]; simp
    | true =>
      obtain ⟨n, -, -, -, -, hw⟩ := register_accepted w name init hr
      rw [hw]
      unfold registered
      rw [all_types_insert_init_calls]
      cases init.init <;> simp
  · intro hcase
    have hr := (register_returns w name init).2 hcase
    exact ⟨hr, by rw [register_rejected w name init hr]⟩

/-! ## `plugin_load_dynamic` -/

theorem old_plugin_init_gmodule (c : PluginClass) (pc : PcPtr) (g : Option GModule) :
    old_plugin_init { c with gmodule := g } pc = old_plugin_init c pc := rfl

theorem plugin_load_dynamic_accepts (env : Env) (w : World) (type path : String)
    (m : GModule) (pc : PcPtr) (hopen : env.g_module_open path = some m)
    (hsym : env.g_module_symbol m (class_name type) = some (some pc))
    (hsize : (w.heap pc).structure_size = env.sizeof_PluginClass)
    (hver : (w.heap pc).structure_version = env.PLUGINCLASS_VERSION)
    (htype : (w.heap pc).type = type) :
    plugin_load_dynamic env w type path = load_accepted w m pc := by
  unfold plugin_load_dynamic load_accepted register_plugin_class all_types_insert
  cases ht : w._all_types <;>
    simp [hopen, hsym, hsize, hver, htype, ht, old_plugin_init]

theorem plugin_load_dynamic_rejects (env : Env) (w : World) (type path : String)
    (m : GModule) (hopen : env.g_module_open path = some m)
    (hbad : env.g_module_symbol m (class_name type) = none ∨
      env.g_module_symbol m (class_name type) = some none ∨
      ∃ pc, env.g_module_symbol m (class_name type) = some (some pc) ∧
        ((w.heap pc).structure_size ≠ env.sizeof_PluginClass ∨
          (w.heap pc).structure_version ≠ env.PLUGINCLASS_VERSION ∨
          (w.heap pc).type ≠ type)) :
    plugin_load_dynamic env w type path = load_rejected w m := by
  unfold plugin_load_dynamic load_rejected
  rcases hbad with h | h | ⟨pc, h, hc⟩
  · simp [hopen, h]
  · simp [hopen, h]
  · simp only [hopen, h]
    by_cases h1 : (w.heap pc).structure_size = env.sizeof_PluginClass
    · by_cases h2 : (w.heap pc).structure_version = env.PLUGINCLASS_VERSION
      · have h3 : type ≠ (w.heap pc).type := by
          rcases hc with hc | hc | hc
          · exact absurd h1 hc
          · exact absurd h2 hc
          · exact fun e => hc e.symm
        simp [h1, h2, h3]
      · simp [h1, h2]
    · simp [h1]

theorem class_name_short (type : String) (h : type.length ≤ 114) :
    class_name type = type ++ "_plugin_class" := by
  have hlen : (type ++ "_plugin_class").data.length ≤ 127 := by
    have : type.data.length ≤ 114 := h
    simp [String.data_append]
    omega
  unfold class_name
  rw [List.take_of_length_le hlen]

theorem class_name_long_type : class_name long_type ≠ long_type ++ "_plugin_class" := by
  intro h
  have hl := congrArg String.length h
  have h1 : (class_name long_type).length = 127 := rfl
  have h2 : (long_type ++ "_plugin_class").length = 128 := rfl
  omega

/-- C5, counterexample: a library that opens and exports `long_type ++ "_plugin_class"`
(a 115-byte type name followed by the suffix) with a matching size, version and type is
not registered, and its handle is closed: the symbol looked up is the first 127 bytes of
that name. -/
theorem long_type_is_rejected :
    long_env.g_module_open "long.so" = some 6 ∧
    long_env.g_module_symbol 6 (long_type ++ "_plugin_class") = some (some 0) ∧
    (long_world.heap 0).structure_size = long_env.sizeof_PluginClass ∧
    (long_world.heap 0).structure_version = long_env.PLUGINCLASS_VERSION ∧
    (long_world.heap 0).type = long_type ∧
    _find_plugin (plugin_load_dynamic long_env long_world long_type "long.so") long_type
      = none ∧
    (plugin_load_dynamic long_env long_world long_type "long.so").closed = [some 6] := by
  have hopen : long_env.g_module_open "long.so" = some 6 := by simp [long_env]
  have hsym : long_env.g_module_symbol 6 (class_name long_type) = none := by
    simp [long_env, class_name_long_type]
  have hrej := plugin_load_dynamic_rejects long_env long_world long_type "long.so" 6 hopen
    (Or.inl hsym)
  refine ⟨hopen, by simp [long_env], rfl, rfl, rfl, ?_, ?_⟩
  · rw [hrej]
    simp [load_rejected, long_world, prepared, lxpanel_prepare_modules, boot, _find_plugin,
      g_hash_table_lookup]
  · rw [hrej]
    simp [load_rejected, long_world, prepared, lxpanel_prepare_modules, boot]

theorem find_load_accepted (w : World) (t : GHashTable) (h : w._all_types = some t)
    (m : GModule) (pc : PcPtr) :
    _find_plugin (load_accepted w m pc) (w.heap pc).type
      = some (old_plugin_init (w.heap pc) pc) := by
  simp [_find_plugin, load_accepted, h, lookup_insert_same]

/-- C5, amended: for a library that opens, on a prepared registry,
`plugin_load_dynamic (type, path)` registers the descriptor under `type` when the symbol
named by the first 127 bytes of "<type>_plugin_class" exists and is non-null, its
`structure_size` equals `sizeof (PluginClass)`, its `structure_version` equals
`PLUGINCLASS_VERSION` and its type string equals `type`; when any one of these checks
fails, whatever the others give, the handle is closed and nothing else changes (registry
and heap as before). For a `type` of at most 114 bytes the symbol is the whole name
"<type>_plugin_class". -/
theorem plugin_load_dynamic_checks (env : Env) (w : World) (t : GHashTable)
    (type path : String) (m : GModule) (hopen : env.g_module_open path = some m)
    (ht : w._all_types = some t) :
    (∀ pc, env.g_module_symbol m (class_name type) = some (some pc) →
      (w.heap pc).structure_size = env.sizeof_PluginClass →
      (w.heap pc).structure_version = env.PLUGINCLASS_VERSION →
      (w.heap pc).type = type →
        plugin_load_dynamic env w type path = load_accepted w m pc ∧
        _find_plugin (plugin_load_dynamic env w type path) type
          = some (old_plugin_init (w.heap pc) pc) ∧
        (plugin_load_dynamic env w type path).closed = w.closed) ∧
    ((env.g_module_symbol m (class_name type) = none ∨
      env.g_module_symbol m (class_name type) = some none ∨
      ∃ pc, env.g_module_symbol m (class_name type) = some (some pc) ∧
        ((w.heap pc).structure_size ≠ env.sizeof_PluginClass ∨
          (w.heap pc).structure_version ≠ env.PLUGINCLASS_VERSION ∨
          (w.heap pc).type ≠ type)) →
        plugin_load_dynamic env w type path = load_rejected w m ∧
        (plugin_load_dynamic env w type path)._all_types = w._all_types ∧
        (plugin_load_dynamic env w type path).heap = w.heap ∧
        (plugin_load_dynamic env w type path).closed = some m :: w.closed) ∧
    (type.length ≤ 114 → class_name type = type ++ "_plugin_class") := by
  refine ⟨?_, ?_, class_name_short type⟩
  · intro pc hsym hsize hver htype
    have hacc := plugin_load_dynamic_accepts env w type path m pc hopen hsym hsize hver htype
    refine ⟨hacc, ?_, ?_⟩
    · rw [hacc, ← htype]
      exact find_load_accepted w t ht m pc
    · rw [hacc]
      rfl
  · intro hbad
    have hrej := plugin_load_dynamic_rejects env w type path m hopen hbad
    refine ⟨hrej, ?_, ?_, ?_⟩ <;> rw [hrej] <;> rfl

theorem sample_env_symbol :
    sample_env.g_module_symbol 5 (class_name "netstat") = some (some 0) := by
  rw [class_name_short "netstat" (by decide)]
  simp [sample_env]

theorem plugin_load_dynamic_checks_witness :
    plugin_load_dynamic sample_env prepared "netstat" "/usr/lib/lxpanel/plugins/netstat.so"
      = load_accepted prepared 5 0 ∧
    class_name "netstat" = "netstat" ++ "_plugin_class" :=
  ⟨((plugin_load_dynamic_checks sample_env prepared [] "netstat"
      "/usr/lib/lxpanel/plugins/netstat.so" 5 (by simp [sample_env]) rfl).1 0
      sample_env_symbol rfl rfl rfl).1,
    (plugin_load_dynamic_checks sample_env prepared [] "netstat"
      "/usr/lib/lxpanel/plugins/netstat.so" 5 (by simp [sample_env]) rfl).2.2 (by decide)⟩

/-- C6: after a successful `plugin_load_dynamic (type, path)` on a prepared registry the
loaded descriptor has `dynamic` set, `gmodule` equal to the opened handle and `count` 1
(its other fields as before), and `find (type)` returns a legacy entry wrapping it:
`_reserved1` is the descriptor, `new_instance` is `NULL`, and `name`, `description` and the
three capability flags are copied from it. -/
theorem plugin_load_dynamic_success (env : Env) (w : World) (t : GHashTable)
    (type path : String) (m : GModule) (pc : PcPtr) (ht : w._all_types = some t)
    (hopen : env.g_module_open path = some m)
    (hsym : env.g_module_symbol m (class_name type) = some (some pc))
    (hsize : (w.heap pc).structure_size = env.sizeof_PluginClass)
    (hver : (w.heap pc).structure_version = env.PLUGINCLASS_VERSION)
    (htype : (w.heap pc).type = type) :
    ((plugin_load_dynamic env w type path).heap pc).dynamic = true ∧
    ((plugin_load_dynamic env w type path).heap pc).gmodule = some m ∧
    ((plugin_load_dynamic env w type path).heap pc).count = 1 ∧
    (plugin_load_dynamic env w type path).heap pc
      = { w.heap pc with gmodule := some m, dynamic := true, count := 1 } ∧
    ∃ init, _find_plugin (plugin_load_dynamic env w type path) type = some init ∧
      init._reserved1 = some pc ∧ init.new_instance = none ∧
      init.name = ((plugin_load_dynamic env w type path).heap pc).name ∧
      init.description = ((plugin_load_dynamic env w type path).heap pc).description ∧
      init.one_per_system = ((plugin_load_dynamic env w type path).heap pc).one_per_system ∧
      init.expand_available
        = ((plugin_load_dynamic env w type path).heap pc).expand_available ∧
      init.expand_default
        = ((plugin_load_dynamic env w type path).heap pc).expand_default := by
  have hacc := plugin_load_dynamic_accepts env w type path m pc hopen hsym hsize hver htype
  have hheap : (plugin_load_dynamic env w type path).heap pc
      = { w.heap pc with gmodule := some m, dynamic := true, count := 1 } := by
    rw [hacc]
    simp [load_accepted]
  refine ⟨by rw [hheap], by rw [hheap], by rw [hheap], hheap,
    old_plugin_init (w.heap pc) pc, ?_, rfl, rfl, ?_, ?_, ?_, ?_, ?_⟩
  · rw [hacc, ← htype]
    exact find_load_accepted w t ht m pc
  all_goals rw [hheap]; rfl

theorem plugin_load_dynamic_success_witness :
    ((plugin_load_dynamic sample_env prepared "netstat"
      "/usr/lib/lxpanel/plugins/netstat.so").heap 0).count = 1 ∧
    ((plugin_load_dynamic sample_env prepared "netstat"
      "/usr/lib/lxpanel/plugins/netstat.so").heap 0).gmodule = some 5 :=
  ⟨(plugin_load_dynamic_success sample_env prepared [] "netstat"
      "/usr/lib/lxpanel/plugins/netstat.so" 5 0 rfl (by simp [sample_env])
      sample_env_symbol rfl rfl rfl).2.2.1,
    (plugin_load_dynamic_success sample_env prepared [] "netstat"
      "/usr/lib/lxpanel/plugins/netstat.so" 5 0 rfl (by simp [sample_env])
      sample_env_symbol rfl rfl rfl).2.1⟩

/-! ## `plugin_class_unref` -/

theorem plugin_class_unref_eq (w : World) (pc : PcPtr) :
    plugin_class_unref w pc =
      { w with
        heap := Function.update w.heap pc { w.heap pc with count := (w.heap pc).count - 1 }
        closed :=
          if (w.heap pc).count - 1 = 0 ∧ (w.heap pc).dynamic = true ∧
              (w.heap pc).not_unloadable = false
          then (w.heap pc).gmodule :: w.closed else w.closed } := by
  unfold plugin_class_unref
  by_cases hc : (w.heap pc).count - 1 = 0 ∧ (w.heap pc).dynamic = true ∧
      (w.heap pc).not_unloadable = false
  · simp only [hc, and_self, if_true]
  · simp only [if_neg hc]

/-- C7: `plugin_class_unref (pc)` lowers `pc->count` by exactly one and changes no other
field of `pc` nor any other object; it calls `g_module_close (pc->gmodule)` if and only if
the resulting count is 0, `pc` is dynamic and `pc` is not marked `not_unloadable`; the
registry and the instance records stay as they are. -/
theorem plugin_class_unref_effect (w : World) (pc : PcPtr) :
    ((plugin_class_unref w pc).heap pc).count = (w.heap pc).count - 1 ∧
    (plugin_class_unref w pc).heap pc
      = { w.heap pc with count := (w.heap pc).count - 1 } ∧
    (∀ q, q ≠ pc → (plugin_class_unref w pc).heap q = w.heap q) ∧
    ((plugin_class_unref w pc).closed = (w.heap pc).gmodule :: w.closed ↔
      ((w.heap pc).count - 1 = 0 ∧ (w.heap pc).dynamic = true ∧
        (w.heap pc).not_unloadable = false)) ∧
    ((plugin_class_unref w pc).closed = w.closed ↔
      ¬ ((w.heap pc).count - 1 = 0 ∧ (w.heap pc).dynamic = true ∧
        (w.heap pc).not_unloadable = false)) ∧
    (plugin_class_unref w pc)._all_types = w._all_types ∧
    (plugin_class_unref w pc).plugins = w.plugins ∧
    (plugin_class_unref w pc).opened = w.opened := by
  have hne : (w.heap pc).gmodule :: w.closed ≠ w.closed := by
    intro h
    have := congrArg List.length h
    simp at this
  rw [plugin_class_unref_eq]
  refine ⟨by simp, by simp, ?_, ?_, ?_, rfl, rfl, rfl⟩
  · intro q hq
    exact Function.update_noteq hq _ _
  · by_cases hc : (w.heap pc).count - 1 = 0 ∧ (w.heap pc).dynamic = true ∧
        (w.heap pc).not_unloadable = false
    · simp only [if_pos hc]
      exact ⟨fun _ => hc, fun _ => trivial⟩
    · simp only [if_neg hc]
      exact ⟨fun h => absurd h.symm hne, fun h => absurd h hc⟩
  · by_cases hc : (w.heap pc).count - 1 = 0 ∧ (w.heap pc).dynamic = true ∧
        (w.heap pc).not_unloadable = false
    · simp only [if_pos hc]
      exact ⟨fun h => absurd h hne, fun h => absurd hc h⟩
    · simp only [if_neg hc]
      exact ⟨fun _ => hc, fun _ => trivial⟩

/-! ## The registry invariant -/

theorem lookup_none_iff (t : GHashTable) (k : String) :
    g_hash_table_lookup t k = none ↔ k ∉ t.map Prod.fst := by
  induction t with
  | nil => simp [g_hash_table_lookup]
  | cons e t ih =>
    obtain ⟨k1, v1⟩ := e
    by_cases hk : k1 = k
    · simp [g_hash_table_lookup, hk]
    · have hk2 : ¬ k = k1 := fun h => hk h.symm
      simp [g_hash_table_lookup, hk, hk2, ih]

theorem lookup_some_mem (t : GHashTable) (k : String) (v : LXPanelPluginInit)
    (h : g_hash_table_lookup t k = some v) : (k, v) ∈ t := by
  induction t with
  | nil => simp [g_hash_table_lookup] at h
  | cons e t ih =>
    obtain ⟨k1, v1⟩ := e
    by_cases hk : k1 = k
    · simp [g_hash_table_lookup, hk] at h
      simp [hk, h]
    · simp [g_hash_table_lookup, hk] at h
      exact List.mem_cons_of_mem _ (ih h)

theorem insert_of_lookup_none (t : GHashTable) (k : String) (v : LXPanelPluginInit)
    (h : g_hash_table_lookup t k = none) : g_hash_table_insert t k v = t ++ [(k, v)] := by
  induction t with
  | nil => rfl
  | cons e t ih =>
    obtain ⟨k1, v1⟩ := e
    by_cases hk : k1 = k
    · simp [g_hash_table_lookup, hk] at h
    · simp [g_hash_table_lookup, hk] at h
      simp [g_hash_table_insert, hk, ih h]

theorem inv_of_same (h0 : PcPtr → PluginClass) {w w2 : World} (hi : Inv h0 w)
    (he : w2._all_types = w._all_types) (hh : w2.heap = w.heap)
    (hp : w2.plugins = w.plugins) : Inv h0 w2 := by
  have hen : entries w2 = entries w := by simp [entries, he]
  have hr : ∀ p, refs w2 p = refs w p := fun p => by simp [refs, hen]
  have hl : ∀ p, live w2 p = live w p := fun p => by simp [live, hp]
  refine ⟨by rw [hen]; exact hi.keys_nodup, ?_, ?_, ?_⟩
  · intro e he1 hn
    rw [hen] at he1
    rw [hh]
    exact hi.legacy e he1 hn
  · intro hs pl hpl
    rw [he] at hs
    rw [hp] at hpl
    rw [hr]
    exact hi.instances hs pl hpl
  · intro p
    rw [hr, hl, hh]
    exact hi.counts p

theorem registered_heap (w : World) (n : String) (init : LXPanelPluginInit) :
    (registered w n init).heap = w.heap := by
  unfold registered all_types_insert
  cases init.init <;> cases w._all_types <;> rfl

theorem registered_plugins (w : World) (n : String) (init : LXPanelPluginInit) :
    (registered w n init).plugins = w.plugins := by
  unfold registered all_types_insert
  cases init.init <;> cases w._all_types <;> rfl

theorem registered_none (w : World) (h : w._all_types = none)
    (n : String) (init : LXPanelPluginInit) :
    (registered w n init)._all_types = none := by
  unfold registered all_types_insert
  cases init.init <;> simp [h]

theorem inv_registered (h0 : PcPtr → PluginClass) (w : World) (n : String)
    (init : LXPanelPluginInit) (hi : Inv h0 w) (hf : _find_plugin w n = none)
    (hnew : init.new_instance ≠ none) : Inv h0 (registered w n init) := by
  cases ht : w._all_types with
  | none =>
    exact inv_of_same h0 hi (by rw [registered_none w ht, ht]) (registered_heap w n init)
      (registered_plugins w n init)
  | some t =>
    have hlk : g_hash_table_lookup t n = none := by simpa [_find_plugin, ht] using hf
    have hen0 : entries w = t := by simp [entries, ht]
    have hen : entries (registered w n init) = t ++ [(n, init)] := by
      simp [entries, registered_table w t ht, insert_of_lookup_none t n init hlk]
    have hwr : ∀ p, wraps p (n, init) = false := by
      intro p
      cases hni : init.new_instance with
      | none => exact absurd hni hnew
      | some c => simp [wraps, hni]
    have hr : ∀ p, refs (registered w n init) p = refs w p := by
      intro p
      simp [refs, hen, hen0, List.countP_append, List.countP_cons, hwr]
    have hl : ∀ p, live (registered w n init) p = live w p := fun p => by
      simp [live, registered_plugins]
    refine ⟨?_, ?_, ?_, ?_⟩
    · rw [hen, List.map_append, List.nodup_append]
      refine ⟨by simpa [hen0] using hi.keys_nodup, by simp, ?_⟩
      intro a ha hb
      simp at hb
      subst hb
      exact (lookup_none_iff t a).1 hlk ha
    · intro e he hn
      rw [hen, List.mem_append] at he
      rw [registered_heap]
      rcases he with he | he
      · exact hi.legacy e (by rw [hen0]; exact he) hn
      · simp at he
        subst he
        exact absurd hn hnew
    · intro _ pl hpl
      rw [registered_plugins] at hpl
      rw [hr]
      exact hi.instances (by simp [ht]) pl hpl
    · intro p
      rw [hr, hl, registered_heap]
      exact hi.counts p

theorem inv_register (h0 : PcPtr → PluginClass) (w : World) (name : Option String)
    (init : LXPanelPluginInit) (hi : Inv h0 w) :
    Inv h0 (lxpanel_register_plugin_type w name init).1 := by
  cases hr : (lxpanel_register_plugin_type w name init).2 with
  | false => rw [register_rejected w name init hr]; exact hi
  | true =>
    obtain ⟨n, -, -, hnew, hf, hw⟩ := register_accepted w name init hr
    rw [hw]
    exact inv_registered h0 w n init hi hf hnew

theorem plugin_load_dynamic_cases (env : Env) (w : World) (type path : String) :
    plugin_load_dynamic env w type path = w ∨
    (∃ m, plugin_load_dynamic env w type path = load_rejected w m) ∨
    (∃ m pc, (w.heap pc).type = type ∧
      plugin_load_dynamic env w type path = load_accepted w m pc) := by
  cases hopen : env.g_module_open path with
  | none => left; simp [plugin_load_dynamic, hopen]
  | some m =>
    right
    cases hsym : env.g_module_symbol m (class_name type) with
    | none => exact Or.inl ⟨m, plugin_load_dynamic_rejects env w type path m hopen (Or.inl hsym)⟩
    | some v =>
      cases v with
      | none =>
        exact Or.inl ⟨m, plugin_load_dynamic_rejects env w type path m hopen
          (Or.inr (Or.inl hsym))⟩
      | some pc =>
        by_cases h1 : (w.heap pc).structure_size = env.sizeof_PluginClass
        · by_cases h2 : (w.heap pc).structure_version = env.PLUGINCLASS_VERSION
          · by_cases h3 : (w.heap pc).type = type
            · exact Or.inr ⟨m, pc, h3,
                plugin_load_dynamic_accepts env w type path m pc hopen hsym h1 h2 h3⟩
            · exact Or.inl ⟨m, plugin_load_dynamic_rejects env w type path m hopen
                (Or.inr (Or.inr ⟨pc, hsym, Or.inr (Or.inr h3)⟩))⟩
          · exact Or.inl ⟨m, plugin_load_dynamic_rejects env w type path m hopen
              (Or.inr (Or.inr ⟨pc, hsym, Or.inr (Or.inl h2)⟩))⟩
        · exact Or.inl ⟨m, plugin_load_dynamic_rejects env w type path m hopen
            (Or.inr (Or.inr ⟨pc, hsym, Or.inl h1⟩))⟩

theorem wraps_iff (p : PcPtr) (e : String × LXPanelPluginInit) :
    wraps p e = true ↔ e.2.new_instance = none ∧ e.2._reserved1 = some p := by
  simp [wraps, Option.isNone_iff_eq_none]

theorem unregistered_untracked (h0 : PcPtr → PluginClass) (w : World) (t : GHashTable)
    (pc : PcPtr) (hi : Inv h0 w) (ht : w._all_types = some t)
    (hf : _find_plugin w (w.heap pc).type = none) : refs w pc = 0 ∧ live w pc = 0 := by
  have hen0 : entries w = t := by simp [entries, ht]
  have hlk : g_hash_table_lookup t (w.heap pc).type = none := by
    simpa [_find_plugin, ht] using hf
  have hr : refs w pc = 0 := by
    unfold refs
    rw [List.countP_eq_zero]
    intro e he hw
    obtain ⟨hn, hres⟩ := (wraps_iff pc e).1 hw
    obtain ⟨p, hp, hty⟩ := hi.legacy e he hn
    rw [hres] at hp
    cases hp
    rw [hen0] at he
    exact (lookup_none_iff t _).1 hlk (List.mem_map.2 ⟨e, he, hty.symm⟩)
  refine ⟨hr, ?_⟩
  unfold live
  rw [List.countP_eq_zero]
  intro pl hpl hc
  have h1 := hi.instances (by simp [ht]) pl hpl
  simp at hc
  rw [hc, hr] at h1
  omega

theorem inv_load_accepted (h0 : PcPtr → PluginClass) (w : World) (t : GHashTable)
    (m : GModule) (pc : PcPtr) (hi : Inv h0 w) (ht : w._all_types = some t)
    (hf : _find_plugin w (w.heap pc).type = none) : Inv h0 (load_accepted w m pc) := by
  obtain ⟨hr0, hl0⟩ := unregistered_untracked h0 w t pc hi ht hf
  have hen0 : entries w = t := by simp [entries, ht]
  have hlk : g_hash_table_lookup t (w.heap pc).type = none := by
    simpa [_find_plugin, ht] using hf
  have hen : entries (load_accepted w m pc)
      = t ++ [((w.heap pc).type, old_plugin_init (w.heap pc) pc)] := by
    simp [entries, load_accepted, ht, insert_of_lookup_none _ _ _ hlk]
  have hty : ∀ p, ((load_accepted w m pc).heap p).type = (w.heap p).type := by
    intro p
    by_cases hp : p = pc
    · subst hp; simp [load_accepted]
    · simp [load_accepted, Function.update_noteq hp]
  have hwr : ∀ p, wraps p ((w.heap pc).type, old_plugin_init (w.heap pc) pc)
      = decide (pc = p) := by
    intro p
    simp [wraps, old_plugin_init, LXPanelPluginInit.g_new0]
  have hr : ∀ p, refs (load_accepted w m pc) p = refs w p + if pc = p then 1 else 0 := by
    intro p
    simp only [refs, hen, hen0, List.countP_append, List.countP_cons, List.countP_nil, hwr]
    by_cases hp : pc = p <;> simp [hp]
  have hl : ∀ p, live (load_accepted w m pc) p = live w p := fun p => rfl
  refine ⟨?_, ?_, ?_, ?_⟩
  · rw [hen, List.map_append, List.nodup_append]
    refine ⟨by simpa [hen0] using hi.keys_nodup, by simp, ?_⟩
    intro a ha hb
    simp at hb
    subst hb
    exact (lookup_none_iff t _).1 hlk ha
  · intro e he hn
    rw [hen, List.mem_append] at he
    rcases he with he | he
    · obtain ⟨p, hp, hpt⟩ := hi.legacy e (by rw [hen0]; exact he) hn
      exact ⟨p, hp, by rw [hty]; exact hpt⟩
    · simp at he
      subst he
      exact ⟨pc, rfl, by rw [hty]⟩
  · intro _ pl hpl
    have h1 := hi.instances (by simp [ht]) pl hpl
    rw [hr]
    omega
  · intro p
    rw [hr, hl]
    by_cases hp : pc = p
    · subst hp
      left
      simp [load_accepted, hr0, hl0]
    · have hp2 : p ≠ pc := fun h => hp h.symm
      have hh : (load_accepted w m pc).heap p = w.heap p := by
        simp [load_accepted, Function.update_noteq hp2]
      rw [hh]
      simpa [hp] using hi.counts p

theorem inv_plugin_load_dynamic (h0 : PcPtr → PluginClass) (env : Env) (w : World)
    (t : GHashTable) (type path : String) (hi : Inv h0 w) (ht : w._all_types = some t)
    (hf : _find_plugin w type = none) : Inv h0 (plugin_load_dynamic env w type path) := by
  rcases plugin_load_dynamic_cases env w type path with h | ⟨m, h⟩ | ⟨m, pc, hty, h⟩
  · rw [h]; exact hi
  · rw [h]; exact inv_of_same h0 hi rfl rfl rfl
  · rw [h]
    exact inv_load_accepted h0 w t m pc hi ht (by rw [hty]; exact hf)

theorem plugin_load_dynamic_table (env : Env) (w : World) (type path : String)
    (hs : w._all_types.isSome = true) :
    (plugin_load_dynamic env w type path)._all_types.isSome = true := by
  rcases plugin_load_dynamic_cases env w type path with h | ⟨m, h⟩ | ⟨m, pc, -, h⟩
  · rw [h]; exact hs
  · rw [h]; exact hs
  · rw [h]
    cases ht : w._all_types with
    | none => simp [ht] at hs
    | some t => simp [load_accepted, ht]

theorem inv_scan_entry (h0 : PcPtr → PluginClass) (env : Env) (w : World) (file : String)
    (hi : Inv h0 w) (hs : w._all_types.isSome = true) :
    Inv h0 (scan_entry env w file) ∧ (scan_entry env w file)._all_types.isSome = true := by
  unfold scan_entry
  cases has_so_suffix file with
  | false => exact ⟨hi, hs⟩
  | true =>
    cases hf : _find_plugin w (strip_so file) with
    | some d => exact ⟨hi, hs⟩
    | none =>
      cases ht : w._all_types with
      | none => simp [ht] at hs
      | some t =>
        exact ⟨inv_plugin_load_dynamic h0 env w t _ _ hi ht hf,
          plugin_load_dynamic_table env w _ _ hs⟩

theorem inv_scan (h0 : PcPtr → PluginClass) (env : Env) (files : List String) :
    ∀ w : World, Inv h0 w → w._all_types.isSome = true →
      Inv h0 (files.foldl (scan_entry env) w) ∧
      (files.foldl (scan_entry env) w)._all_types.isSome = true := by
  induction files with
  | nil => intro w hi hs; exact ⟨hi, hs⟩
  | cons f files ih =>
    intro w hi hs
    obtain ⟨h1, h2⟩ := inv_scan_entry h0 env w f hi hs
    exact ih _ h1 h2

theorem inv_get_available (h0 : PcPtr → PluginClass) (env : Env) (w : World)
    (hi : Inv h0 w) (hs : w._all_types.isSome = true) :
    Inv h0 (plugin_get_available_classes env w) ∧
    (plugin_get_available_classes env w)._all_types.isSome = true := by
  unfold plugin_get_available_classes
  cases env.DISABLE_PLUGINS_LOADING with
  | true => exact ⟨hi, hs⟩
  | false =>
    cases hd : env.g_dir_read with
    | none => exact ⟨hi, hs⟩
    | some files => exact inv_scan h0 env files w hi hs

theorem register_table (w : World) (name : Option String) (init : LXPanelPluginInit)
    (hs : w._all_types.isSome = true) :
    (lxpanel_register_plugin_type w name init).1._all_types.isSome = true := by
  cases ht : w._all_types with
  | none => simp [ht] at hs
  | some t =>
    obtain ⟨t1, h1⟩ := register_keeps_table w t ht name init
    simp [h1]

theorem inv_fm_modules_load (h0 : PcPtr → PluginClass)
    (mods : List (Option String × LXPanelPluginInit)) :
    ∀ w : World, Inv h0 w → w._all_types.isSome = true →
      Inv h0 (fm_modules_load w mods) ∧ (fm_modules_load w mods)._all_types.isSome = true := by
  induction mods with
  | nil => intro w hi hs; exact ⟨hi, hs⟩
  | cons c mods ih =>
    obtain ⟨name, init⟩ := c
    intro w hi hs
    exact ih _ (inv_register h0 w name init hi) (register_table w name init hs)

theorem inv_CHECK_MODULES (h0 : PcPtr → PluginClass) (env : Env) (w : World)
    (hi : Inv h0 w) (hs : w._all_types.isSome = true) :
    Inv h0 (CHECK_MODULES env w) ∧ (CHECK_MODULES env w)._all_types.isSome = true := by
  unfold CHECK_MODULES
  cases w.fm_modules_loaded with
  | true => exact ⟨hi, hs⟩
  | false =>
    cases env.DISABLE_PLUGINS_LOADING with
    | true => exact ⟨inv_of_same h0 hi rfl rfl rfl, hs⟩
    | false =>
      obtain ⟨h1, h2⟩ := inv_fm_modules_load h0 env.fm_modules w hi hs
      exact ⟨inv_of_same h0 h1 rfl rfl rfl, h2⟩

theorem inv_discovery (h0 : PcPtr → PluginClass) (env : Env) (w : World)
    (hi : Inv h0 w) (hs : w._all_types.isSome = true) :
    Inv h0 (add_plugin_discovery env w) ∧
    (add_plugin_discovery env w)._all_types.isSome = true := by
  obtain ⟨h1, h2⟩ := inv_CHECK_MODULES h0 env w hi hs
  unfold add_plugin_discovery
  cases hl : (CHECK_MODULES env w).old_plugins_loaded with
  | true =>
    simp only [hl, if_true]
    exact ⟨inv_of_same h0 h1 rfl rfl rfl, h2⟩
  | false =>
    obtain ⟨h3, h4⟩ := inv_get_available h0 env _ h1 h2
    simp only [hl]
    exact ⟨inv_of_same h0 h3 rfl rfl rfl, h4⟩

/-! ## Creating and destroying instances -/

theorem add_plugin_create_cases (w1 : World) (name : String) (out : Outcome) :
    (add_plugin_create w1 name out).1 = w1 ∨
    ∃ init pc wid, _find_plugin w1 name = some init ∧ init.new_instance = none ∧
      init._reserved1 = some pc ∧ out.constructor = true ∧ out.pwid = some wid ∧
      add_plugin_create w1 name out = (created w1 pc out, some wid) := by
  unfold add_plugin_create
  cases hf : _find_plugin w1 name with
  | none => left; rfl
  | some init =>
    cases hn : init.new_instance with
    | some c => left; simp [hn]
    | none =>
      cases hr : init._reserved1 with
      | none => left; simp [hn, hr]
      | some pc =>
        cases hc : out.constructor with
        | false => left; simp [hn, hr, hc]
        | true =>
          cases hp : out.pwid with
          | none => left; simp [hn, hr, hc, hp]
          | some wid =>
            right
            exact ⟨init, pc, wid, rfl, hn, hr, rfl, rfl, by simp [hn, hr, hc, hp, created]⟩

theorem refs_pos_of_find (w : World) (name : String) (init : LXPanelPluginInit) (pc : PcPtr)
    (hf : _find_plugin w name = some init) (hn : init.new_instance = none)
    (hr : init._reserved1 = some pc) : 1 ≤ refs w pc := by
  cases ht : w._all_types with
  | none => simp [_find_plugin, ht] at hf
  | some t =>
    have hm : (name, init) ∈ t := lookup_some_mem t name init (by
      simpa [_find_plugin, ht] using hf)
    have : 0 < refs w pc := by
      unfold refs
      rw [List.countP_pos_iff]
      exact ⟨(name, init), by simp [entries, ht, hm], (wraps_iff pc _).2 ⟨hn, hr⟩⟩
    omega

theorem inv_created (h0 : PcPtr → PluginClass) (w : World) (pc : PcPtr) (out : Outcome)
    (hi : Inv h0 w) (hr1 : 1 ≤ refs w pc) : Inv h0 (created w pc out) := by
  have hty : ∀ p, ((created w pc out).heap p).type = (w.heap p).type := by
    intro p
    by_cases hp : p = pc
    · subst hp; simp [created]
    · simp [created, Function.update_noteq hp]
  have hr : ∀ p, refs (created w pc out) p = refs w p := fun p => rfl
  have hl : ∀ p, live (created w pc out) p = live w p + if pc = p then 1 else 0 := by
    intro p
    simp only [live, created, List.countP_cons]
    by_cases hp : pc = p <;> simp [hp]
  refine ⟨hi.keys_nodup, ?_, ?_, ?_⟩
  · intro e he hn
    obtain ⟨p, hp, hpt⟩ := hi.legacy e he hn
    exact ⟨p, hp, by rw [hty]; exact hpt⟩
  · intro hs pl hpl
    rw [hr]
    simp only [created, List.mem_cons] at hpl
    rcases hpl with hpl | hpl
    · rw [hpl]; exact hr1
    · exact hi.instances hs pl hpl
  · intro p
    rw [hr, hl]
    by_cases hp : pc = p
    · subst hp
      left
      rcases hi.counts pc with hc | ⟨hc, -, -⟩
      · simp [created, hc]
        omega
      · omega
    · have hp2 : p ≠ pc := fun h => hp h.symm
      have hh : (created w pc out).heap p = w.heap p := by
        simp [created, Function.update_noteq hp2]
      rw [hh]
      simpa [hp] using hi.counts p

theorem inv_create (h0 : PcPtr → PluginClass) (w : World) (name : String) (out : Outcome)
    (hi : Inv h0 w) : Inv h0 (add_plugin_create w name out).1 := by
  rcases add_plugin_create_cases w name out with h | ⟨init, pc, wid, hf, hn, hr, -, -, h⟩
  · rw [h]; exact hi
  · rw [h]
    exact inv_created h0 w pc out hi (refs_pos_of_find w name init pc hf hn hr)

theorem add_plugin_create_table (w : World) (name : String) (out : Outcome) :
    (add_plugin_create w name out).1._all_types = w._all_types := by
  rcases add_plugin_create_cases w name out with h | ⟨init, pc, wid, -, -, -, -, -, h⟩
  · rw [h]
  · rw [h]; rfl

theorem countP_erase_mem {α : Type} [DecidableEq α] (q : α → Bool) (a : α) :
    ∀ l : List α, a ∈ l →
      (l.erase a).countP q + (if q a = true then 1 else 0) = l.countP q := by
  intro l
  induction l with
  | nil => intro h; simp at h
  | cons b l ih =>
    intro h
    by_cases hb : b = a
    · subst hb
      simp [List.countP_cons]
    · have hm : a ∈ l := by
        rcases List.mem_cons.1 h with h1 | h1
        · exact absurd h1.symm hb
        · exact h1
      have := ih hm
      rw [List.erase_cons_tail (by simpa using hb)]
      simp only [List.countP_cons]
      omega

theorem old_plugin_destroy_eq (w : World) (pl : Plugin) :
    _old_plugin_destroy w pl =
      { plugin_class_unref w pl.«class» with plugins := w.plugins.erase pl } := by
  unfold _old_plugin_destroy
  rw [plugin_class_unref_eq]

theorem inv_destroy (h0 : PcPtr → PluginClass) (w : World) (pl : Plugin)
    (hi : Inv h0 w) (hm : pl ∈ w.plugins) : Inv h0 (_old_plugin_destroy w pl) := by
  have hheap : (_old_plugin_destroy w pl).heap = Function.update w.heap pl.«class»
      { w.heap pl.«class» with count := (w.heap pl.«class»).count - 1 } := by
    rw [old_plugin_destroy_eq, plugin_class_unref_eq]
  have htab : (_old_plugin_destroy w pl)._all_types = w._all_types := by
    rw [old_plugin_destroy_eq, plugin_class_unref_eq]
  have hpl : (_old_plugin_destroy w pl).plugins = w.plugins.erase pl := by
    rw [old_plugin_destroy_eq]
  have hty : ∀ p, ((_old_plugin_destroy w pl).heap p).type = (w.heap p).type := by
    intro p
    rw [hheap]
    by_cases hp : p = pl.«class»
    · subst hp; simp
    · simp [Function.update_noteq hp]
  have hen : entries (_old_plugin_destroy w pl) = entries w := by simp [entries, htab]
  have hr : ∀ p, refs (_old_plugin_destroy w pl) p = refs w p := fun p => by
    simp [refs, hen]
  have hl : ∀ p, live (_old_plugin_destroy w pl) p + (if pl.«class» = p then 1 else 0)
      = live w p := by
    intro p
    have := countP_erase_mem (fun x : Plugin => decide (x.«class» = p)) pl w.plugins hm
    simp only [live, hpl]
    simpa using this
  refine ⟨by rw [hen]; exact hi.keys_nodup, ?_, ?_, ?_⟩
  · intro e he hn
    rw [hen] at he
    obtain ⟨p, hp, hpt⟩ := hi.legacy e he hn
    exact ⟨p, hp, by rw [hty]; exact hpt⟩
  · intro hs x hx
    rw [hr]
    rw [htab] at hs
    rw [hpl] at hx
    exact hi.instances hs x (List.mem_of_mem_erase hx)
  · intro p
    have hlp := hl p
    rw [hr]
    by_cases hp : pl.«class» = p
    · subst hp
      left
      rw [if_pos rfl] at hlp
      rcases hi.counts pl.«class» with hc | ⟨-, hc, -⟩
      · rw [hheap]
        simp [hc]
        omega
      · omega
    · have hp2 : p ≠ pl.«class» := fun h => hp h.symm
      rw [if_neg hp] at hlp
      have hh : (_old_plugin_destroy w pl).heap p = w.heap p := by
        rw [hheap, Function.update_noteq hp2]
      rw [hh]
      have hlp2 : live (_old_plugin_destroy w pl) p = live w p := by omega
      rw [hlp2]
      exact hi.counts p

/-! ## Teardown and runs -/

theorem unload_entry_eq (w : World) (e : String × LXPanelPluginInit) :
    unload_entry w e =
      match e.2.new_instance, e.2._reserved1 with
      | none, some pc => plugin_class_unref w pc
      | _, _ => w := rfl

theorem unload_entry_heap (w : World) (e : String × LXPanelPluginInit) (p : PcPtr) :
    (unload_entry w e).heap p =
      { w.heap p with count := (w.heap p).count - if wraps p e = true then 1 else 0 } := by
  unfold unload_entry
  cases hn : e.2.new_instance with
  | some c => simp [wraps, hn]
  | none =>
    cases hr : e.2._reserved1 with
    | none => simp [wraps, hn, hr]
    | some pc =>
      simp only [plugin_class_unref_eq]
      by_cases hp : p = pc
      · subst hp
        simp [wraps, hn, hr]
      · have hp2 : ¬ pc = p := fun h => hp h.symm
        simp [wraps, hn, hr, Function.update_noteq hp, hp2]

theorem unload_entry_plugins (w : World) (e : String × LXPanelPluginInit) :
    (unload_entry w e).plugins = w.plugins := by
  unfold unload_entry
  cases hn : e.2.new_instance with
  | some c => rfl
  | none =>
    cases hr : e.2._reserved1 with
    | none => rfl
    | some pc => simp only [plugin_class_unref_eq]

theorem unload_loop_heap (es : GHashTable) (p : PcPtr) :
    ∀ w : World, (es.foldl unload_entry w).heap p =
      { w.heap p with count := (w.heap p).count - (es.countP (wraps p) : Int) } := by
  induction es with
  | nil => intro w; simp
  | cons e es ih =>
    intro w
    rw [List.foldl_cons, ih, unload_entry_heap, List.countP_cons]
    by_cases hw : wraps p e = true
    · simp [hw]
      omega
    · simp [hw]

theorem unload_loop_plugins (es : GHashTable) :
    ∀ w : World, (es.foldl unload_entry w).plugins = w.plugins := by
  induction es with
  | nil => intro w; rfl
  | cons e es ih =>
    intro w
    rw [List.foldl_cons, ih, unload_entry_plugins]

theorem unload_heap (w : World) (p : PcPtr) :
    (lxpanel_unload_modules w).heap p =
      { w.heap p with count := (w.heap p).count - (refs w p : Int) } := by
  unfold lxpanel_unload_modules
  exact unload_loop_heap _ p w

theorem unload_plugins (w : World) : (lxpanel_unload_modules w).plugins = w.plugins := by
  unfold lxpanel_unload_modules
  exact unload_loop_plugins _ w

theorem unload_table (w : World) : (lxpanel_unload_modules w)._all_types = none := rfl

theorem inv_unload (h0 : PcPtr → PluginClass) (w : World) (hi : Inv h0 w) :
    Inv h0 (lxpanel_unload_modules w) := by
  have hen : entries (lxpanel_unload_modules w) = [] := by simp [entries, unload_table]
  have hr : ∀ p, refs (lxpanel_unload_modules w) p = 0 := fun p => by simp [refs, hen]
  have hl : ∀ p, live (lxpanel_unload_modules w) p = live w p := fun p => by
    simp [live, unload_plugins]
  refine ⟨by simp [hen], by simp [hen], by simp [unload_table], ?_⟩
  intro p
  rw [hr, hl, unload_heap]
  rcases hi.counts p with hc | ⟨h1, h2, h3⟩
  · left
    simp [hc]
  · right
    simp [h1, h2, h3]

theorem inv_step (h0 : PcPtr → PluginClass) (env : Env) (w : World) (op : Op)
    (hi : Inv h0 w) (ha : allowed w op = true) : Inv h0 (step env w op) := by
  cases op with
  | load file => exact (inv_scan_entry h0 env w file hi ha).1
  | register name init => exact inv_register h0 w name init hi
  | add name out =>
    exact inv_create h0 _ name out (inv_discovery h0 env w hi ha).1
  | destroy pl => exact inv_destroy h0 w pl hi (by simpa [allowed] using ha)
  | unload => exact inv_unload h0 w hi

theorem inv_run (h0 : PcPtr → PluginClass) (env : Env) (ops : List Op) :
    ∀ w : World, Inv h0 w → valid env w ops = true → Inv h0 (run env w ops) := by
  induction ops with
  | nil => intro w hi _; exact hi
  | cons op ops ih =>
    intro w hi hv
    simp only [valid, Bool.and_eq_true] at hv
    exact ih _ (inv_step h0 env w op hi hv.1) hv.2

theorem inv_prepared (w0 : World) (hprep : w0._all_types = some []) (hnone : w0.plugins = []) :
    Inv w0.heap w0 := by
  have hen : entries w0 = [] := by simp [entries, hprep]
  refine ⟨by simp [hen], by simp [hen], by simp [hnone], ?_⟩
  intro p
  right
  simp [refs, live, hen, hnone]

theorem refs_le_one (h0 : PcPtr → PluginClass) (w : World) (hi : Inv h0 w) (p : PcPtr) :
    refs w p ≤ 1 := by
  have key : ∀ es : GHashTable, (es.map Prod.fst).Nodup →
      (∀ e ∈ es, e.2.new_instance = none →
        ∃ q, e.2._reserved1 = some q ∧ (w.heap q).type = e.1) →
      es.countP (wraps p) ≤ 1 := by
    intro es
    induction es with
    | nil => intro _ _; simp
    | cons e es ih =>
      intro hnd hleg
      rw [List.map_cons, List.nodup_cons] at hnd
      have hrest := ih hnd.2 (fun x hx => hleg x (List.mem_cons_of_mem _ hx))
      rw [List.countP_cons]
      by_cases hw : wraps p e = true
      · have hz : es.countP (wraps p) = 0 := by
          rw [List.countP_eq_zero]
          intro x hx hwx
          obtain ⟨hn1, hr1⟩ := (wraps_iff p e).1 hw
          obtain ⟨hn2, hr2⟩ := (wraps_iff p x).1 hwx
          obtain ⟨q1, hq1, ht1⟩ := hleg e (List.mem_cons_self _ _) hn1
          obtain ⟨q2, hq2, ht2⟩ := hleg x (List.mem_cons_of_mem _ hx) hn2
          rw [hr1] at hq1
          rw [hr2] at hq2
          cases hq1
          cases hq2
          exact hnd.1 (List.mem_map.2 ⟨x, hx, by rw [← ht1, ← ht2]⟩)
        simp [hw, hz]
      · simp [hw]
        exact hrest
  exact key (entries w) hi.keys_nodup hi.legacy

theorem unload_entry_target (w : World) (e : String × LXPanelPluginInit) :
    unload_entry w e =
      (match e.2.new_instance, e.2._reserved1 with
        | none, some pc => [pc]
        | _, _ => []).foldl plugin_class_unref w := by
  unfold unload_entry
  cases e.2.new_instance <;> cases e.2._reserved1 <;> rfl

theorem unload_loop_targets (es : GHashTable) :
    ∀ w : World, es.foldl unload_entry w =
      (es.filterMap fun e =>
        match e.2.new_instance, e.2._reserved1 with
        | none, some pc => some pc
        | _, _ => none).foldl plugin_class_unref w := by
  induction es with
  | nil => intro w; rfl
  | cons e es ih =>
    intro w
    rw [List.foldl_cons, ih]
    unfold unload_entry
    cases hn : e.2.new_instance with
    | some c => simp [List.filterMap_cons, hn]
    | none =>
      cases hr : e.2._reserved1 with
      | none => simp [List.filterMap_cons, hn, hr]
      | some pc => simp [List.filterMap_cons, hn, hr]

theorem unload_eq_targets (w : World) :
    lxpanel_unload_modules w =
      { (unref_targets w Op.unload).foldl plugin_class_unref w with
        _all_types := none, old_plugins_loaded := false } := by
  unfold lxpanel_unload_modules
  rw [unload_loop_targets]
  rfl

theorem count_targets (p : PcPtr) (es : GHashTable) :
    (es.filterMap fun e =>
        match e.2.new_instance, e.2._reserved1 with
        | none, some pc => some pc
        | _, _ => none).count p = es.countP (wraps p) := by
  induction es with
  | nil => rfl
  | cons e es ih =>
    rw [List.countP_cons, ← ih]
    cases hn : e.2.new_instance with
    | some c => simp [List.filterMap_cons, hn, wraps]
    | none =>
      cases hr : e.2._reserved1 with
      | none => simp [List.filterMap_cons, hn, hr, wraps]
      | some pc =>
        by_cases hp : pc = p
        · subst hp
          simp [List.filterMap_cons, hn, hr, wraps]
        · simp [List.filterMap_cons, hn, hr, wraps, hp, List.count_cons]

theorem count_unload_targets (w : World) (p : PcPtr) :
    (unref_targets w Op.unload).count p = refs w p := count_targets p (entries w)

theorem count_ge_one_of_tracked (h0 : PcPtr → PluginClass) (w : World) (hi : Inv h0 w)
    (p : PcPtr) (h : 1 ≤ refs w p + live w p) : 1 ≤ (w.heap p).count := by
  rcases hi.counts p with hc | ⟨h1, h2, -⟩
  · rw [hc]
    omega
  · omega

theorem unref_targets_safe (h0 : PcPtr → PluginClass) (w : World) (hi : Inv h0 w) (op : Op)
    (ha : allowed w op = true) :
    (unref_targets w op).Nodup ∧ ∀ p ∈ unref_targets w op, 1 ≤ (w.heap p).count := by
  cases op with
  | load file => simp [unref_targets]
  | register name init => simp [unref_targets]
  | add name out => simp [unref_targets]
  | destroy pl =>
    have hm : pl ∈ w.plugins := by simpa [allowed] using ha
    have hl : 0 < live w pl.«class» := by
      unfold live
      rw [List.countP_pos_iff]
      exact ⟨pl, hm, by simp⟩
    refine ⟨by simp [unref_targets], ?_⟩
    intro p hp
    simp [unref_targets] at hp
    subst hp
    exact count_ge_one_of_tracked h0 w hi _ (by omega)
  | unload =>
    constructor
    · rw [List.nodup_iff_count_le_one]
      intro p
      rw [count_unload_targets]
      exact refs_le_one h0 w hi p
    · intro p hp
      have : 0 < (unref_targets w Op.unload).count p := List.count_pos_iff.2 hp
      rw [count_unload_targets] at this
      exact count_ge_one_of_tracked h0 w hi p (by omega)

/-! ## Reference counts -/

theorem run_append (env : Env) (a b : List Op) :
    ∀ w : World, run env w (a ++ b) = run env (run env w a) b := by
  induction a with
  | nil => intro w; rfl
  | cons op a ih => intro w; simp [run, ih]

theorem discovery_done (env : Env) (w : World) (h1 : w.old_plugins_loaded = true)
    (h2 : w.fm_modules_loaded = true) : add_plugin_discovery env w = w := by
  unfold add_plugin_discovery CHECK_MODULES
  cases w
  simp_all

theorem register_heap (w : World) (name : Option String) (init : LXPanelPluginInit) :
    (lxpanel_register_plugin_type w name init).1.heap = w.heap := by
  cases hr : (lxpanel_register_plugin_type w name init).2 with
  | false => rw [register_rejected w name init hr]
  | true =>
    obtain ⟨n, -, -, -, -, hw⟩ := register_accepted w name init hr
    rw [hw, registered_heap]

theorem fm_modules_load_heap (mods : List (Option String × LXPanelPluginInit)) :
    ∀ w : World, (fm_modules_load w mods).heap = w.heap := by
  induction mods with
  | nil => intro w; rfl
  | cons c mods ih =>
    obtain ⟨name, init⟩ := c
    intro w
    simp only [fm_modules_load]
    rw [ih, register_heap]

theorem discovery_heap (env : Env) (w : World) (h1 : w.old_plugins_loaded = true) :
    (add_plugin_discovery env w).heap = w.heap := by
  have hc : (CHECK_MODULES env w).old_plugins_loaded = true ∧
      (CHECK_MODULES env w).heap = w.heap := by
    unfold CHECK_MODULES
    cases w.fm_modules_loaded with
    | true => exact ⟨h1, rfl⟩
    | false =>
      cases env.DISABLE_PLUGINS_LOADING with
      | true => exact ⟨h1, rfl⟩
      | false =>
        refine ⟨?_, fm_modules_load_heap _ w⟩
        have key : ∀ (mods : List (Option String × LXPanelPluginInit)) (v : World),
            (fm_modules_load v mods).old_plugins_loaded = v.old_plugins_loaded := by
          intro mods
          induction mods with
          | nil => intro v; rfl
          | cons c mods ih =>
            obtain ⟨name, init⟩ := c
            intro v
            simp only [fm_modules_load]
            rw [ih]
            cases hr : (lxpanel_register_plugin_type v name init).2 with
            | false => rw [register_rejected v name init hr]
            | true =>
              obtain ⟨n, -, -, -, -, hw⟩ := register_accepted v name init hr
              rw [hw]
              unfold registered all_types_insert
              cases init.init <;> cases v._all_types <;> rfl
        simpa using (key env.fm_modules w).trans h1
  unfold add_plugin_discovery
  simp [hc.1, hc.2]

/-- C9, amended: measured from the state left by the discovery part of the call
(`CHECK_MODULES ()` and, when the old plugins are not loaded yet, the directory scan),
`lxpanel_add_plugin` for a legacy-style type returns the widget and raises the descriptor's
count by exactly one, leaving every other descriptor as it is, when the legacy constructor
returns true and sets a top-level widget; when the constructor returns false or leaves no
widget it returns `NULL` and changes nothing; for a name that is unknown it returns `NULL`
and changes nothing. When the old plugins are already loaded the discovery part leaves
every descriptor as it is, and it is the identity once libfm's modules are loaded too. -/
theorem add_plugin_counts (env : Env) (w : World) (name : String) (out : Outcome) :
    (∀ init pc, _find_plugin (add_plugin_discovery env w) name = some init →
      init.new_instance = none → init._reserved1 = some pc →
      (∀ wid, out.constructor = true → out.pwid = some wid →
        (lxpanel_add_plugin env w name out).2 = some wid ∧
        ((lxpanel_add_plugin env w name out).1.heap pc).count
          = ((add_plugin_discovery env w).heap pc).count + 1 ∧
        ∀ q, q ≠ pc →
          (lxpanel_add_plugin env w name out).1.heap q = (add_plugin_discovery env w).heap q) ∧
      ((out.constructor = false ∨ out.pwid = none) →
        (lxpanel_add_plugin env w name out).2 = none ∧
        (lxpanel_add_plugin env w name out).1 = add_plugin_discovery env w)) ∧
    (_find_plugin (add_plugin_discovery env w) name = none →
      (lxpanel_add_plugin env w name out).2 = none ∧
      (lxpanel_add_plugin env w name out).1 = add_plugin_discovery env w) ∧
    (w.old_plugins_loaded = true → (add_plugin_discovery env w).heap = w.heap) ∧
    (w.old_plugins_loaded = true → w.fm_modules_loaded = true →
      add_plugin_discovery env w = w) := by
  refine ⟨?_, ?_, discovery_heap env w, discovery_done env w⟩
  · intro init pc hf hn hr
    constructor
    · intro wid hc hp
      have hrun : lxpanel_add_plugin env w name out
          = (created (add_plugin_discovery env w) pc out, some wid) := by
        unfold lxpanel_add_plugin add_plugin_create
        simp [hf, hn, hr, hc, hp, created]
      rw [hrun]
      refine ⟨rfl, by simp [created], ?_⟩
      intro q hq
      simp [created, Function.update_noteq hq]
    · intro hfail
      unfold lxpanel_add_plugin add_plugin_create
      rcases hfail with hc | hp
      · simp [hf, hn, hr, hc]
      · cases hc : out.constructor <;> simp [hf, hn, hr, hc, hp]
  · intro hf
    unfold lxpanel_add_plugin add_plugin_create
    simp [hf]

theorem add_plugin_counts_witness :
    (lxpanel_add_plugin sample_env netstat_loaded "netstat" ok_out).2 = some 77 ∧
    ((lxpanel_add_plugin sample_env netstat_loaded "netstat" ok_out).1.heap 0).count
      = ((add_plugin_discovery sample_env netstat_loaded).heap 0).count + 1 :=
  ⟨((add_plugin_counts sample_env netstat_loaded "netstat" ok_out).1
      (old_plugin_init netstat_class 0) 0 (by decide) rfl rfl).1 77 rfl rfl |>.1,
    ((add_plugin_counts sample_env netstat_loaded "netstat" ok_out).1
      (old_plugin_init netstat_class 0) 0 (by decide) rfl rfl).1 77 rfl rfl |>.2.1⟩

/-- C9, counterexample: the first `lxpanel_add_plugin` call on a prepared registry, with
`netstat.so` in the plugins directory: for the unknown name "bogus" it returns `NULL` and
yet the count of the descriptor at address 0 goes from 0 to 1 (the scan loaded it); for
"netstat" it returns the widget and the count goes from 0 to 2. -/
theorem first_add_changes_counts :
    _find_plugin (add_plugin_discovery sample_env prepared) "bogus" = none ∧
    (lxpanel_add_plugin sample_env prepared "bogus" ok_out).2 = none ∧
    (prepared.heap 0).count = 0 ∧
    ((lxpanel_add_plugin sample_env prepared "bogus" ok_out).1.heap 0).count = 1 ∧
    (lxpanel_add_plugin sample_env prepared "netstat" ok_out).2 = some 77 ∧
    ((lxpanel_add_plugin sample_env prepared "netstat" ok_out).1.heap 0).count = 2 := by
  decide

/-- C8, counterexample: a descriptor registered statically
(`register_plugin_class (pc, FALSE)`, count 0) and then handed to `plugin_class_unref` by
`lxpanel_unload_modules` ends with count -1: the underflow is stored, nothing is
asserted. -/
theorem static_register_then_unload_underflows :
    (prepared.heap 0).count = 0 ∧
    _find_plugin (register_plugin_class prepared 0 false) "netstat"
      = some (old_plugin_init netstat_class 0) ∧
    ((register_plugin_class prepared 0 false).heap 0).count = 0 ∧
    ((lxpanel_unload_modules (register_plugin_class prepared 0 false)).heap 0).count = -1 := by
  decide

/-- C8, amended: from a freshly prepared registry without instances, over every sequence
of directory-scan loads, `lxpanel_register_plugin_type` calls, `lxpanel_add_plugin` calls,
destroy notifications of live instance records and `lxpanel_unload_modules` (after which
only destroy notifications follow), the count of every descriptor is the number of table
entries wrapping it plus the number of its live instances, or still its initial value;
so a count that starts at 0 or more stays there. Each further operation applies
`plugin_class_unref` to pairwise distinct descriptors whose count is at least 1.
`plugin_class_unref` itself makes no check: it stores count - 1 whatever the count is. -/
theorem count_invariant (env : Env) (w0 : World) (ops : List Op)
    (hprep : w0._all_types = some []) (hnone : w0.plugins = [])
    (hvalid : valid env w0 ops = true) :
    (∀ p, ((run env w0 ops).heap p).count
        = (refs (run env w0 ops) p : Int) + (live (run env w0 ops) p : Int) ∨
      ((run env w0 ops).heap p).count = (w0.heap p).count) ∧
    (∀ p, 0 ≤ (w0.heap p).count → 0 ≤ ((run env w0 ops).heap p).count) ∧
    (∀ op, allowed (run env w0 ops) op = true →
      (unref_targets (run env w0 ops) op).Nodup ∧
      ∀ p ∈ unref_targets (run env w0 ops) op, 1 ≤ ((run env w0 ops).heap p).count) ∧
    (∀ w : World, lxpanel_unload_modules w =
      { (unref_targets w Op.unload).foldl plugin_class_unref w with
        _all_types := none, old_plugins_loaded := false }) ∧
    (∀ (w : World) (pl : Plugin), _old_plugin_destroy w pl =
      { (unref_targets w (Op.destroy pl)).foldl plugin_class_unref w with
        plugins := w.plugins.erase pl }) ∧
    (∀ (w : World) (pc : PcPtr),
      ((plugin_class_unref w pc).heap pc).count = (w.heap pc).count - 1) := by
  have hi := inv_run w0.heap env ops w0 (inv_prepared w0 hprep hnone) hvalid
  refine ⟨?_, ?_, ?_, unload_eq_targets, ?_, ?_⟩
  · intro p
    rcases hi.counts p with hc | ⟨-, -, hc⟩
    · exact Or.inl hc
    · exact Or.inr hc
  · intro p hp
    rcases hi.counts p with hc | ⟨-, -, hc⟩
    · rw [hc]; omega
    · rw [hc]; exact hp
  · intro op ha
    exact unref_targets_safe w0.heap _ hi op ha
  · intro w pl
    rw [old_plugin_destroy_eq]
    rfl
  · intro w pc
    rw [plugin_class_unref_eq]
    simp

theorem creates_run (env : Env) (type : String) (init : LXPanelPluginInit) (pc : PcPtr)
    (hn : init.new_instance = none) (hr : init._reserved1 = some pc) (outs : List Outcome)
    (houts : ∀ o ∈ outs, o.constructor = true ∧ o.pwid ≠ none) :
    ∀ w : World, w.old_plugins_loaded = true → w.fm_modules_loaded = true →
      _find_plugin w type = some init →
      (run env w (outs.map (Op.add type)))._all_types = w._all_types ∧
      (run env w (outs.map (Op.add type))).closed = w.closed ∧
      (run env w (outs.map (Op.add type))).heap pc
        = { w.heap pc with count := (w.heap pc).count + (outs.length : Int) } := by
  induction outs with
  | nil => intro w _ _ _; simp [run]
  | cons o outs ih =>
    intro w h1 h2 hf
    obtain ⟨hc, hp⟩ := houts o (List.mem_cons_self _ _)
    obtain ⟨wid, hwid⟩ := Option.ne_none_iff_exists'.1 hp
    have hstep : step env w (Op.add type o) = created w pc o := by
      simp only [step, lxpanel_add_plugin, discovery_done env w h1 h2]
      unfold add_plugin_create
      simp [hf, hn, hr, hc, hwid, created]
    have hrec := ih (fun x hx => houts x (List.mem_cons_of_mem _ hx)) (created w pc o)
      h1 h2 hf
    simp only [List.map_cons, run, hstep]
    refine ⟨hrec.1, hrec.2.1, ?_⟩
    rw [hrec.2.2]
    simp [created]
    omega

theorem destroys_run (env : Env) (pc : PcPtr) (ds : List Plugin)
    (hds : ∀ d ∈ ds, d.«class» = pc) :
    ∀ w : World, (w.heap pc).count = 1 + (ds.length : Int) →
      (run env w (ds.map Op.destroy))._all_types = w._all_types ∧
      (run env w (ds.map Op.destroy)).closed = w.closed ∧
      (run env w (ds.map Op.destroy)).heap pc = { w.heap pc with count := 1 } := by
  induction ds with
  | nil =>
    intro w hc
    simp only [List.map_nil, run, true_and]
    simp at hc
    rw [← hc]
  | cons d ds ih =>
    intro w hc
    have hd : d.«class» = pc := hds d (List.mem_cons_self _ _)
    have hlen : (w.heap pc).count - 1 = 1 + (ds.length : Int) := by
      simp at hc
      omega
    have hne : ¬ ((w.heap pc).count - 1 = 0 ∧ (w.heap pc).dynamic = true ∧
        (w.heap pc).not_unloadable = false) := by
      intro h
      omega
    have hstep : step env w (Op.destroy d) =
        { w with
          heap := Function.update w.heap pc
            { w.heap pc with count := (w.heap pc).count - 1 }
          plugins := w.plugins.erase d } := by
      simp only [step, old_plugin_destroy_eq, plugin_class_unref_eq, hd, if_neg hne]
    have hrec := ih (fun x hx => hds x (List.mem_cons_of_mem _ hx))
      (step env w (Op.destroy d)) (by rw [hstep]; simpa using hlen)
    simp only [List.map_cons, run]
    rw [hstep] at hrec ⊢
    refine ⟨hrec.1, hrec.2.1, ?_⟩
    rw [hrec.2.2]
    simp

theorem unref_loop_closed_mono (ts : List PcPtr) (x : Option GModule) :
    ∀ w : World, x ∈ w.closed → x ∈ (ts.foldl plugin_class_unref w).closed := by
  induction ts with
  | nil => intro w h; exact h
  | cons q ts ih =>
    intro w h
    rw [List.foldl_cons]
    apply ih
    rw [plugin_class_unref_eq]
    simp only
    split
    · exact List.mem_cons_of_mem _ h
    · exact h

theorem unref_loop_closes (pc : PcPtr) (ts : List PcPtr) :
    ∀ w : World, pc ∈ ts → (w.heap pc).count = 1 → (w.heap pc).dynamic = true →
      (w.heap pc).not_unloadable = false →
      (w.heap pc).gmodule ∈ (ts.foldl plugin_class_unref w).closed := by
  induction ts with
  | nil => intro w h; simp at h
  | cons q ts ih =>
    intro w hm hc hd hu
    rw [List.foldl_cons]
    by_cases hq : q = pc
    · subst hq
      apply unref_loop_closed_mono
      rw [plugin_class_unref_eq]
      simp [hc, hd, hu]
    · have hm2 : pc ∈ ts := by
        rcases List.mem_cons.1 hm with h | h
        · exact absurd h.symm hq
        · exact h
      have hh : (plugin_class_unref w q).heap pc = w.heap pc := by
        rw [plugin_class_unref_eq]
        exact Function.update_noteq (fun h => hq h.symm) _ _
      have := ih (plugin_class_unref w q) hm2 (by rw [hh]; exact hc) (by rw [hh]; exact hd)
        (by rw [hh]; exact hu)
      rw [hh] at this
      exact this

/-- C10, amended: in a state that satisfies the registry invariant, with discovery done,
where `type` is registered as the legacy wrapper of a dynamic descriptor that is not marked
`not_unloadable` and has no live instance (the state its load leaves), the count is 1;
after any number k of successful creates it is 1 + k; after k matching destroys, in any
order, it is 1 again and `g_module_close` has not been called; `lxpanel_unload_modules`
then brings the count to 0 and closes the descriptor's library. -/
theorem matched_creates_destroys (env : Env) (h0 : PcPtr → PluginClass) (w : World)
    (type : String) (init : LXPanelPluginInit) (pc : PcPtr) (m : GModule)
    (outs : List Outcome) (ds : List Plugin)
    (hi : Inv h0 w) (hold : w.old_plugins_loaded = true) (hfm : w.fm_modules_loaded = true)
    (hfind : _find_plugin w type = some init) (hleg : init.new_instance = none)
    (hpc : init._reserved1 = some pc) (hdyn : (w.heap pc).dynamic = true)
    (hnu : (w.heap pc).not_unloadable = false) (hgm : (w.heap pc).gmodule = some m)
    (hlive : live w pc = 0)
    (houts : ∀ o ∈ outs, o.constructor = true ∧ o.pwid ≠ none)
    (hds : ds.Perm (outs.map fun o => ({ «class» := pc, pwid := o.pwid } : Plugin))) :
    (w.heap pc).count = 1 ∧
    ((run env w (outs.map (Op.add type))).heap pc).count = 1 + (outs.length : Int) ∧
    ((run env w (outs.map (Op.add type) ++ ds.map Op.destroy)).heap pc).count = 1 ∧
    (run env w (outs.map (Op.add type) ++ ds.map Op.destroy)).closed = w.closed ∧
    ((lxpanel_unload_modules
      (run env w (outs.map (Op.add type) ++ ds.map Op.destroy))).heap pc).count = 0 ∧
    some m ∈ (lxpanel_unload_modules
      (run env w (outs.map (Op.add type) ++ ds.map Op.destroy))).closed := by
  have hr1 : 1 ≤ refs w pc := refs_pos_of_find w type init pc hfind hleg hpc
  have hr2 : refs w pc ≤ 1 := refs_le_one h0 w hi pc
  have hc1 : (w.heap pc).count = 1 := by
    rcases hi.counts pc with hc | ⟨hz, -, -⟩
    · rw [hc, hlive]
      omega
    · omega
  obtain ⟨ha1, ha2, ha3⟩ := creates_run env type init pc hleg hpc outs houts w hold hfm hfind
  have hdc : ∀ d ∈ ds, d.«class» = pc := by
    intro d hd
    have := hds.mem_iff.1 hd
    simp at this
    obtain ⟨o, -, ho⟩ := this
    rw [← ho]
  have hlen : ds.length = outs.length := by
    rw [hds.length_eq, List.length_map]
  obtain ⟨hb1, hb2, hb3⟩ := destroys_run env pc ds hdc (run env w (outs.map (Op.add type)))
    (by rw [ha3, hlen]; simp [hc1])
  rw [run_append]
  have hheap : (run env (run env w (outs.map (Op.add type))) (ds.map Op.destroy)).heap pc
      = { w.heap pc with count := 1 } := by
    rw [hb3, ha3]
  have hrefs : refs (run env (run env w (outs.map (Op.add type))) (ds.map Op.destroy)) pc
      = 1 := by
    have : refs (run env (run env w (outs.map (Op.add type))) (ds.map Op.destroy)) pc
        = refs w pc := by
      simp [refs, entries, hb1, ha1]
    omega
  refine ⟨hc1, by rw [ha3]; simp [hc1], by rw [hheap], by rw [hb2, ha2], ?_, ?_⟩
  · rw [unload_heap, hrefs, hheap]
    simp
  · rw [unload_eq_targets]
    have hmem : pc ∈ unref_targets
        (run env (run env w (outs.map (Op.add type))) (ds.map Op.destroy)) Op.unload := by
      rw [← List.count_pos_iff, count_unload_targets, hrefs]
      omega
    have := unref_loop_closes pc _ _ hmem (by rw [hheap]) (by rw [hheap]; exact hdyn)
      (by rw [hheap]; exact hnu)
    rw [hheap] at this
    simpa [hgm] using this

/-- C10, counterexample: `netstat.so` is loaded (dynamic, not marked `not_unloadable`,
count 1), one instance is created (count 2) and destroyed: the count is 1, not 0, and
`g_module_close` has not been called. -/
theorem matched_destroy_keeps_library_open :
    (netstat_loaded.heap 0).count = 1 ∧
    (netstat_loaded.heap 0).dynamic = true ∧
    (netstat_loaded.heap 0).not_unloadable = false ∧
    (netstat_loaded.heap 0).gmodule = some 5 ∧
    (lxpanel_add_plugin sample_env netstat_loaded "netstat" ok_out).2 = some 77 ∧
    netstat_created.plugins = [⟨0, some 77⟩] ∧
    (netstat_created.heap 0).count = 2 ∧
    netstat_destroyed.plugins = [] ∧
    (netstat_destroyed.heap 0).count = 1 ∧
    netstat_destroyed.closed = [] := by
  decide

theorem count_invariant_witness :
    valid sample_env prepared sample_ops = true ∧
    0 ≤ ((run sample_env prepared sample_ops).heap 0).count ∧
    ((run sample_env prepared sample_ops).heap 0).count = 0 :=
  ⟨by decide,
    (count_invariant sample_env prepared sample_ops rfl rfl (by decide)).2.1 0 (by decide),
    by decide⟩

theorem matched_creates_destroys_witness :
    ((run sample_env discovered
      ([ok_out, ok_out2].map (Op.add "netstat") ++
        [(⟨0, some 78⟩ : Plugin), ⟨0, some 77⟩].map Op.destroy)).heap 0).count = 1 ∧
    some 5 ∈ (lxpanel_unload_modules (run sample_env discovered
      ([ok_out, ok_out2].map (Op.add "netstat") ++
        [(⟨0, some 78⟩ : Plugin), ⟨0, some 77⟩].map Op.destroy))).closed := by
  have h := matched_creates_destroys sample_env prepared.heap discovered "netstat"
    (old_plugin_init netstat_class 0) 0 5 [ok_out, ok_out2] [⟨0, some 78⟩, ⟨0, some 77⟩]
    (inv_discovery prepared.heap sample_env prepared (inv_prepared prepared rfl rfl) rfl).1
    (by decide) (by decide) (by decide) rfl rfl (by decide) (by decide) (by decide) (by decide)
    (by decide) (List.Perm.swap _ _ _)
  exact ⟨h.2.2.1, h.2.2.2.2.2⟩

/-! ## `graph_new_point` and the popup position -/

theorem clamp_sample_eq (value : ℚ) : clamp_sample value = min (max value 0) 1 := by
  unfold clamp_sample
  by_cases h0 : value < 0
  · rw [if_pos h0, max_eq_right (le_of_lt h0), min_eq_left (by norm_num)]
  · rw [if_neg h0, max_eq_left (not_lt.1 h0)]
    by_cases h1 : value > 1
    · rw [if_pos h1, min_eq_right (le_of_lt h1)]
    · rw [if_neg h1, min_eq_left (not_lt.1 h1)]

theorem graph_new_point_samples (g : PluginGraph) (value : ℚ) (state : Int) :
    (graph_new_point g value state).samples
      = g.samples.map fun s => s.set g.ring_cursor (clamp_sample value) := by
  unfold graph_new_point
  simp only
  split <;> rfl

theorem graph_new_point_states (g : PluginGraph) (value : ℚ) (state : Int) :
    (graph_new_point g value state).samp_states = g.samp_states.set g.ring_cursor state := by
  unfold graph_new_point
  simp only
  split <;> rfl

theorem graph_new_point_cursor (g : PluginGraph) (value : ℚ) (state : Int) :
    (graph_new_point g value state).ring_cursor
      = if g.ring_cursor + 1 ≥ g.pixmap_width then 0 else g.ring_cursor + 1 := by
  unfold graph_new_point
  simp only
  split <;> rfl

theorem graph_new_point_width (g : PluginGraph) (value : ℚ) (state : Int) :
    (graph_new_point g value state).pixmap_width = g.pixmap_width := by
  unfold graph_new_point
  simp only
  split <;> rfl

theorem clamp_float_finite (v : ℚ) :
    clamp_float (CFloat.finite v) = CFloat.finite (clamp_sample v) := by
  unfold clamp_float clamp_sample
  simp only [CFloat.lt, decide_eq_true_eq, gt_iff_lt]
  split
  · rfl
  · split <;> rfl

theorem clamp_float_nan : clamp_float CFloat.nan = CFloat.nan := by
  simp [clamp_float, CFloat.lt]

theorem clamp_float_neg_inf : clamp_float CFloat.neg_inf = CFloat.finite 0 := by
  simp [clamp_float, CFloat.lt]

theorem clamp_float_pos_inf : clamp_float CFloat.pos_inf = CFloat.finite 1 := by
  simp [clamp_float, CFloat.lt]

theorem graph_new_point_float_samples (g : FloatGraph) (value : CFloat) (state : Int) :
    (graph_new_point_float g value state).samples
      = g.samples.map fun s => s.set g.ring_cursor (clamp_float value) := by
  unfold graph_new_point_float
  simp only
  split <;> rfl

theorem graph_new_point_float_states (g : FloatGraph) (value : CFloat) (state : Int) :
    (graph_new_point_float g value state).samp_states
      = g.samp_states.set g.ring_cursor state := by
  unfold graph_new_point_float
  simp only
  split <;> rfl

/-- On finite values `graph_new_point_float` is `graph_new_point`. -/
theorem graph_new_point_float_finite (g : PluginGraph) (value : ℚ) (state : Int) :
    graph_new_point_float (float_graph g) (CFloat.finite value) state
      = float_graph (graph_new_point g value state) := by
  unfold graph_new_point_float graph_new_point float_graph
  simp only [clamp_float_finite]
  split
  · cases g.samples <;> simp [List.map_set]
  · cases g.samples <;> simp [List.map_set]

/-- C11, amended: `graph_new_point` stores the clamped value in the sample slot at the
cursor and the state tag as given. For a value that is not a NaN the stored sample lies
in [0, 1]: it is `min (max value 0) 1` for a finite value, that is 0 for a value below
0, 1 for a value above 1 (-0.3 gives 0 and 1.7 gives 1) and the value itself when it
lies in [0, 1]; it is 0 for minus infinity and 1 for plus infinity. A NaN is stored as
it is. -/
theorem graph_new_point_float_clamps (g : FloatGraph) (samples : List CFloat)
    (value : CFloat) (state : Int) (hs : g.samples = some samples)
    (hc : g.ring_cursor < samples.length) (hc2 : g.ring_cursor < g.samp_states.length) :
    (graph_new_point_float g value state).samples
      = some (samples.set g.ring_cursor (clamp_float value)) ∧
    ((graph_new_point_float g value state).samples.getD [])[g.ring_cursor]?
      = some (clamp_float value) ∧
    (graph_new_point_float g value state).samp_states[g.ring_cursor]? = some state ∧
    (graph_new_point_float g value state).samp_states
      = g.samp_states.set g.ring_cursor state ∧
    (∀ v : ℚ, value = CFloat.finite v →
      clamp_float value = CFloat.finite (min (max v 0) 1)) ∧
    (∀ v : ℚ, value = CFloat.finite v → v < 0 → clamp_float value = CFloat.finite 0) ∧
    (∀ v : ℚ, value = CFloat.finite v → 1 < v → clamp_float value = CFloat.finite 1) ∧
    (∀ v : ℚ, value = CFloat.finite v → 0 ≤ v → v ≤ 1 → clamp_float value = value) ∧
    (value = CFloat.neg_inf → clamp_float value = CFloat.finite 0) ∧
    (value = CFloat.pos_inf → clamp_float value = CFloat.finite 1) ∧
    (value ≠ CFloat.nan → ∃ q : ℚ, clamp_float value = CFloat.finite q ∧ 0 ≤ q ∧ q ≤ 1) ∧
    (value = CFloat.nan → clamp_float value = CFloat.nan) ∧
    clamp_float (CFloat.finite (-3 / 10)) = CFloat.finite 0 ∧
    clamp_float (CFloat.finite (17 / 10)) = CFloat.finite 1 := by
  have h1 : (graph_new_point_float g value state).samples
      = some (samples.set g.ring_cursor (clamp_float value)) := by
    rw [graph_new_point_float_samples, hs]
    rfl
  refine ⟨h1, ?_, ?_, graph_new_point_float_states g value state, ?_, ?_, ?_, ?_, ?_, ?_, ?_,
    ?_, ?_, ?_⟩
  · rw [h1]
    simp [hc]
  · rw [graph_new_point_float_states]
    simp [hc2]
  · intro v hv
    rw [hv, clamp_float_finite, clamp_sample_eq]
  · intro v hv h
    rw [hv, clamp_float_finite, clamp_sample_eq, max_eq_right (le_of_lt h),
      min_eq_left (by norm_num)]
  · intro v hv h
    rw [hv, clamp_float_finite, clamp_sample_eq, max_eq_left (by linarith),
      min_eq_right (le_of_lt h)]
  · intro v hv h0 h1
    rw [hv, clamp_float_finite, clamp_sample_eq, max_eq_left h0, min_eq_left h1]
  · intro hv
    rw [hv, clamp_float_neg_inf]
  · intro hv
    rw [hv, clamp_float_pos_inf]
  · intro hv
    cases value with
    | nan => exact absurd rfl hv
    | neg_inf => exact ⟨0, clamp_float_neg_inf, le_refl _, by norm_num⟩
    | pos_inf => exact ⟨1, clamp_float_pos_inf, by norm_num, le_refl _⟩
    | finite v =>
      refine ⟨min (max v 0) 1, ?_, ?_, ?_⟩
      · rw [clamp_float_finite, clamp_sample_eq]
      · exact le_min (le_max_right _ _) (by norm_num)
      · exact min_le_right _ _
  · intro hv
    rw [hv, clamp_float_nan]
  · rw [clamp_float_finite, clamp_sample_eq]
    norm_num
  · rw [clamp_float_finite, clamp_sample_eq]
    norm_num

theorem CLAMP_bounds (x low high : Int) (h : low ≤ high) :
    low ≤ CLAMP x low high ∧ CLAMP x low high ≤ high := by
  unfold CLAMP
  split
  · exact ⟨h, le_refl _⟩
  · split <;> constructor <;> omega

theorem CLAMP_inside (x low high : Int) (h1 : low ≤ x) (h2 : x ≤ high) :
    CLAMP x low high = x := by
  unfold CLAMP
  rw [if_neg (by omega), if_neg (by omega)]

/-- C16: when the popup is not larger than the rectangle of the monitor, the position
returned by `lxpanel_plugin_popup_set_position_helper` keeps the whole popup inside that
rectangle, and it is the laid-out position whenever that one already does; the laid-out
position is the origin of the anchor moved down by the anchor's height for a top panel,
up by the popup's height for a bottom panel, right by the anchor's width for a left
panel and left by the popup's width for a right panel. -/
theorem popup_position_in_work_area (q : PopupQuery)
    (hw : (popup_req q).width ≤ (work_area q).width)
    (hh : (popup_req q).height ≤ (work_area q).height) :
    ((work_area q).x ≤ (lxpanel_plugin_popup_set_position_helper q).1 ∧
      (lxpanel_plugin_popup_set_position_helper q).1 + (popup_req q).width
        ≤ (work_area q).x + (work_area q).width ∧
      (work_area q).y ≤ (lxpanel_plugin_popup_set_position_helper q).2 ∧
      (lxpanel_plugin_popup_set_position_helper q).2 + (popup_req q).height
        ≤ (work_area q).y + (work_area q).height) ∧
    (((work_area q).x ≤ (flush_position q).1 ∧
      (flush_position q).1 + (popup_req q).width ≤ (work_area q).x + (work_area q).width ∧
      (work_area q).y ≤ (flush_position q).2 ∧
      (flush_position q).2 + (popup_req q).height
        ≤ (work_area q).y + (work_area q).height) →
      lxpanel_plugin_popup_set_position_helper q = flush_position q) ∧
    (q.edge = Edge.EDGE_TOP → flush_position q
      = ((near_position q).1, (near_position q).2 + q.near_allocation.height)) ∧
    (q.edge = Edge.EDGE_BOTTOM → flush_position q
      = ((near_position q).1, (near_position q).2 - (popup_req q).height)) ∧
    (q.edge = Edge.EDGE_LEFT → flush_position q
      = ((near_position q).1 + q.near_allocation.width, (near_position q).2)) ∧
    (q.edge = Edge.EDGE_RIGHT → flush_position q
      = ((near_position q).1 - (popup_req q).width, (near_position q).2)) := by
  have hx := CLAMP_bounds (flush_position q).1 (work_area q).x
    ((work_area q).x + (work_area q).width - (popup_req q).width) (by omega)
  have hy := CLAMP_bounds (flush_position q).2 (work_area q).y
    ((work_area q).y + (work_area q).height - (popup_req q).height) (by omega)
  refine ⟨?_, ?_, ?_, ?_, ?_, ?_⟩
  · simp only [lxpanel_plugin_popup_set_position_helper]
    refine ⟨hx.1, ?_, hy.1, ?_⟩ <;> omega
  · rintro ⟨h1, h2, h3, h4⟩
    simp only [lxpanel_plugin_popup_set_position_helper]
    rw [CLAMP_inside _ _ _ h1 (by omega), CLAMP_inside _ _ _ h3 (by omega)]
  · intro he; simp [flush_position, he]
  · intro he; simp [flush_position, he]
  · intro he; simp [flush_position, he]
  · intro he; simp [flush_position, he]

/-! ## The copies of `graph_reload` -/

theorem memcpy_head {α : Type} (z : α) (n : Nat) (src : List α) (c : Nat) :
    memcpy (List.replicate n z) 0 src 0 c = src.take c ++ List.replicate (n - c) z := by
  simp [memcpy, List.drop_replicate]

/-- The buffer the growing branch builds. -/
theorem grow_buffer {α : Type} (z : α) (old : List α) (C C2 c : Nat)
    (hlen : old.length = C) (hc : c ≤ C) (hg : C < C2) :
    memcpy (memcpy (List.replicate C2 z) 0 old 0 c) (C2 - C + c) old c (C - c)
      = old.take c ++ List.replicate (C2 - C) z ++ old.drop c := by
  rw [memcpy_head]
  unfold memcpy
  have h1 : (old.take c).length = c := by simp [hlen, hc]
  have h2 : List.take (C2 - C + c) (old.take c ++ List.replicate (C2 - c) z)
      = old.take c ++ List.replicate (C2 - C) z := by
    rw [List.take_append_eq_append_take, h1, List.take_of_length_le (by rw [h1]; omega)]
    congr 1
    rw [List.take_replicate]
    congr 1
    omega
  have h3 : (old.drop c).take (C - c) = old.drop c :=
    List.take_of_length_le (by simp [hlen])
  have h4 : List.drop (C2 - C + c + (C - c)) (old.take c ++ List.replicate (C2 - c) z) = [] := by
    apply List.drop_eq_nil_of_le
    simp [h1]
    omega
  rw [h2, h3, h4, List.append_nil]

/-- The buffer the shrinking branch builds when the cursor still fits. -/
theorem shrink_buffer {α : Type} (z : α) (old : List α) (C C2 c : Nat)
    (hlen : old.length = C) (hs : C2 < C) (hc : c ≤ C2) :
    memcpy (memcpy (List.replicate C2 z) 0 old 0 c) c old (C - C2 + c) (C2 - c)
      = old.take c ++ old.drop (C - C2 + c) := by
  rw [memcpy_head]
  unfold memcpy
  have h1 : (old.take c).length = c := by simp [hlen]; omega
  have h2 : List.take c (old.take c ++ List.replicate (C2 - c) z) = old.take c := by
    rw [List.take_append_eq_append_take, h1]
    simp
  have h3 : (old.drop (C - C2 + c)).take (C2 - c) = old.drop (C - C2 + c) :=
    List.take_of_length_le (by simp [hlen]; omega)
  have h4 : List.drop (c + (C2 - c)) (old.take c ++ List.replicate (C2 - c) z) = [] := by
    apply List.drop_eq_nil_of_le
    simp [h1]
  rw [h2, h3, h4, List.append_nil]

/-- The buffer the last branch builds, when the new capacity is below the cursor. -/
theorem window_buffer {α : Type} (z : α) (old : List α) (C2 c : Nat) :
    memcpy (List.replicate C2 z) 0 old (c - C2) C2 = (old.drop (c - C2)).take C2 := by
  unfold memcpy
  have h4 : List.drop (0 + C2) (List.replicate C2 z) = [] := by
    apply List.drop_eq_nil_of_le
    simp
  rw [h4]
  simp

theorem grow_index {α : Type} (z : α) (old : List α) (C C2 c : Nat)
    (hlen : old.length = C) (hc : c ≤ C) (hg : C < C2) :
    (old.take c ++ List.replicate (C2 - C) z ++ old.drop c).length = C2 ∧
    (∀ i, i < c → (old.take c ++ List.replicate (C2 - C) z ++ old.drop c)[i]? = old[i]?) ∧
    (∀ i, c ≤ i → i < c + (C2 - C) →
      (old.take c ++ List.replicate (C2 - C) z ++ old.drop c)[i]? = some z) ∧
    (∀ i, c + (C2 - C) ≤ i → i < C2 →
      (old.take c ++ List.replicate (C2 - C) z ++ old.drop c)[i]? = old[i - (C2 - C)]?) := by
  have h1 : (old.take c).length = c := by simp [hlen, hc]
  have h2 : (old.take c ++ List.replicate (C2 - C) z).length = c + (C2 - C) := by
    simp [h1]
  refine ⟨by simp [hlen]; omega, ?_, ?_, ?_⟩
  · intro i hi
    rw [List.append_assoc, List.getElem?_append_left (by rw [h1]; exact hi),
      List.getElem?_take_of_lt hi]
  · intro i hi1 hi2
    rw [List.getElem?_append_left (by rw [h2]; exact hi2),
      List.getElem?_append_right (by rw [h1]; exact hi1), h1,
      List.getElem?_replicate_of_lt (by omega)]
  · intro i hi1 hi2
    rw [List.getElem?_append_right (by rw [h2]; exact hi1), h2, List.getElem?_drop]
    congr 1
    omega

theorem shrink_index {α : Type} (old : List α) (C C2 c : Nat)
    (hlen : old.length = C) (hs : C2 < C) (hc : c ≤ C2) :
    (old.take c ++ old.drop (C - C2 + c)).length = C2 ∧
    (∀ i, i < c → (old.take c ++ old.drop (C - C2 + c))[i]? = old[i]?) ∧
    (∀ i, c ≤ i → i < C2 →
      (old.take c ++ old.drop (C - C2 + c))[i]? = old[i + (C - C2)]?) := by
  have h1 : (old.take c).length = c := by simp [hlen]; omega
  refine ⟨by simp [hlen]; omega, ?_, ?_⟩
  · intro i hi
    rw [List.getElem?_append_left (by rw [h1]; exact hi), List.getElem?_take_of_lt hi]
  · intro i hi1 _
    rw [List.getElem?_append_right (by rw [h1]; exact hi1), h1, List.getElem?_drop]
    congr 1
    omega

theorem window_index {α : Type} (old : List α) (C C2 c : Nat)
    (hlen : old.length = C) (hc : c ≤ C) (hs : C2 < c) :
    ((old.drop (c - C2)).take C2).length = C2 ∧
    (∀ i, i < C2 → ((old.drop (c - C2)).take C2)[i]? = old[c - C2 + i]?) := by
  refine ⟨by simp [hlen]; omega, ?_⟩
  intro i hi
  rw [List.getElem?_take_of_lt hi, List.getElem?_drop]

theorem new_pixmap_width_ge (height : Nat) : 50 ≤ new_pixmap_width height := by
  unfold new_pixmap_width
  split <;> omega

theorem new_pixmap_width_small (height : Nat) (h : 3 * height < 4294967296) :
    new_pixmap_width height = max (3 * height / 2) 50 := by
  unfold new_pixmap_width
  have h1 : (height * 3) % 4294967296 = 3 * height := by
    rw [Nat.mod_eq_of_lt (by omega)]
    omega
  rw [h1, Nat.shiftRight_eq_div_pow]
  simp only [pow_one]
  split <;> omega

theorem new_pixmap_height_small (BORDER_SIZE : Nat) (icon_size : Int)
    (h0 : 0 ≤ icon_size - 2 * (BORDER_SIZE : Int))
    (h1 : icon_size - 2 * (BORDER_SIZE : Int) < 4294967296) :
    new_pixmap_height BORDER_SIZE icon_size = (icon_size - 2 * (BORDER_SIZE : Int)).toNat := by
  unfold new_pixmap_height
  have hb : ((BORDER_SIZE <<< 1 : Nat) : Int) = 2 * (BORDER_SIZE : Int) := by
    rw [Nat.shiftLeft_eq]
    push_cast
    omega
  rw [hb, Int.emod_eq_of_lt h0 h1]

theorem graph_reload_skipped (BORDER_SIZE : Nat) (g : PluginGraph) (icon_size : Int)
    (background foreground throttle1 throttle2 : GdkRGBA)
    (h : new_pixmap_height BORDER_SIZE icon_size = 0) :
    graph_reload BORDER_SIZE g icon_size background foreground throttle1 throttle2
      = { g with background := background, colours := (foreground, throttle1, throttle2) } := by
  unfold graph_reload
  simp [h]

theorem graph_reload_done (BORDER_SIZE : Nat) (g : PluginGraph) (icon_size : Int)
    (background foreground throttle1 throttle2 : GdkRGBA)
    (h : 0 < new_pixmap_height BORDER_SIZE icon_size) :
    graph_reload BORDER_SIZE g icon_size background foreground throttle1 throttle2
      = { (if g.samples = none ∨
              new_pixmap_width (new_pixmap_height BORDER_SIZE icon_size) ≠ g.pixmap_width
            then graph_realloc
              { g with background := background,
                       colours := (foreground, throttle1, throttle2) }
              (new_pixmap_width (new_pixmap_height BORDER_SIZE icon_size))
            else { g with background := background,
                          colours := (foreground, throttle1, throttle2) }) with
          pixmap_width := new_pixmap_width (new_pixmap_height BORDER_SIZE icon_size)
          pixmap_height := new_pixmap_height BORDER_SIZE icon_size
          pixmap := some (new_pixmap_width (new_pixmap_height BORDER_SIZE icon_size),
            new_pixmap_height BORDER_SIZE icon_size) } := by
  have hw := new_pixmap_width_ge (new_pixmap_height BORDER_SIZE icon_size)
  unfold graph_reload
  simp only
  rw [if_pos ⟨by omega, h⟩]

theorem graph_realloc_first (g : PluginGraph) (W : Nat) (h : g.samples = none) :
    graph_realloc g W
      = { g with samples := some (List.replicate W 0), samp_states := List.replicate W 0 } := by
  unfold graph_realloc
  simp [h]

theorem graph_realloc_grow (g : PluginGraph) (samples : List ℚ) (C W : Nat)
    (ha : allocated g C samples) (hc : g.ring_cursor ≤ C) (hg : C < W) :
    graph_realloc g W
      = { g with
          samples := some (samples.take g.ring_cursor ++ List.replicate (W - C) 0
            ++ samples.drop g.ring_cursor)
          samp_states := g.samp_states.take g.ring_cursor ++ List.replicate (W - C) 0
            ++ g.samp_states.drop g.ring_cursor } := by
  obtain ⟨h1, h2, h3, h4⟩ := ha
  unfold graph_realloc
  simp only [h1, h4, if_pos hg]
  rw [grow_buffer 0 samples C W g.ring_cursor h2 hc hg,
    grow_buffer 0 g.samp_states C W g.ring_cursor h3 hc hg]

theorem graph_realloc_shrink (g : PluginGraph) (samples : List ℚ) (C W : Nat)
    (ha : allocated g C samples) (hs : W < C) (hc : g.ring_cursor ≤ W) :
    graph_realloc g W
      = { g with
          samples := some (samples.take g.ring_cursor
            ++ samples.drop (C - W + g.ring_cursor))
          samp_states := g.samp_states.take g.ring_cursor
            ++ g.samp_states.drop (C - W + g.ring_cursor) } := by
  obtain ⟨h1, h2, h3, h4⟩ := ha
  unfold graph_realloc
  simp only [h1, h4, if_neg (show ¬ W > C by omega), if_pos hc]
  rw [shrink_buffer 0 samples C W g.ring_cursor h2 hs hc,
    shrink_buffer 0 g.samp_states C W g.ring_cursor h3 hs hc]

theorem graph_realloc_window (g : PluginGraph) (samples : List ℚ) (C W : Nat)
    (ha : allocated g C samples) (hc : g.ring_cursor ≤ C) (hs : W < g.ring_cursor) :
    graph_realloc g W
      = { g with
          samples := some ((samples.drop (g.ring_cursor - W)).take W)
          samp_states := (g.samp_states.drop (g.ring_cursor - W)).take W
          ring_cursor := 0 } := by
  obtain ⟨h1, h2, h3, h4⟩ := ha
  unfold graph_realloc
  simp only [h1, h4, if_neg (show ¬ W > C by omega), if_neg (show ¬ g.ring_cursor ≤ W by omega)]
  rw [window_buffer, window_buffer]

theorem allocated_colours (g : PluginGraph) (C : Nat) (samples : List ℚ)
    (background : GdkRGBA) (colours : GdkRGBA × GdkRGBA × GdkRGBA)
    (ha : allocated g C samples) :
    allocated { g with background := background, colours := colours } C samples := ha

/-- The result of `graph_reload` on allocated buffers, by case. -/
theorem graph_reload_cases (BORDER_SIZE : Nat) (g : PluginGraph) (samples : List ℚ)
    (C W : Nat) (icon_size : Int) (background foreground throttle1 throttle2 : GdkRGBA)
    (ha : allocated g C samples) (hc : g.ring_cursor ≤ C)
    (hh : 0 < new_pixmap_height BORDER_SIZE icon_size)
    (hW : new_pixmap_width (new_pixmap_height BORDER_SIZE icon_size) = W) :
    (graph_reload BORDER_SIZE g icon_size background foreground throttle1
      throttle2).pixmap_width = W ∧
    (W = C →
      (graph_reload BORDER_SIZE g icon_size background foreground throttle1
        throttle2).samples = some samples ∧
      (graph_reload BORDER_SIZE g icon_size background foreground throttle1
        throttle2).samp_states = g.samp_states ∧
      (graph_reload BORDER_SIZE g icon_size background foreground throttle1
        throttle2).ring_cursor = g.ring_cursor) ∧
    (C < W →
      (graph_reload BORDER_SIZE g icon_size background foreground throttle1
        throttle2).samples = some (samples.take g.ring_cursor ++ List.replicate (W - C) 0
          ++ samples.drop g.ring_cursor) ∧
      (graph_reload BORDER_SIZE g icon_size background foreground throttle1
        throttle2).samp_states = g.samp_states.take g.ring_cursor
          ++ List.replicate (W - C) 0 ++ g.samp_states.drop g.ring_cursor ∧
      (graph_reload BORDER_SIZE g icon_size background foreground throttle1
        throttle2).ring_cursor = g.ring_cursor) ∧
    (W < C → g.ring_cursor ≤ W →
      (graph_reload BORDER_SIZE g icon_size background foreground throttle1
        throttle2).samples = some (samples.take g.ring_cursor
          ++ samples.drop (C - W + g.ring_cursor)) ∧
      (graph_reload BORDER_SIZE g icon_size background foreground throttle1
        throttle2).samp_states = g.samp_states.take g.ring_cursor
          ++ g.samp_states.drop (C - W + g.ring_cursor) ∧
      (graph_reload BORDER_SIZE g icon_size background foreground throttle1
        throttle2).ring_cursor = g.ring_cursor) ∧
    (W < g.ring_cursor →
      (graph_reload BORDER_SIZE g icon_size background foreground throttle1
        throttle2).samples = some ((samples.drop (g.ring_cursor - W)).take W) ∧
      (graph_reload BORDER_SIZE g icon_size background foreground throttle1
        throttle2).samp_states = (g.samp_states.drop (g.ring_cursor - W)).take W ∧
      (graph_reload BORDER_SIZE g icon_size background foreground throttle1
        throttle2).ring_cursor = 0) := by
  have hs : g.samples = some samples := ha.1
  have hpw : g.pixmap_width = C := ha.2.2.2
  have ha0 := allocated_colours g C samples background (foreground, throttle1, throttle2) ha
  rw [graph_reload_done BORDER_SIZE g icon_size background foreground throttle1 throttle2 hh,
    hW]
  refine ⟨rfl, ?_, ?_, ?_, ?_⟩
  · intro he
    have : ¬ (g.samples = none ∨ W ≠ g.pixmap_width) := by
      rw [hs, hpw]
      simp [he]
    rw [if_neg this]
    exact ⟨hs, rfl, rfl⟩
  · intro hg
    have : g.samples = none ∨ W ≠ g.pixmap_width := Or.inr (by omega)
    rw [if_pos this, graph_realloc_grow _ samples C W ha0 hc hg]
    exact ⟨rfl, rfl, rfl⟩
  · intro hsm hcw
    have : g.samples = none ∨ W ≠ g.pixmap_width := Or.inr (by omega)
    rw [if_pos this, graph_realloc_shrink _ samples C W ha0 hsm hcw]
    exact ⟨rfl, rfl, rfl⟩
  · intro hsm
    have : g.samples = none ∨ W ≠ g.pixmap_width := Or.inr (by omega)
    rw [if_pos this, graph_realloc_window _ samples C W ha0 hc hsm]
    exact ⟨rfl, rfl, rfl⟩

/-- C17: `graph_reload` from buffers of capacity `C` with cursor `c` to the capacity `W`
it computes from the icon size performs this remap, the same for samples and state tags:
`W = C` leaves buffers and cursor untouched; for `W > C`, `new[i] = old[i]` for `i < c`,
`new[i] = 0` for `c ≤ i < c + (W - C)`, `new[i] = old[i - (W - C)]` for
`c + (W - C) ≤ i < W`, cursor unchanged; for `W < C` and `c ≤ W`, `new[i] = old[i]` for
`i < c` and `new[i] = old[i + (C - W)]` for `c ≤ i < W`, cursor unchanged; for `W < c`,
`new[i] = old[c - W + i]` for every `i < W` and the cursor becomes 0. -/
theorem graph_reload_remap (BORDER_SIZE : Nat) (g r : PluginGraph) (samples : List ℚ)
    (C W : Nat) (icon_size : Int) (background foreground throttle1 throttle2 : GdkRGBA)
    (ha : allocated g C samples) (hc : g.ring_cursor ≤ C)
    (hh : 0 < new_pixmap_height BORDER_SIZE icon_size)
    (hW : new_pixmap_width (new_pixmap_height BORDER_SIZE icon_size) = W)
    (hr : graph_reload BORDER_SIZE g icon_size background foreground throttle1 throttle2
      = r) :
    r.pixmap_width = W ∧
    (W = C → r.samples = some samples ∧ r.samp_states = g.samp_states ∧
      r.ring_cursor = g.ring_cursor) ∧
    (C < W → r.ring_cursor = g.ring_cursor ∧
      (r.samples.getD []).length = W ∧ r.samp_states.length = W ∧
      (∀ i, i < g.ring_cursor →
        (r.samples.getD [])[i]? = samples[i]? ∧ r.samp_states[i]? = g.samp_states[i]?) ∧
      (∀ i, g.ring_cursor ≤ i → i < g.ring_cursor + (W - C) →
        (r.samples.getD [])[i]? = some 0 ∧ r.samp_states[i]? = some 0) ∧
      (∀ i, g.ring_cursor + (W - C) ≤ i → i < W →
        (r.samples.getD [])[i]? = samples[i - (W - C)]? ∧
        r.samp_states[i]? = g.samp_states[i - (W - C)]?)) ∧
    (W < C → g.ring_cursor ≤ W → r.ring_cursor = g.ring_cursor ∧
      (r.samples.getD []).length = W ∧ r.samp_states.length = W ∧
      (∀ i, i < g.ring_cursor →
        (r.samples.getD [])[i]? = samples[i]? ∧ r.samp_states[i]? = g.samp_states[i]?) ∧
      (∀ i, g.ring_cursor ≤ i → i < W →
        (r.samples.getD [])[i]? = samples[i + (C - W)]? ∧
        r.samp_states[i]? = g.samp_states[i + (C - W)]?)) ∧
    (W < g.ring_cursor → r.ring_cursor = 0 ∧
      (r.samples.getD []).length = W ∧ r.samp_states.length = W ∧
      (∀ i, i < W →
        (r.samples.getD [])[i]? = samples[g.ring_cursor - W + i]? ∧
        r.samp_states[i]? = g.samp_states[g.ring_cursor - W + i]?)) := by
  obtain ⟨h0, h1, h2, h3, h4⟩ := graph_reload_cases BORDER_SIZE g samples C W icon_size
    background foreground throttle1 throttle2 ha hc hh hW
  rw [hr] at h0 h1 h2 h3 h4
  have hl1 : samples.length = C := ha.2.1
  have hl2 : g.samp_states.length = C := ha.2.2.1
  refine ⟨h0, h1, ?_, ?_, ?_⟩
  · intro hg
    obtain ⟨e1, e2, e3⟩ := h2 hg
    obtain ⟨a1, a2, a3, a4⟩ := grow_index (0 : ℚ) samples C W g.ring_cursor hl1 hc hg
    obtain ⟨b1, b2, b3, b4⟩ := grow_index (0 : Int) g.samp_states C W g.ring_cursor hl2 hc hg
    rw [e1, e2]
    exact ⟨e3, a1, b1, fun i hi => ⟨a2 i hi, b2 i hi⟩,
      fun i hi1 hi2 => ⟨a3 i hi1 hi2, b3 i hi1 hi2⟩,
      fun i hi1 hi2 => ⟨a4 i hi1 hi2, b4 i hi1 hi2⟩⟩
  · intro hs hcw
    obtain ⟨e1, e2, e3⟩ := h3 hs hcw
    obtain ⟨a1, a2, a3⟩ := shrink_index samples C W g.ring_cursor hl1 hs hcw
    obtain ⟨b1, b2, b3⟩ := shrink_index g.samp_states C W g.ring_cursor hl2 hs hcw
    rw [e1, e2]
    exact ⟨e3, a1, b1, fun i hi => ⟨a2 i hi, b2 i hi⟩,
      fun i hi1 hi2 => ⟨a3 i hi1 hi2, b3 i hi1 hi2⟩⟩
  · intro hs
    obtain ⟨e1, e2, e3⟩ := h4 hs
    obtain ⟨a1, a2⟩ := window_index samples C W g.ring_cursor hl1 hc hs
    obtain ⟨b1, b2⟩ := window_index g.samp_states C W g.ring_cursor hl2 hc hs
    rw [e1, e2]
    exact ⟨e3, a1, b1, fun i hi => ⟨a2 i hi, b2 i hi⟩⟩

/-- C18, amended: `graph_reload` on a graph that has no sample buffer yet, for an icon size
whose target height `h = icon_size - 2 * BORDER_SIZE` is at least 1 (with `3 * h` below
`2 ^ 32`), leaves zero-filled sample and state buffers of capacity
`max (floor (3 * h / 2)) 50`, `pixmap_width` equal to that capacity, `pixmap_height` equal
to `h`, and the cursor as it was, which is 0 after `graph_init`. For the target height 0
(`icon_size = 2 * BORDER_SIZE`) it stores the colours and nothing else: no buffer is
allocated. -/
theorem graph_reload_first (BORDER_SIZE : Nat) (g : PluginGraph) (icon_size : Int)
    (background foreground throttle1 throttle2 : GdkRGBA) (hs : g.samples = none) :
    (1 ≤ icon_size - 2 * (BORDER_SIZE : Int) →
      3 * (icon_size - 2 * (BORDER_SIZE : Int)) < 4294967296 →
      (graph_reload BORDER_SIZE g icon_size background foreground throttle1
        throttle2).samples
        = some (List.replicate
            (max (3 * (icon_size - 2 * (BORDER_SIZE : Int)).toNat / 2) 50) 0) ∧
      (graph_reload BORDER_SIZE g icon_size background foreground throttle1
        throttle2).samp_states
        = List.replicate (max (3 * (icon_size - 2 * (BORDER_SIZE : Int)).toNat / 2) 50) 0 ∧
      (graph_reload BORDER_SIZE g icon_size background foreground throttle1
        throttle2).pixmap_width
        = max (3 * (icon_size - 2 * (BORDER_SIZE : Int)).toNat / 2) 50 ∧
      (graph_reload BORDER_SIZE g icon_size background foreground throttle1
        throttle2).pixmap_height = (icon_size - 2 * (BORDER_SIZE : Int)).toNat ∧
      (graph_reload BORDER_SIZE g icon_size background foreground throttle1
        throttle2).ring_cursor = g.ring_cursor) ∧
    (icon_size = 2 * (BORDER_SIZE : Int) →
      graph_reload BORDER_SIZE g icon_size background foreground throttle1 throttle2
        = { g with background := background,
                   colours := (foreground, throttle1, throttle2) }) ∧
    (graph_init g).samples = none ∧ (graph_init g).ring_cursor = 0 := by
  refine ⟨?_, ?_, rfl, rfl⟩
  · intro h1 h2
    have hh := new_pixmap_height_small BORDER_SIZE icon_size (by omega) (by omega)
    have hpos : 0 < new_pixmap_height BORDER_SIZE icon_size := by
      rw [hh]
      omega
    have hw := new_pixmap_width_small (icon_size - 2 * (BORDER_SIZE : Int)).toNat (by omega)
    rw [graph_reload_done BORDER_SIZE g icon_size background foreground throttle1 throttle2
      hpos, if_pos (Or.inl hs),
      graph_realloc_first
        { g with background := background, colours := (foreground, throttle1, throttle2) }
        _ hs, hh, hw]
    exact ⟨rfl, rfl, rfl, rfl, rfl⟩
  · intro he
    apply graph_reload_skipped
    unfold new_pixmap_height
    have hb : ((BORDER_SIZE <<< 1 : Nat) : Int) = 2 * (BORDER_SIZE : Int) := by
      rw [Nat.shiftLeft_eq]
      push_cast
      omega
    rw [hb, he]
    simp

/-! ## Runs of `graph_new_point` -/

theorem graph_new_points_snoc (g : PluginGraph) (pushes : List (ℚ × Int)) (p : ℚ × Int) :
    graph_new_points g (pushes ++ [p])
      = graph_new_point (graph_new_points g pushes) p.1 p.2 := by
  simp [graph_new_points, List.foldl_append]

theorem allocated_new_point (g : PluginGraph) (C : Nat) (buf : List ℚ) (value : ℚ)
    (state : Int) (ha : allocated g C buf) :
    allocated (graph_new_point g value state) C
      (buf.set g.ring_cursor (clamp_sample value)) := by
  obtain ⟨h1, h2, h3, h4⟩ := ha
  refine ⟨?_, ?_, ?_, ?_⟩
  · rw [graph_new_point_samples, h1]
    rfl
  · simp [h2]
  · rw [graph_new_point_states]
    simp [h3]
  · rw [graph_new_point_width, h4]

theorem succ_mod_wrap (k C : Nat) (hC : 0 < C) :
    (if k % C + 1 ≥ C then 0 else k % C + 1) = (k + 1) % C := by
  have hlt := Nat.mod_lt k hC
  by_cases h : k % C + 1 ≥ C
  · rw [if_pos h]
    have he : k % C + 1 = C := by omega
    rw [Nat.add_mod]
    by_cases h1 : C = 1
    · subst h1
      omega
    · rw [Nat.mod_eq_of_lt (show 1 < C by omega), he, Nat.mod_self]
  · rw [if_neg h, Nat.add_mod]
    rw [Nat.mod_eq_of_lt (show 1 < C by omega),
      Nat.mod_eq_of_lt (show k % C + 1 < C by omega)]

/-- The state after a run of pushes that starts with the cursor at 0. -/
theorem graph_new_points_state (g : PluginGraph) (samples : List ℚ) (C : Nat)
    (ha : allocated g C samples) (hC : 0 < C) (hc0 : g.ring_cursor = 0)
    (pushes : List (ℚ × Int)) :
    ∃ buf, allocated (graph_new_points g pushes) C buf ∧
      (graph_new_points g pushes).ring_cursor = pushes.length % C ∧
      (∀ i j v s, i < C → pushes[j]? = some (v, s) → j % C = i →
        (∀ j2, j < j2 → j2 < pushes.length → j2 % C ≠ i) →
        buf[i]? = some (clamp_sample v) ∧
        (graph_new_points g pushes).samp_states[i]? = some s) ∧
      (∀ i, i < C → (∀ j, j < pushes.length → j % C ≠ i) →
        buf[i]? = samples[i]? ∧
        (graph_new_points g pushes).samp_states[i]? = g.samp_states[i]?) := by
  induction pushes using List.reverseRecOn with
  | nil =>
    refine ⟨samples, ha, ?_, ?_, ?_⟩
    · simp [graph_new_points, hc0]
    · intro i j v s _ hj
      simp at hj
    · intro i _ _
      exact ⟨rfl, rfl⟩
  | append_singleton pushes p ih =>
    obtain ⟨buf, hb, hcur, hnew, hold⟩ := ih
    have hlt := Nat.mod_lt pushes.length hC
    have hbl : buf.length = C := hb.2.1
    have hsl : (graph_new_points g pushes).samp_states.length = C := hb.2.2.1
    have hlen : (pushes ++ [p]).length = pushes.length + 1 := by simp
    refine ⟨buf.set (graph_new_points g pushes).ring_cursor (clamp_sample p.1), ?_, ?_, ?_, ?_⟩
    · rw [graph_new_points_snoc]
      exact allocated_new_point _ C buf p.1 p.2 hb
    · rw [graph_new_points_snoc, graph_new_point_cursor, hb.2.2.2, hcur, hlen]
      exact succ_mod_wrap pushes.length C hC
    · intro i j v s hi hj hji hmax
      rw [graph_new_points_snoc, graph_new_point_states, hcur]
      by_cases hjk : j < pushes.length
      · have hne : pushes.length % C ≠ i :=
          hmax pushes.length hjk (by rw [hlen]; omega)
        rw [List.getElem?_append_left hjk] at hj
        rw [List.getElem?_set_ne hne, List.getElem?_set_ne hne]
        exact hnew i j v s hi hj hji (fun j2 h1 h2 => hmax j2 h1 (by rw [hlen]; omega))
      · have hjlt : j < (pushes ++ [p]).length := by
          by_contra hcon
          rw [List.getElem?_eq_none (by omega)] at hj
          cases hj
        have hje : j = pushes.length := by
          rw [hlen] at hjlt
          omega
        subst hje
        rw [List.getElem?_append_right (le_refl _)] at hj
        simp at hj
        subst hji
        rw [List.getElem?_set_self (by rw [hbl]; exact hlt),
          List.getElem?_set_self (by rw [hsl]; exact hlt), hj]
        exact ⟨rfl, rfl⟩
    · intro i hi hno
      rw [graph_new_points_snoc, graph_new_point_states, hcur]
      have hne : pushes.length % C ≠ i := hno pushes.length (by rw [hlen]; omega)
      rw [List.getElem?_set_ne hne, List.getElem?_set_ne hne]
      exact hold i hi (fun j hj => hno j (by rw [hlen]; omega))

theorem clamp_sample_unit (v : ℚ) (h0 : 0 ≤ v) (h1 : v ≤ 1) : clamp_sample v = v := by
  rw [clamp_sample_eq, max_eq_left h0, min_eq_left h1]

/-- After a resize, the slot `N - i` places before the cursor holds what slot `i` held
before it, when the `N` newest entries sit in slots `0 .. N - 1` and `N` fits into both
capacities. -/
theorem recent_slot (BORDER_SIZE : Nat) (g : PluginGraph) (buf : List ℚ) (C W N : Nat)
    (icon_size : Int) (background foreground throttle1 throttle2 : GdkRGBA)
    (ha : allocated g C buf) (hC : 0 < C) (hcur : g.ring_cursor = N % C) (hNC : N ≤ C)
    (hNW : N ≤ W) (hh : 0 < new_pixmap_height BORDER_SIZE icon_size)
    (hW : new_pixmap_width (new_pixmap_height BORDER_SIZE icon_size) = W)
    (i : Nat) (hi : i < N) :
    ((graph_reload BORDER_SIZE g icon_size background foreground throttle1
        throttle2).samples.getD [])[
      ((graph_reload BORDER_SIZE g icon_size background foreground throttle1
          throttle2).ring_cursor
        + (graph_reload BORDER_SIZE g icon_size background foreground throttle1
          throttle2).pixmap_width - N + i)
      % (graph_reload BORDER_SIZE g icon_size background foreground throttle1
          throttle2).pixmap_width]? = buf[i]? ∧
    (graph_reload BORDER_SIZE g icon_size background foreground throttle1
        throttle2).samp_states[
      ((graph_reload BORDER_SIZE g icon_size background foreground throttle1
          throttle2).ring_cursor
        + (graph_reload BORDER_SIZE g icon_size background foreground throttle1
          throttle2).pixmap_width - N + i)
      % (graph_reload BORDER_SIZE g icon_size background foreground throttle1
          throttle2).pixmap_width]? = g.samp_states[i]? := by
  have hcC : g.ring_cursor ≤ C := by
    rw [hcur]
    exact le_of_lt (Nat.mod_lt N hC)
  obtain ⟨h0, h1, h2, h3, -⟩ := graph_reload_cases BORDER_SIZE g buf C W icon_size
    background foreground throttle1 throttle2 ha hcC hh hW
  have hl1 : buf.length = C := ha.2.1
  have hl2 : g.samp_states.length = C := ha.2.2.1
  have hWpos : 0 < W := by
    have := new_pixmap_width_ge (new_pixmap_height BORDER_SIZE icon_size)
    omega
  rw [h0]
  by_cases hN : N < C
  · have hc : g.ring_cursor = N := by rw [hcur, Nat.mod_eq_of_lt hN]
    have hidx : ∀ c, c = N → (c + W - N + i) % W = i := by
      intro c hcN
      subst hcN
      have : c + W - c + i = i + W := by omega
      rw [this, Nat.add_mod_right, Nat.mod_eq_of_lt (by omega)]
    rcases Nat.lt_trichotomy W C with hlt | heq | hgt
    · obtain ⟨e1, e2, e3⟩ := h3 hlt (by omega)
      obtain ⟨-, a2, -⟩ := shrink_index buf C W g.ring_cursor hl1 hlt (by omega)
      obtain ⟨-, b2, -⟩ := shrink_index g.samp_states C W g.ring_cursor hl2 hlt (by omega)
      rw [e1, e2, e3, hidx _ hc]
      exact ⟨a2 i (by omega), b2 i (by omega)⟩
    · obtain ⟨e1, e2, e3⟩ := h1 heq
      rw [e1, e2, e3, hidx _ hc]
      exact ⟨rfl, rfl⟩
    · obtain ⟨e1, e2, e3⟩ := h2 hgt
      obtain ⟨-, a2, -, -⟩ := grow_index (0 : ℚ) buf C W g.ring_cursor hl1 hcC hgt
      obtain ⟨-, b2, -, -⟩ := grow_index (0 : Int) g.samp_states C W g.ring_cursor hl2 hcC hgt
      rw [e1, e2, e3, hidx _ hc]
      exact ⟨a2 i (by omega), b2 i (by omega)⟩
  · have hNe : N = C := by omega
    have hc : g.ring_cursor = 0 := by rw [hcur, hNe, Nat.mod_self]
    rcases Nat.lt_or_ge C W with hgt | hle
    · obtain ⟨e1, e2, e3⟩ := h2 hgt
      obtain ⟨-, -, -, a4⟩ := grow_index (0 : ℚ) buf C W g.ring_cursor hl1 hcC hgt
      obtain ⟨-, -, -, b4⟩ := grow_index (0 : Int) g.samp_states C W g.ring_cursor hl2 hcC hgt
      have hidx : (g.ring_cursor + W - N + i) % W = W - C + i := by
        rw [hc, hNe, Nat.mod_eq_of_lt (by omega)]
        omega
      rw [e1, e2, e3, hidx]
      have ha4 := a4 (W - C + i) (by omega) (by omega)
      have hb4 := b4 (W - C + i) (by omega) (by omega)
      have hsub : W - C + i - (W - C) = i := by omega
      rw [hsub] at ha4 hb4
      exact ⟨ha4, hb4⟩
    · have heq : W = C := by omega
      obtain ⟨e1, e2, e3⟩ := h1 heq
      have hidx : (g.ring_cursor + W - N + i) % W = i := by
        rw [hc, hNe, heq, Nat.mod_eq_of_lt (by omega)]
        omega
      rw [e1, e2, e3, hidx]
      exact ⟨rfl, rfl⟩

/-- C12: from a graph of capacity `C` whose cursor is 0, after any number `k` of
`graph_new_point` calls the cursor is `k mod C`; slot `i` holds the clamped value and the
state of the most recent push whose 0-based index is congruent to `i` modulo `C`, and a
slot no push was congruent to keeps its old content. With `C = 50` the cursor is back at
0 after 50 pushes, and after 51 pushes slot 0 holds the 51st push and slot 1 the 2nd. -/
theorem graph_new_points_ring (g : PluginGraph) (samples : List ℚ) (C : Nat)
    (pushes : List (ℚ × Int)) (ha : allocated g C samples) (hC : 0 < C)
    (hc0 : g.ring_cursor = 0) :
    (graph_new_points g pushes).ring_cursor = pushes.length % C ∧
    (∀ i j v s, i < C → pushes[j]? = some (v, s) → j % C = i →
      (∀ j2, j < j2 → j2 < pushes.length → j2 % C ≠ i) →
      ((graph_new_points g pushes).samples.getD [])[i]? = some (min (max v 0) 1) ∧
      (graph_new_points g pushes).samp_states[i]? = some s) ∧
    (∀ i, i < C → (∀ j, j < pushes.length → j % C ≠ i) →
      ((graph_new_points g pushes).samples.getD [])[i]? = samples[i]? ∧
      (graph_new_points g pushes).samp_states[i]? = g.samp_states[i]?) ∧
    (C = 50 → pushes.length = 50 → (graph_new_points g pushes).ring_cursor = 0) ∧
    (C = 50 → pushes.length = 51 → ∀ v2 s2 v51 s51,
      pushes[1]? = some (v2, s2) → pushes[50]? = some (v51, s51) →
      ((graph_new_points g pushes).samples.getD [])[0]? = some (min (max v51 0) 1) ∧
      (graph_new_points g pushes).samp_states[0]? = some s51 ∧
      ((graph_new_points g pushes).samples.getD [])[1]? = some (min (max v2 0) 1) ∧
      (graph_new_points g pushes).samp_states[1]? = some s2) := by
  obtain ⟨buf, hb, hcur, hnew, hold⟩ := graph_new_points_state g samples C ha hC hc0 pushes
  have hsb : (graph_new_points g pushes).samples.getD [] = buf := by
    rw [hb.1]
    rfl
  rw [hsb]
  refine ⟨hcur, ?_, hold, ?_, ?_⟩
  · intro i j v s hi hj hji hmax
    rw [← clamp_sample_eq]
    exact hnew i j v s hi hj hji hmax
  · intro h50 hl
    rw [hcur, h50, hl]
  · intro h50 hl v2 s2 v51 s51 hp2 hp51
    subst h50
    obtain ⟨a1, a2⟩ := hnew 0 50 v51 s51 (by omega) hp51 (by omega)
      (fun j2 h1 h2 => by omega)
    obtain ⟨b1, b2⟩ := hnew 1 1 v2 s2 (by omega) hp2 (by omega)
      (fun j2 h1 h2 => by omega)
    rw [← clamp_sample_eq, ← clamp_sample_eq]
    exact ⟨a1, a2, b1, b2⟩

/-! ## What `graph_redraw` reads -/

theorem redraw_cursors_eq (W : Nat) :
    ∀ n c : Nat, c < W → redraw_cursors W n c = (List.range n).map fun k => (c + k) % W := by
  intro n
  induction n with
  | zero => intro c _; rfl
  | succ n ih =>
    intro c hc
    have hW : 0 < W := by omega
    have hstep : (if c + 1 ≥ W then 0 else c + 1) = (c + 1) % W := by
      have := succ_mod_wrap c W hW
      rwa [Nat.mod_eq_of_lt hc] at this
    simp only [redraw_cursors]
    rw [hstep, ih _ (Nat.mod_lt _ hW), List.range_succ_eq_map, List.map_cons, List.map_map]
    congr 1
    · simp [Nat.mod_eq_of_lt hc]
    · apply List.map_congr_left
      intro k _
      simp only [Function.comp, Nat.succ_eq_add_one]
      rw [Nat.mod_add_mod]
      congr 1
      omega

/-- The reads of `graph_redraw` for a cursor inside the buffer: the slots from the
cursor to the end, then those before the cursor. -/
theorem redraw_reads {α : Type} (buf : List α) (W c : Nat) (hlen : buf.length = W)
    (hc : c < W) :
    (redraw_cursors W W c).map (fun i => buf[i]?) = (buf.drop c ++ buf.take c).map some := by
  rw [redraw_cursors_eq W W c hc]
  apply List.ext_getElem?
  intro k
  by_cases hk : k < W
  · have hlk : (buf.drop c).length = W - c := by simp [hlen]
    rw [List.getElem?_map, List.getElem?_map, List.getElem?_range hk, List.getElem?_map]
    simp only [Option.map_some']
    by_cases hk2 : k < W - c
    · rw [Nat.mod_eq_of_lt (by omega), List.getElem?_append_left (by rw [hlk]; exact hk2),
        List.getElem?_drop]
      have hb : c + k < buf.length := by omega
      rw [List.getElem?_eq_getElem hb]
      rfl
    · have hmod : (c + k) % W = k - (W - c) := by
        rw [Nat.mod_eq_sub_mod (by omega), Nat.mod_eq_of_lt (by omega)]
        omega
      rw [hmod, List.getElem?_append_right (by rw [hlk]; omega), hlk,
        List.getElem?_take_of_lt (by omega)]
      have hb : k - (W - c) < buf.length := by omega
      rw [List.getElem?_eq_getElem hb]
      rfl
  · rw [List.getElem?_eq_none (by simp; omega), List.getElem?_eq_none (by simp [hlen]; omega)]

theorem chrono_grow {α : Type} (z : α) (old : List α) (C W c : Nat)
    (hlen : old.length = C) (hc : c ≤ C) :
    (old.take c ++ List.replicate (W - C) z ++ old.drop c).drop c
        ++ (old.take c ++ List.replicate (W - C) z ++ old.drop c).take c
      = List.replicate (W - C) z ++ (old.drop c ++ old.take c) := by
  have h1 : (old.take c).length = c := by simp [hlen, hc]
  rw [List.append_assoc, List.drop_left' h1, List.take_left' h1, List.append_assoc]

theorem chrono_shrink {α : Type} (old : List α) (C W c : Nat)
    (hlen : old.length = C) (hs : W < C) (hc : c ≤ W) :
    (old.take c ++ old.drop (C - W + c)).drop c
        ++ (old.take c ++ old.drop (C - W + c)).take c
      = (old.drop c ++ old.take c).drop (C - W) := by
  have h1 : (old.take c).length = c := by simp [hlen]; omega
  rw [List.drop_left' h1, List.take_left' h1,
    List.drop_append_of_le_length (by simp [hlen]; omega), List.drop_drop]
  congr 2
  omega

theorem chrono_window {α : Type} (old : List α) (C W c : Nat)
    (hlen : old.length = C) (hc : c ≤ C) (hs : W < c) :
    ((old.drop (c - W)).take W).drop 0 ++ ((old.drop (c - W)).take W).take 0
      = (old.drop c ++ old.take c).drop (C - W) := by
  have h2 : (old.drop c).length = C - c := by simp [hlen]
  have h3 : C - W = (old.drop c).length + (c - W) := by rw [h2]; omega
  rw [h3, List.drop_append]
  simp only [List.drop_zero, List.take_zero, List.append_nil]
  rw [List.drop_take]
  congr 1
  omega

theorem redraw_grow {α : Type} (z : α) (old : List α) (C W c : Nat)
    (hlen : old.length = C) (hc : c < C) (hg : C < W) :
    (redraw_cursors W W c).map
        (fun i => (old.take c ++ List.replicate (W - C) z ++ old.drop c)[i]?)
      = (List.replicate (W - C) (some z)
          ++ (redraw_cursors C C c).map (fun i => old[i]?)).drop (C - W) := by
  have hl := (grow_index z old C W c hlen (le_of_lt hc) hg).1
  rw [redraw_reads _ W c hl (by omega), redraw_reads old C c hlen hc,
    chrono_grow z old C W c hlen (le_of_lt hc), show C - W = 0 by omega, List.drop_zero,
    List.map_append, List.map_replicate]

theorem redraw_shrink {α : Type} (z : α) (old : List α) (C W c : Nat)
    (hlen : old.length = C) (hs : W < C) (hc : c < W) :
    (redraw_cursors W W c).map (fun i => (old.take c ++ old.drop (C - W + c))[i]?)
      = (List.replicate (W - C) (some z)
          ++ (redraw_cursors C C c).map (fun i => old[i]?)).drop (C - W) := by
  have hl := (shrink_index old C W c hlen hs (le_of_lt hc)).1
  rw [redraw_reads _ W c hl hc, redraw_reads old C c hlen (by omega),
    chrono_shrink old C W c hlen hs (le_of_lt hc), show W - C = 0 by omega,
    List.replicate_zero, List.nil_append, List.map_drop]

theorem redraw_window {α : Type} (z : α) (old : List α) (C W c : Nat)
    (hlen : old.length = C) (hc : c < C) (hs : W < c) (hW : 0 < W) :
    (redraw_cursors W W 0).map (fun i => ((old.drop (c - W)).take W)[i]?)
      = (List.replicate (W - C) (some z)
          ++ (redraw_cursors C C c).map (fun i => old[i]?)).drop (C - W) := by
  have hl := (window_index old C W c hlen (le_of_lt hc) hs).1
  rw [redraw_reads _ W 0 hl hW, redraw_reads old C c hlen hc,
    chrono_window old C W c hlen (le_of_lt hc) hs, show W - C = 0 by omega,
    List.replicate_zero, List.nil_append, List.map_drop]

/-- For every resize except the one to exactly the old cursor value, what `graph_redraw`
reads from the new buffers is what it read from the old ones, without the oldest
entries when shrinking and with zero entries in front when growing. -/
theorem redraw_after_reload (BORDER_SIZE : Nat) (g : PluginGraph) (samples : List ℚ)
    (C W : Nat) (icon_size : Int) (background foreground throttle1 throttle2 : GdkRGBA)
    (ha : allocated g C samples) (hc : g.ring_cursor < C)
    (hh : 0 < new_pixmap_height BORDER_SIZE icon_size)
    (hW : new_pixmap_width (new_pixmap_height BORDER_SIZE icon_size) = W)
    (hne : W ≠ g.ring_cursor) :
    redraw_samples (graph_reload BORDER_SIZE g icon_size background foreground throttle1
        throttle2)
      = (List.replicate (W - C) (some 0) ++ redraw_samples g).drop (C - W) ∧
    redraw_states (graph_reload BORDER_SIZE g icon_size background foreground throttle1
        throttle2)
      = (List.replicate (W - C) (some 0) ++ redraw_states g).drop (C - W) := by
  obtain ⟨h0, h1, h2, h3, h4⟩ := graph_reload_cases BORDER_SIZE g samples C W icon_size
    background foreground throttle1 throttle2 ha (le_of_lt hc) hh hW
  have hl1 : samples.length = C := ha.2.1
  have hl2 : g.samp_states.length = C := ha.2.2.1
  have hWpos : 0 < W := by
    have := new_pixmap_width_ge (new_pixmap_height BORDER_SIZE icon_size)
    omega
  have hgs : redraw_samples g = (redraw_cursors C C g.ring_cursor).map fun i => samples[i]? := by
    simp only [redraw_samples, graph_redraw_cursors, ha.2.2.2, ha.1, Option.getD_some]
  have hgt : redraw_states g
      = (redraw_cursors C C g.ring_cursor).map fun i => g.samp_states[i]? := by
    simp only [redraw_states, graph_redraw_cursors, ha.2.2.2]
  rw [hgs, hgt]
  simp only [redraw_samples, redraw_states, graph_redraw_cursors, h0]
  rcases Nat.lt_trichotomy W C with hlt | heq | hgt2
  · by_cases hcw : g.ring_cursor ≤ W
    · obtain ⟨e1, e2, e3⟩ := h3 hlt hcw
      rw [e1, e2, e3]
      exact ⟨redraw_shrink 0 samples C W _ hl1 hlt (by omega),
        redraw_shrink 0 g.samp_states C W _ hl2 hlt (by omega)⟩
    · obtain ⟨e1, e2, e3⟩ := h4 (by omega)
      rw [e1, e2, e3]
      exact ⟨redraw_window 0 samples C W _ hl1 hc (by omega) hWpos,
        redraw_window 0 g.samp_states C W _ hl2 hc (by omega) hWpos⟩
  · obtain ⟨e1, e2, e3⟩ := h1 heq
    rw [e1, e2, e3, heq]
    simp
  · obtain ⟨e1, e2, e3⟩ := h2 hgt2
    rw [e1, e2, e3]
    exact ⟨redraw_grow 0 samples C W _ hl1 hc hgt2,
      redraw_grow 0 g.samp_states C W _ hl2 hc hgt2⟩

/-- The cursor stays inside the buffer across `graph_new_point`. -/
theorem cursor_after_new_point (g : PluginGraph) (value : ℚ) (state : Int)
    (hw : 0 < g.pixmap_width) :
    (graph_new_point g value state).ring_cursor < (graph_new_point g value state).pixmap_width := by
  rw [graph_new_point_cursor, graph_new_point_width]
  split <;> omega

/-- The cursor stays inside the buffer across every `graph_reload` except the one whose
new capacity is exactly the old cursor value. -/
theorem cursor_after_reload (BORDER_SIZE : Nat) (g : PluginGraph) (samples : List ℚ)
    (C W : Nat) (icon_size : Int) (background foreground throttle1 throttle2 : GdkRGBA)
    (ha : allocated g C samples) (hc : g.ring_cursor < C)
    (hh : 0 < new_pixmap_height BORDER_SIZE icon_size)
    (hW : new_pixmap_width (new_pixmap_height BORDER_SIZE icon_size) = W)
    (hne : W ≠ g.ring_cursor) :
    (graph_reload BORDER_SIZE g icon_size background foreground throttle1
      throttle2).ring_cursor
      < (graph_reload BORDER_SIZE g icon_size background foreground throttle1
        throttle2).pixmap_width := by
  obtain ⟨h0, h1, h2, h3, h4⟩ := graph_reload_cases BORDER_SIZE g samples C W icon_size
    background foreground throttle1 throttle2 ha (le_of_lt hc) hh hW
  have hWpos : 0 < W := by
    have := new_pixmap_width_ge (new_pixmap_height BORDER_SIZE icon_size)
    omega
  rw [h0]
  rcases Nat.lt_trichotomy W C with hlt | heq | hgt
  · by_cases hcw : g.ring_cursor ≤ W
    · rw [(h3 hlt hcw).2.2]; omega
    · rw [(h4 (by omega)).2.2]; exact hWpos
  · rw [(h1 heq).2.2]; omega
  · rw [(h2 hgt).2.2]; omega

/-! ## The redraw at the end of `graph_reload` -/

theorem graph_redraw_in_bounds_eq (g : PluginGraph) :
    graph_redraw_in_bounds g
      = ((redraw_samples g).zip (redraw_states g)).all
          fun p => redraw_read_in_bounds p.1 p.2 := by
  unfold graph_redraw_in_bounds redraw_samples redraw_states
  induction graph_redraw_cursors g with
  | nil => rfl
  | cons a l ih =>
    simp only [List.all_cons, List.map_cons, List.zip_cons_cons]
    rw [ih]

/-- With the cursor inside the buffer, the redraw visits every slot. -/
theorem graph_redraw_in_bounds_iff (g : PluginGraph) (hc : g.ring_cursor < g.pixmap_width) :
    graph_redraw_in_bounds g = true ↔
      ∀ i, i < g.pixmap_width →
        redraw_read_in_bounds (g.samples.getD [])[i]? g.samp_states[i]? = true := by
  unfold graph_redraw_in_bounds graph_redraw_cursors
  rw [redraw_cursors_eq _ _ _ hc, List.all_eq_true]
  have hW : 0 < g.pixmap_width := by omega
  constructor
  · intro h i hi
    apply h
    rw [List.mem_map]
    refine ⟨(i + g.pixmap_width - g.ring_cursor) % g.pixmap_width, ?_, ?_⟩
    · rw [List.mem_range]
      exact Nat.mod_lt _ hW
    · rw [Nat.add_mod_mod]
      have : g.ring_cursor + (i + g.pixmap_width - g.ring_cursor) = i + g.pixmap_width := by
        omega
      rw [this, Nat.add_mod_right, Nat.mod_eq_of_lt hi]
  · intro h x hx
    rw [List.mem_map] at hx
    obtain ⟨k, -, rfl⟩ := hx
    exact h _ (Nat.mod_lt _ hW)

theorem redraw_read_in_bounds_zero (state : Option Int) :
    redraw_read_in_bounds (some 0) state = true := by
  simp [redraw_read_in_bounds]

theorem redraw_read_in_bounds_state (value : ℚ) (state : Int) (h0 : 0 ≤ state)
    (h3 : state < 3) : redraw_read_in_bounds (some value) (some state) = true := by
  simp [redraw_read_in_bounds, h0, h3]

/-- Every `graph_reload` except the one to exactly the old cursor value keeps the reads of
`graph_redraw` inside the arrays. -/
theorem redraw_in_bounds_after_reload (BORDER_SIZE : Nat) (g : PluginGraph)
    (samples : List ℚ) (C W : Nat) (icon_size : Int)
    (background foreground throttle1 throttle2 : GdkRGBA)
    (ha : allocated g C samples) (hc : g.ring_cursor < C)
    (hh : 0 < new_pixmap_height BORDER_SIZE icon_size)
    (hW : new_pixmap_width (new_pixmap_height BORDER_SIZE icon_size) = W)
    (hne : W ≠ g.ring_cursor) (hd : graph_redraw_in_bounds g = true) :
    graph_redraw_in_bounds
      (graph_reload BORDER_SIZE g icon_size background foreground throttle1 throttle2)
      = true := by
  obtain ⟨e1, e2⟩ := redraw_after_reload BORDER_SIZE g samples C W icon_size background
    foreground throttle1 throttle2 ha hc hh hW hne
  rw [graph_redraw_in_bounds_eq, List.all_eq_true] at hd ⊢
  rw [e1, e2]
  intro p hp
  rcases Nat.lt_or_ge C W with hg | hle
  · rw [show C - W = 0 by omega, List.drop_zero, List.drop_zero,
      List.zip_append (by simp), List.zip_replicate', List.mem_append] at hp
    rcases hp with hp | hp
    · rw [List.mem_replicate] at hp
      rw [hp.2]
      exact redraw_read_in_bounds_zero _
    · exact hd p hp
  · simp only [show W - C = 0 by omega, List.replicate_zero, List.nil_append] at hp
    rw [List.zip_eq_zipWith, ← List.drop_zipWith, ← List.zip_eq_zipWith] at hp
    exact hd p (List.mem_of_mem_drop hp)

/-- The buffers after `graph_reload` have the new capacity. -/
theorem graph_reload_allocated (BORDER_SIZE : Nat) (g : PluginGraph) (samples : List ℚ)
    (C W : Nat) (icon_size : Int) (background foreground throttle1 throttle2 : GdkRGBA)
    (ha : allocated g C samples) (hc : g.ring_cursor ≤ C)
    (hh : 0 < new_pixmap_height BORDER_SIZE icon_size)
    (hW : new_pixmap_width (new_pixmap_height BORDER_SIZE icon_size) = W) :
    ((graph_reload BORDER_SIZE g icon_size background foreground throttle1
      throttle2).samples.getD []).length = W ∧
    (graph_reload BORDER_SIZE g icon_size background foreground throttle1
      throttle2).samples ≠ none ∧
    (graph_reload BORDER_SIZE g icon_size background foreground throttle1
      throttle2).samp_states.length = W := by
  obtain ⟨-, h1, h2, h3, h4⟩ := graph_reload_cases BORDER_SIZE g samples C W icon_size
    background foreground throttle1 throttle2 ha hc hh hW
  have hl1 : samples.length = C := ha.2.1
  have hl2 : g.samp_states.length = C := ha.2.2.1
  rcases Nat.lt_trichotomy W C with hlt | heq | hgt
  · by_cases hcw : g.ring_cursor ≤ W
    · obtain ⟨e1, e2, -⟩ := h3 hlt hcw
      rw [e1, e2]
      exact ⟨(shrink_index samples C W _ hl1 hlt hcw).1, by simp,
        (shrink_index g.samp_states C W _ hl2 hlt hcw).1⟩
    · obtain ⟨e1, e2, -⟩ := h4 (by omega)
      rw [e1, e2]
      exact ⟨(window_index samples C W _ hl1 hc (by omega)).1, by simp,
        (window_index g.samp_states C W _ hl2 hc (by omega)).1⟩
  · obtain ⟨e1, e2, -⟩ := h1 heq
    rw [e1, e2]
    exact ⟨by rw [heq]; exact hl1, by simp, by rw [heq]; exact hl2⟩
  · obtain ⟨e1, e2, -⟩ := h2 hgt
    rw [e1, e2]
    exact ⟨(grow_index (0 : ℚ) samples C W _ hl1 hc hgt).1, by simp,
      (grow_index (0 : Int) g.samp_states C W _ hl2 hc hgt).1⟩

/-- A run of at most `C` pushes with state tags 0, 1 or 2 keeps the reads of
`graph_redraw` inside the arrays. -/
theorem redraw_in_bounds_after_pushes (g : PluginGraph) (samples : List ℚ) (C : Nat)
    (pushes : List (ℚ × Int)) (ha : allocated g C samples) (hC : 0 < C)
    (hc0 : g.ring_cursor = 0) (hNC : pushes.length ≤ C)
    (hst : ∀ p ∈ pushes, 0 ≤ p.2 ∧ p.2 < 3) (hd : graph_redraw_in_bounds g = true) :
    graph_redraw_in_bounds (graph_new_points g pushes) = true := by
  obtain ⟨buf, hb, hcur, hnew, hold⟩ := graph_new_points_state g samples C ha hC hc0 pushes
  have hgw : g.pixmap_width = C := ha.2.2.2
  rw [graph_redraw_in_bounds_iff g (by omega), hgw, ha.1] at hd
  rw [graph_redraw_in_bounds_iff _ (by rw [hb.2.2.2, hcur]; exact Nat.mod_lt _ hC),
    hb.2.2.2, hb.1]
  intro i hi
  simp only [Option.getD_some] at hd ⊢
  by_cases hlt : i < pushes.length
  · obtain ⟨p, hp⟩ : ∃ p, pushes[i]? = some p :=
      ⟨pushes[i], List.getElem?_eq_getElem hlt⟩
    obtain ⟨f1, f2⟩ := hnew i i p.1 p.2 hi hp (Nat.mod_eq_of_lt hi)
      (fun j2 h1 h2 => by rw [Nat.mod_eq_of_lt (by omega)]; omega)
    have hm := hst p (List.getElem?_mem hp)
    rw [f1, f2]
    exact redraw_read_in_bounds_state _ _ hm.1 hm.2
  · obtain ⟨f1, f2⟩ := hold i hi (fun j hj => by rw [Nat.mod_eq_of_lt (by omega)]; omega)
    rw [f1, f2]
    exact hd i hi

/-- Resize round trip, for every resize except the one to exactly the old cursor value:
pushing `N ≤ C` samples with values in [0, 1] and state tags 0, 1 or 2 into a graph of
capacity `C` whose cursor is 0 and which `graph_redraw` can draw, then `graph_reload` to
a capacity `W ≥ N`, where not both `N = W` and `W < C`: the reload returns a graph with
buffers of `W` slots and the cursor below `W`, and the `N` slots that precede the cursor,
with wraparound, hold the `N` pushed `(value, state)` pairs in push order. -/
theorem resize_round_trip (BORDER_SIZE : Nat) (g : PluginGraph) (samples : List ℚ)
    (C W N : Nat) (pushes : List (ℚ × Int)) (icon_size : Int)
    (background foreground throttle1 throttle2 : GdkRGBA)
    (ha : allocated g C samples) (hc0 : g.ring_cursor = 0)
    (hd : graph_redraw_in_bounds g = true) (hC : 0 < C)
    (hN : pushes.length = N) (hNC : N ≤ C) (hvals : ∀ p ∈ pushes, 0 ≤ p.1 ∧ p.1 ≤ 1)
    (hst : ∀ p ∈ pushes, 0 ≤ p.2 ∧ p.2 < 3)
    (hh : 0 < new_pixmap_height BORDER_SIZE icon_size)
    (hW : new_pixmap_width (new_pixmap_height BORDER_SIZE icon_size) = W) (hNW : N ≤ W)
    (hne : ¬ (N = W ∧ W < C)) :
    ∃ r, graph_reload_call BORDER_SIZE (graph_new_points g pushes) icon_size background
        foreground throttle1 throttle2 = some r ∧
      r.pixmap_width = W ∧ (r.samples.getD []).length = W ∧ r.samp_states.length = W ∧
      r.ring_cursor < W ∧
      recent r N = pushes.map fun p => (some p.1, some p.2) := by
  obtain ⟨buf, hb, hcur, hnew, -⟩ := graph_new_points_state g samples C ha hC hc0 pushes
  rw [hN] at hcur
  have hWpos : 0 < W := by
    have := new_pixmap_width_ge (new_pixmap_height BORDER_SIZE icon_size)
    omega
  have hcC : (graph_new_points g pushes).ring_cursor < C := by
    rw [hcur]
    exact Nat.mod_lt _ hC
  have hcW : W ≠ (graph_new_points g pushes).ring_cursor := by
    rw [hcur]
    intro h
    by_cases hN2 : N < C
    · rw [Nat.mod_eq_of_lt hN2] at h
      exact hne ⟨h.symm, by omega⟩
    · have : N = C := by omega
      rw [this, Nat.mod_self] at h
      omega
  have hd2 := redraw_in_bounds_after_pushes g samples C pushes ha hC hc0 (by omega) hst hd
  have hd3 := redraw_in_bounds_after_reload BORDER_SIZE (graph_new_points g pushes) buf C W
    icon_size background foreground throttle1 throttle2 hb hcC hh hW hcW hd2
  have hcur3 := cursor_after_reload BORDER_SIZE (graph_new_points g pushes) buf C W
    icon_size background foreground throttle1 throttle2 hb hcC hh hW hcW
  obtain ⟨l1, -, l2⟩ := graph_reload_allocated BORDER_SIZE (graph_new_points g pushes) buf C W
    icon_size background foreground throttle1 throttle2 hb (le_of_lt hcC) hh hW
  have hw3 := (graph_reload_cases BORDER_SIZE (graph_new_points g pushes) buf C W icon_size
    background foreground throttle1 throttle2 hb (le_of_lt hcC) hh hW).1
  refine ⟨graph_reload BORDER_SIZE (graph_new_points g pushes) icon_size background
    foreground throttle1 throttle2, ?_, hw3, l1, l2, by rw [← hw3]; exact hcur3, ?_⟩
  · unfold graph_reload_call
    simp only
    rw [if_pos ⟨by rw [hW]; exact hWpos, hh⟩, if_pos hd3]
  · apply List.ext_getElem?
    intro i
    by_cases hi : i < N
    · obtain ⟨s1, s2⟩ := recent_slot BORDER_SIZE (graph_new_points g pushes) buf C W N
        icon_size background foreground throttle1 throttle2 hb hC hcur hNC hNW hh hW i hi
      have hlt : i < pushes.length := by omega
      obtain ⟨p, hp⟩ : ∃ p, pushes[i]? = some p :=
        ⟨pushes[i], List.getElem?_eq_getElem hlt⟩
      have hm := hvals p (List.getElem?_mem hp)
      obtain ⟨f1, f2⟩ := hnew i i p.1 p.2 (by omega) hp (Nat.mod_eq_of_lt (by omega))
        (fun j2 h1 h2 => by rw [Nat.mod_eq_of_lt (by omega)]; omega)
      rw [clamp_sample_unit _ hm.1 hm.2] at f1
      simp only [recent, List.getElem?_map, List.getElem?_range hi, Option.map_some', hp]
      rw [s1, s2, f1, f2]
    · rw [List.getElem?_eq_none (by simp [recent]; omega),
        List.getElem?_eq_none (by simp; omega)]

/-! ## The sample graphs -/

theorem graph_new_point_float_clamps_witness :
    ((graph_new_point_float (float_graph graph60) (CFloat.finite (-3 / 10)) 2).samples.getD
        [])[(float_graph graph60).ring_cursor]?
      = some (clamp_float (CFloat.finite (-3 / 10))) ∧
    (graph_new_point_float (float_graph graph60) (CFloat.finite (-3 / 10))
        2).samp_states[(float_graph graph60).ring_cursor]? = some 2 ∧
    clamp_float (CFloat.finite (-3 / 10)) = CFloat.finite (min (max (-3 / 10) 0) 1) :=
  ⟨(graph_new_point_float_clamps (float_graph graph60)
      (List.replicate 60 (CFloat.finite 0)) (CFloat.finite (-3 / 10)) 2 (by decide!)
      (by decide!) (by decide!)).2.1,
    (graph_new_point_float_clamps (float_graph graph60)
      (List.replicate 60 (CFloat.finite 0)) (CFloat.finite (-3 / 10)) 2 (by decide!)
      (by decide!) (by decide!)).2.2.1,
    (graph_new_point_float_clamps (float_graph graph60)
      (List.replicate 60 (CFloat.finite 0)) (CFloat.finite (-3 / 10)) 2 (by decide!)
      (by decide!) (by decide!)).2.2.2.2.1 (-3 / 10) rfl⟩

/-- C11, counterexample: a NaN pushed into the fresh capacity-60 graph passes both
comparisons of the clamp and is stored in the slot at the cursor: the stored sample is
no number of [0, 1], and neither 0 nor 1. -/
theorem graph_new_point_stores_nan :
    (float_graph graph60).ring_cursor = 0 ∧
    CFloat.lt CFloat.nan (CFloat.finite 0) = false ∧
    CFloat.lt (CFloat.finite 1) CFloat.nan = false ∧
    ((graph_new_point_float (float_graph graph60) CFloat.nan 2).samples.getD [])[0]?
      = some CFloat.nan ∧
    (graph_new_point_float (float_graph graph60) CFloat.nan 2).samp_states[0]? = some 2 ∧
    ¬ ∃ q : ℚ, ((graph_new_point_float (float_graph graph60) CFloat.nan 2).samples.getD [])[0]?
      = some (CFloat.finite q) ∧ 0 ≤ q ∧ q ≤ 1 := by
  refine ⟨by decide!, by decide!, by decide!, by decide!, by decide!, ?_⟩
  rintro ⟨q, hq, -⟩
  have h : ((graph_new_point_float (float_graph graph60) CFloat.nan 2).samples.getD [])[0]?
      = some CFloat.nan := by decide!
  rw [h] at hq
  cases hq

theorem graph_new_points_ring_witness :
    (graph_new_points graph50 pushes51).ring_cursor = 51 % 50 ∧
    ((graph_new_points graph50 pushes51).samples.getD [])[0]?
      = some (min (max (17 / 10 : ℚ) 0) 1) :=
  ⟨(graph_new_points_ring graph50 (List.replicate 50 0) 50 pushes51
      (by unfold allocated; decide!) (by decide) (by decide!)).1,
    ((graph_new_points_ring graph50 (List.replicate 50 0) 50 pushes51
      (by unfold allocated; decide!) (by decide) (by decide!)).2.2.2.2 rfl (by decide!)
      (1 / 25) 1 (17 / 10) 2 (by decide!) (by decide!)).1⟩

/-- The round trip for the fifty pushes into the capacity-60 graph and a reload to
capacity 120. -/
theorem resize_round_trip_grown :
    graph_reload_call 1 graph_filled 82 grey grey grey grey = some graph_grown ∧
    graph_grown.pixmap_width = 120 ∧ graph_grown.ring_cursor = 50 ∧
    recent graph_grown 50 = pushes50.map fun p => (some p.1, some p.2) := by
  decide!

theorem popup_position_in_work_area_witness :
    lxpanel_plugin_popup_set_position_helper sample_query = (1720, 30) ∧
    (work_area sample_query).x ≤ (lxpanel_plugin_popup_set_position_helper sample_query).1 ∧
    (lxpanel_plugin_popup_set_position_helper sample_query).1 + (popup_req sample_query).width
      ≤ (work_area sample_query).x + (work_area sample_query).width :=
  ⟨by decide,
    (popup_position_in_work_area sample_query (by decide) (by decide)).1.1,
    (popup_position_in_work_area sample_query (by decide) (by decide)).1.2.1⟩

theorem graph_reload_remap_witness :
    graph_shrunk.pixmap_width = 50 ∧ graph_shrunk.ring_cursor = graph_filled.ring_cursor := by
  have h := graph_reload_remap 1 graph_filled graph_shrunk (graph_filled.samples.getD []) 60 50
    22 grey grey grey grey (by unfold allocated; decide!) (by decide!) (by decide!)
    (by decide!) rfl
  exact ⟨h.1, (h.2.2.2.1 (by decide) (by decide!)).1⟩

theorem graph_reload_first_witness :
    (graph_reload 1 (graph_init blank_graph) 42 grey grey grey grey).samples
      = some (List.replicate (max (3 * ((42 : Int) - 2 * ((1 : Nat) : Int)).toNat / 2) 50) 0) ∧
    (graph_reload 1 (graph_init blank_graph) 2 grey grey grey grey).samples = none := by
  have h := graph_reload_first 1 (graph_init blank_graph) 42 grey grey grey grey rfl
  have h2 := graph_reload_first 1 (graph_init blank_graph) 2 grey grey grey grey rfl
  refine ⟨(h.1 (by decide) (by decide)).1, ?_⟩
  rw [h2.2.1 (by decide)]
  rfl

/-- C18, counterexample: with `BORDER_SIZE` 1 and icon size 2 the target height is 0 and
`graph_reload` allocates nothing: the sample pointer stays `NULL` and `pixmap_width` is
not 50. -/
theorem graph_reload_zero_height :
    new_pixmap_height 1 2 = 0 ∧
    (graph_init blank_graph).samples = none ∧
    (graph_reload 1 (graph_init blank_graph) 2 grey grey grey grey).samples = none ∧
    (graph_reload 1 (graph_init blank_graph) 2 grey grey grey grey).samp_states = [] ∧
    (graph_reload 1 (graph_init blank_graph) 2 grey grey grey grey).pixmap_width = 0 := by
  decide!

/-- C13, failing input: a graph of capacity 60 whose cursor is 50 after fifty pushes is
reloaded to capacity 50; the cursor stays 50, which is not below the new capacity, so
the first slot `graph_redraw` reads and the slot the next `graph_new_point` writes lie
outside the 50-slot buffers. -/
theorem shrink_to_cursor_leaves_cursor_outside :
    graph60.pixmap_width = 60 ∧ graph60.ring_cursor = 0 ∧
    graph_filled.pixmap_width = 60 ∧ graph_filled.ring_cursor = 50 ∧
    graph_shrunk.pixmap_width = 50 ∧
    (graph_shrunk.samples.getD []).length = 50 ∧
    graph_shrunk.samp_states.length = 50 ∧
    graph_shrunk.ring_cursor = 50 ∧
    ¬ graph_shrunk.ring_cursor < graph_shrunk.pixmap_width ∧
    (graph_redraw_cursors graph_shrunk).head? = some 50 ∧
    (graph_shrunk.samples.getD [])[graph_shrunk.ring_cursor]? = none := by
  decide!

/-- C14, failing input: for the same reload the new buffer holds the 50 newest entries in
order, but `graph_redraw`, starting at the cursor 50, reads outside the buffer first and
then the slots 0 to 48: what it reads is not the last 50 entries of what it read before
the reload, for the samples and for the state tags. -/
theorem shrink_to_cursor_redraw :
    graph_shrunk.samples = some ((graph_filled.samples.getD []).take 50) ∧
    (redraw_samples graph_filled).drop (60 - 50)
      = ((graph_filled.samples.getD []).take 50).map some ∧
    redraw_samples graph_shrunk
      = none :: ((graph_filled.samples.getD []).take 49).map some ∧
    redraw_samples graph_shrunk
      ≠ (List.replicate (50 - 60) (some 0) ++ redraw_samples graph_filled).drop (60 - 50) ∧
    redraw_states graph_shrunk
      ≠ (List.replicate (50 - 60) (some 0) ++ redraw_states graph_filled).drop (60 - 50) := by
  decide!

/-- C15, failing input: fifty pushes with values in [0, 1] into the fresh capacity-60
graph, then `graph_reload` to capacity 50, which is at least 50: the cursor is left at
50, so the `graph_redraw` that ends `graph_reload` starts with a read of slot 50 of
the 50-slot sample buffer, and the reload does not come back with a graph to read the
fifty pushes from. -/
theorem shrink_to_cursor_round_trip :
    graph60.samples = some (List.replicate 60 0) ∧
    graph60.pixmap_width = 60 ∧ graph60.ring_cursor = 0 ∧
    pushes50.length = 50 ∧ (∀ p ∈ pushes50, 0 ≤ p.1 ∧ p.1 ≤ 1) ∧
    new_pixmap_width (new_pixmap_height 1 22) = 50 ∧
    (graph_reload 1 (graph_new_points graph60 pushes50) 22 grey grey grey grey).ring_cursor
      = 50 ∧
    ((graph_reload 1 (graph_new_points graph60 pushes50) 22 grey grey grey
      grey).samples.getD []).length = 50 ∧
    (graph_redraw_cursors
      (graph_reload 1 (graph_new_points graph60 pushes50) 22 grey grey grey grey)).head?
      = some 50 ∧
    ((graph_reload 1 (graph_new_points graph60 pushes50) 22 grey grey grey
      grey).samples.getD [])[50]? = none ∧
    redraw_read_in_bounds
      ((graph_reload 1 (graph_new_points graph60 pushes50) 22 grey grey grey
        grey).samples.getD [])[50]?
      (graph_reload 1 (graph_new_points graph60 pushes50) 22 grey grey grey
        grey).samp_states[50]? = false ∧
    graph_redraw_in_bounds
      (graph_reload 1 (graph_new_points graph60 pushes50) 22 grey grey grey grey) = false ∧
    graph_reload_call 1 (graph_new_points graph60 pushes50) 22 grey grey grey grey = none := by
  decide!

end LXPanel
